import Mathlib

/-!
# Filename timestamp extraction (`extractDateFromFilename`, `src/main.go`)

A shallow embedding of the pattern cascade of `src/main.go`, lines 139-237.

* Go strings are modelled as `List Char` (one entry per rune the regexp engine reads).
* `regexp` is modelled by a backtracking matcher with leftmost-first semantics and
  capture groups (`Regex`, `matchRe`, `FindStringSubmatch`, `MatchString`).
* `time.Time` is modelled as an instant (Unix seconds and nanoseconds); `time.Parse`,
  `time.Unix`, `Time.Year` and `Time.Format` go through the proleptic Gregorian calendar.
* The process's local time zone, read by `time.Unix(...).Year()`, is an explicit parameter.
-/

namespace ImmichTimestampFix

/-! ## Regular expressions -/

/-- The fragment of Go `regexp` syntax used by `src/main.go`. -/
inductive Regex where
  /-- One rune of a character class: `\d`, `[-_]`, `\.`, a literal rune. -/
  | cls (p : Char → Bool)
  /-- The empty regular expression. -/
  | eps
  /-- Concatenation. -/
  | seq (a b : Regex)
  /-- Alternation `a|b`, preferring `a`. -/
  | alt (a b : Regex)
  /-- Greedy repetition `a*`. -/
  | star (a : Regex)
  /-- Capture group number `i`. -/
  | group (i : Nat) (a : Regex)
  /-- Beginning of text `^`. -/
  | bot
  /-- End of text `$` (no multi-line flag). -/
  | eot

/-- Continuation of a match: the remaining input and the captures so far. -/
abbrev Cont := List Char → List (List Char) → Option (List (List Char))

/-- Greedy iteration of the matcher `ma`: take one more iteration that consumes input when the
rest of the match succeeds that way, otherwise stop here. -/
def starLoop (ma : List Char → List (List Char) → Cont → Option (List (List Char))) :
    Nat → List Char → List (List Char) → Cont → Option (List (List Char))
  | 0, rest, caps, k => k rest caps
  | fuel + 1, rest, caps, k =>
    match ma rest caps (fun rest1 caps1 =>
        if rest1.length < rest.length then starLoop ma fuel rest1 caps1 k else none) with
    | some r => some r
    | none => k rest caps

/-- Backtracking matcher in continuation-passing style. `n` is the length of the whole text
(for `^`), `rest` the unread input, `caps` the capture slots. Alternatives are tried in the
order of Go's leftmost-first semantics. -/
def matchRe (n : Nat) : Regex → List Char → List (List Char) → Cont → Option (List (List Char))
  | .cls p, rest, caps, k =>
    match rest with
    | [] => none
    | c :: rest1 => if p c then k rest1 caps else none
  | .eps, rest, caps, k => k rest caps
  | .seq a b, rest, caps, k => matchRe n a rest caps (fun rest1 caps1 => matchRe n b rest1 caps1 k)
  | .alt a b, rest, caps, k =>
    match matchRe n a rest caps k with
    | some r => some r
    | none => matchRe n b rest caps k
  | .star a, rest, caps, k => starLoop (matchRe n a) rest.length rest caps k
  | .group i a, rest, caps, k =>
    matchRe n a rest caps (fun rest1 caps1 =>
      k rest1 (caps1.set i (rest.take (rest.length - rest1.length))))
  | .bot, rest, caps, k => if rest.length = n then k rest caps else none
  | .eot, rest, caps, k => if rest = [] then k rest caps else none

/-- Number of capture groups of a regular expression (`Regexp.NumSubexp`). -/
def numSubexp : Regex → Nat
  | .cls _ => 0
  | .eps => 0
  | .seq a b => numSubexp a + numSubexp b
  | .alt a b => numSubexp a + numSubexp b
  | .star a => numSubexp a
  | .group _ a => numSubexp a + 1
  | .bot => 0
  | .eot => 0

/-- Try the start positions from left to right; `rest` is the text from the current start. -/
def findFrom (n : Nat) (re : Regex) : List Char → Option (List (List Char))
  | [] => matchRe n (.group 0 re) [] (List.replicate (numSubexp re + 1) []) (fun _ caps => some caps)
  | c :: rest =>
    match matchRe n (.group 0 re) (c :: rest) (List.replicate (numSubexp re + 1) [])
        (fun _ caps => some caps) with
    | some caps => some caps
    | none => findFrom n re rest

/-- The call `re.FindStringSubmatch(s)`: the leftmost match and its captures, entry 0 being the
whole match; `none` is Go's `nil`. -/
def FindStringSubmatch (re : Regex) (s : List Char) : Option (List (List Char)) :=
  findFrom s.length re s

/-- The call `re.MatchString(s)`. -/
def MatchString (re : Regex) (s : List Char) : Bool :=
  (FindStringSubmatch re s).isSome

/-! ### Declarative matching -/

/-- Declarative iteration of a matching relation `R` (for `a*`): `w` is a concatenation of
words matched by `R` one after the other, `rest` is what follows `w` in the text. -/
inductive StarMatches (R : List Char → List Char → List (List Char) → List (List Char) → Prop) :
    List Char → List Char → List (List Char) → List (List Char) → Prop where
  | done (rest : List Char) (caps : List (List Char)) : StarMatches R [] rest caps caps
  | more (w1 w2 rest : List Char) (caps caps1 caps2 : List (List Char)) :
      R w1 (w2 ++ rest) caps caps1 → StarMatches R w2 rest caps1 caps2 →
      StarMatches R (w1 ++ w2) rest caps caps2

/-- Declarative matching: in a text of length `n`, the regular expression matches the word `w`
when `rest` follows it, turning the capture slots `caps` into `caps1`. -/
def Matches (n : Nat) : Regex → List Char → List Char → List (List Char) → List (List Char) → Prop
  | .cls p, w, _, caps, caps1 => ∃ c, w = [c] ∧ p c = true ∧ caps1 = caps
  | .eps, w, _, caps, caps1 => w = [] ∧ caps1 = caps
  | .seq a b, w, rest, caps, caps1 =>
    ∃ w1 w2 capsMid, w = w1 ++ w2 ∧ Matches n a w1 (w2 ++ rest) caps capsMid ∧
      Matches n b w2 rest capsMid caps1
  | .alt a b, w, rest, caps, caps1 => Matches n a w rest caps caps1 ∨ Matches n b w rest caps caps1
  | .star a, w, rest, caps, caps1 => StarMatches (Matches n a) w rest caps caps1
  | .group i a, w, rest, caps, caps1 => ∃ capsIn, Matches n a w rest caps capsIn ∧ caps1 = capsIn.set i w
  | .bot, w, rest, caps, caps1 => w = [] ∧ rest.length = n ∧ caps1 = caps
  | .eot, w, rest, caps, caps1 => w = [] ∧ rest = [] ∧ caps1 = caps

/-! ### Pattern syntax -/

/-- Concatenation of a list of regular expressions. -/
def cat : List Regex → Regex
  | [] => .eps
  | r :: rs => .seq r (cat rs)

/-- Counted repetition `r{n}`. -/
def rep : Nat → Regex → Regex
  | 0, _ => .eps
  | n + 1, r => .seq r (rep n r)

/-- Greedy `r+`. -/
def plus (r : Regex) : Regex := .seq r (.star r)

/-- Greedy `r?`. -/
def opt (r : Regex) : Regex := .alt r .eps

/-- A literal rune. -/
def lit (c : Char) : Regex := .cls (fun x => x == c)

/-- A literal string. -/
def str (s : String) : Regex := cat (s.toList.map lit)

/-- Perl class `\d`: ASCII digits only. -/
def isDigit (c : Char) : Bool := '0' ≤ c && c ≤ '9'

/-- Perl class `\s`: `[\t\n\f\r ]`. -/
def isSpace (c : Char) : Bool :=
  c == '\t' || c == '\n' || c == Char.ofNat 12 || c == '\r' || c == ' '

/-- Class `[a-zA-Z0-9]`. -/
def isAlnum (c : Char) : Bool :=
  ('a' ≤ c && c ≤ 'z') || ('A' ≤ c && c ≤ 'Z') || ('0' ≤ c && c ≤ '9')

/-- Pattern `\d{n}`. -/
def digits (n : Nat) : Regex := rep n (.cls isDigit)

/-- Pattern `\.[a-zA-Z0-9]+`. -/
def dotExt : Regex := .seq (lit '.') (plus (.cls isAlnum))

/-! ### The patterns of `extractDateFromFilename`, in source order -/

/-- Line 149: `(\d{4})-(\d{2})-(\d{2})[-_](\d{2})-(\d{2})-(\d{2})`. -/
def re1 : Regex :=
  cat [.group 1 (digits 4), lit '-', .group 2 (digits 2), lit '-', .group 3 (digits 2),
    .cls (fun c => c == '-' || c == '_'),
    .group 4 (digits 2), lit '-', .group 5 (digits 2), lit '-', .group 6 (digits 2)]

/-- Line 154: `(\d{4})(\d{2})(\d{2})[_-](\d{2})(\d{2})(\d{2})`. -/
def re2 : Regex :=
  cat [.group 1 (digits 4), .group 2 (digits 2), .group 3 (digits 2),
    .cls (fun c => c == '_' || c == '-'),
    .group 4 (digits 2), .group 5 (digits 2), .group 6 (digits 2)]

/-- Line 159: `(\d{4})-(\d{2})-(\d{2})[ _](\d{2})\.(\d{2})\.(\d{2})`. -/
def re3 : Regex :=
  cat [.group 1 (digits 4), lit '-', .group 2 (digits 2), lit '-', .group 3 (digits 2),
    .cls (fun c => c == ' ' || c == '_'),
    .group 4 (digits 2), lit '.', .group 5 (digits 2), lit '.', .group 6 (digits 2)]

/-- Line 164: `(\d{4})(\d{2})(\d{2})[-_](\d{2})(\d{2})(\d{2})`. -/
def re4 : Regex :=
  cat [.group 1 (digits 4), .group 2 (digits 2), .group 3 (digits 2),
    .cls (fun c => c == '-' || c == '_'),
    .group 4 (digits 2), .group 5 (digits 2), .group 6 (digits 2)]

/-- Line 169: `IMG-(\d{4})(\d{2})(\d{2})-WA\d+`. -/
def re5 : Regex :=
  cat [str "IMG-", .group 1 (digits 4), .group 2 (digits 2), .group 3 (digits 2),
    str "-WA", plus (.cls isDigit)]

/-- Line 174: `(\d{4})-(\d{2})-(\d{2})_(\d{2})(\d{2})`. -/
def re6 : Regex :=
  cat [.group 1 (digits 4), lit '-', .group 2 (digits 2), lit '-', .group 3 (digits 2),
    lit '_', .group 4 (digits 2), .group 5 (digits 2)]

/-- Line 179: `IMG_(\d{4})-(\d{2})-(\d{2})-(\d{2})(\d{2})(\d{2})\d{2}`. -/
def re7 : Regex :=
  cat [str "IMG_", .group 1 (digits 4), lit '-', .group 2 (digits 2), lit '-',
    .group 3 (digits 2), lit '-', .group 4 (digits 2), .group 5 (digits 2), .group 6 (digits 2),
    digits 2]

/-- Line 184 (detection): `(\d{4})-(\d{2})-(\d{2})(?:[^\s.]*)?\.[a-zA-Z0-9]+`. -/
def re8 : Regex :=
  cat [.group 1 (digits 4), lit '-', .group 2 (digits 2), lit '-', .group 3 (digits 2),
    opt (.star (.cls (fun c => !(isSpace c || c == '.')))), dotExt]

/-- Line 185 (extraction): `(\d{4})-(\d{2})-(\d{2})`. -/
def re8x : Regex :=
  cat [.group 1 (digits 4), lit '-', .group 2 (digits 2), lit '-', .group 3 (digits 2)]

/-- Line 189: `(?:^|[^0-9])(\d{13})(?:[^\d\s.]*)?\.[a-zA-Z0-9]+$`. -/
def re9 : Regex :=
  cat [.alt .bot (.cls (fun c => !('0' ≤ c && c ≤ '9'))), .group 1 (digits 13),
    opt (.star (.cls (fun c => !(isDigit c || isSpace c || c == '.')))), dotExt, .eot]

/-- Line 202: `BURST(\d{8})(\d{6})`. -/
def re10 : Regex :=
  cat [str "BURST", .group 1 (digits 8), .group 2 (digits 6)]

/-- Line 209: `_(\d{8})(\d{6})\.[a-zA-Z0-9]+$`. -/
def re11 : Regex :=
  cat [lit '_', .group 1 (digits 8), .group 2 (digits 6), dotExt, .eot]

/-- Line 216: `CameraZOOM-(\d{4})(\d{2})(\d{2})\d+\.[a-zA-Z0-9]+$`. -/
def re12 : Regex :=
  cat [str "CameraZOOM-", .group 1 (digits 4), .group 2 (digits 2), .group 3 (digits 2),
    plus (.cls isDigit), dotExt, .eot]

/-- Line 223: `-(\d{4})(\d{2})(\d{2})(\d{2})(\d{2})(\d{2})(\d{3})`. -/
def re13 : Regex :=
  cat [lit '-', .group 1 (digits 4), .group 2 (digits 2), .group 3 (digits 2),
    .group 4 (digits 2), .group 5 (digits 2), .group 6 (digits 2), .group 7 (digits 3)]

/-! ## Time -/

/-- Is `year` a leap year of the proleptic Gregorian calendar (`time.isLeap`)? -/
def isLeap (year : Int) : Bool :=
  year % 4 == 0 && (year % 100 != 0 || year % 400 == 0)

/-- Number of days of `month` in `year` (`time.daysIn`). -/
def daysIn (month : Nat) (year : Int) : Nat :=
  if month = 2 then (if isLeap year then 29 else 28)
  else if month = 4 ∨ month = 6 ∨ month = 9 ∨ month = 11 then 30
  else 31

/-- Days from 1970-01-01 to the civil date `year`-`month`-`day` of the proleptic Gregorian
calendar (years counted from March, in eras of 400 years). -/
def daysFromCivil (year : Int) (month day : Nat) : Int :=
  let y : Int := if month ≤ 2 then year - 1 else year
  let era : Int := y / 400
  let yoe : Int := y % 400
  let mp : Int := if month ≤ 2 then (month : Int) + 9 else (month : Int) - 3
  let doy : Int := (153 * mp + 2) / 5 + (day : Int) - 1
  let doe : Int := yoe * 365 + yoe / 4 - yoe / 100 + doy
  era * 146097 + doe - 719468

/-- A civil date. -/
structure Civil where
  year : Int
  month : Nat
  day : Nat
  deriving DecidableEq, Repr

/-- Split a day of a 400-year era (counted from March 1 of its first year) into the year of the
era and the day of that year, cutting off 100-year cycles, 4-year cycles and single years. -/
def splitEra (doe : Int) : Int × Int :=
  let n100 : Int := min (doe / 36524) 3
  let r : Int := doe - 36524 * n100
  let n4 : Int := r / 1461
  let r2 : Int := r - 1461 * n4
  let n1 : Int := min (r2 / 365) 3
  (100 * n100 + 4 * n4 + n1, r2 - 365 * n1)

/-- Split a day of a year that starts on March 1 into the month (0 is March) and the day of the
month. -/
def splitYear (doy : Int) : Int × Int :=
  let mp : Int := (5 * doy + 2) / 153
  (mp, doy - (153 * mp + 2) / 5 + 1)

/-- The civil date of the proleptic Gregorian calendar that lies `z` days after 1970-01-01. -/
def civilFromDays (z : Int) : Civil :=
  let era : Int := (z + 719468) / 146097
  let doe : Int := (z + 719468) % 146097
  let yd := splitEra doe
  let md := splitYear yd.2
  let m : Int := if md.1 < 10 then md.1 + 3 else md.1 - 9
  { year := if m ≤ 2 then yd.1 + era * 400 + 1 else yd.1 + era * 400
    month := m.toNat
    day := md.2.toNat }

/-- The location a `time.Time` value presents itself in. -/
inductive Loc where
  | utc
  | localZone
  deriving DecidableEq, Repr

/-- The process's local time zone (`time.Local`): the offset east of UTC, in seconds, in force at
each instant (given in Unix seconds). Go accepts offsets of up to seven days in `TZ`. -/
structure Zone where
  offset : Int → Int
  bounded : ∀ t, -604800 ≤ offset t ∧ offset t ≤ 604800

/-- The zone UTC. -/
def Zone.UTC : Zone := ⟨fun _ => 0, by intro _; dsimp only; omega⟩

/-- A zone with the same offset at every instant (`time.FixedZone`). -/
def Zone.fixed (off : Int) (h : -604800 ≤ off ∧ off ≤ 604800) : Zone := ⟨fun _ => off, fun _ => h⟩

/-- The fixed zone five hours west of UTC (`time.FixedZone("EST", -5*3600)`). -/
def Zone.utcMinus5 : Zone := Zone.fixed (-18000) (by omega)

/-- A `time.Time`: an instant, as seconds and nanoseconds since 1970-01-01T00:00:00Z, and the
location it is presented in. -/
structure Time where
  sec : Int
  nsec : Int
  loc : Loc
  deriving DecidableEq, Repr

/-- The zero `time.Time`, January 1, year 1, 00:00:00 UTC. -/
def Time.zero : Time := ⟨-62135596800, 0, .utc⟩

/-- The method `t.UTC()`. -/
def Time.UTC (t : Time) : Time := { t with loc := .utc }

/-- Seconds since 1970-01-01T00:00:00 on the clock of the location of `t`. -/
def Time.wall (tz : Zone) (t : Time) : Int :=
  match t.loc with
  | .utc => t.sec
  | .localZone => t.sec + tz.offset t.sec

/-- The civil date of `t` in its location. -/
def Time.date (tz : Zone) (t : Time) : Civil := civilFromDays (t.wall tz / 86400)

/-- The method `t.Year()`. -/
def Time.Year (tz : Zone) (t : Time) : Int := (t.date tz).year

/-- The call `time.Unix(sec, nsec)`: the local time that many seconds and nanoseconds after
1970-01-01T00:00:00Z; `nsec` outside `[0, 999999999]` carries into the seconds. -/
def Unix (sec nsec : Int) : Time :=
  ⟨sec + nsec / 1000000000, nsec % 1000000000, .localZone⟩

/-- The call `time.Date(year, month, day, hour, min, sec, nsec, time.UTC)` on fields that are in
range (the calls made by `time.Parse`, which has validated them). -/
def Date (year : Int) (month day hour min sec : Nat) (nsec : Int) : Time :=
  ⟨daysFromCivil year month day * 86400 + hour * 3600 + min * 60 + sec, nsec, .utc⟩

/-- Go's `int64(x)` of a mathematical integer: wrap around modulo `2^64`. -/
def wrapInt64 (x : Int) : Int := (x + 9223372036854775808) % 18446744073709551616 - 9223372036854775808

/-! ### Layouts, `time.Parse` and `Time.Format` -/

/-- The elements of the layouts used by `src/main.go`, as `time.nextStdChunk` cuts them. -/
inductive Chunk where
  /-- Year `2006`. -/
  | stdLongYear
  /-- Month `01`. -/
  | stdZeroMonth
  /-- Day of the month `02`. -/
  | stdZeroDay
  /-- Hour `15`. -/
  | stdHour
  /-- Minute `04`. -/
  | stdZeroMinute
  /-- Second `05`. -/
  | stdZeroSecond
  /-- Fractional second `.000` with `n` digits. -/
  | stdFracSecond0 (n : Nat)
  /-- Literal text between two elements. -/
  | text (s : List Char)

/-- Value of a decimal digit rune. -/
def digitVal (c : Char) : Nat := c.toNat - 48

/-- The rune of a decimal digit. -/
def digitChar (d : Nat) : Char := Char.ofNat (48 + d)

/-- Go's `time.cutspace`: drop leading spaces. -/
def cutspace : List Char → List Char
  | [] => []
  | c :: s => if c = ' ' then cutspace s else c :: s

/-- Go's `time.skip value prefix`, by recursion on a bound of the length of `prefix`: remove
`prefix` from the front of `value`; a space of the prefix stands for any run of spaces. -/
def skipAux : Nat → List Char → List Char → Option (List Char)
  | 0, _, _ => none
  | _ + 1, value, [] => some value
  | fuel + 1, value, c :: pre =>
    if c = ' ' then
      match value with
      | [] => skipAux fuel [] (cutspace pre)
      | v :: vs => if v ≠ ' ' then none else skipAux fuel (cutspace (v :: vs)) (cutspace pre)
    else
      match value with
      | [] => none
      | v :: vs => if v ≠ c then none else skipAux fuel vs pre

/-- Go's `time.skip`. -/
def skip (value pre : List Char) : Option (List Char) := skipAux (pre.length + 1) value pre

/-- Go's `time.getnum`: one or two decimal digits, exactly two when `fixed`. -/
def getnum (s : List Char) (fixed : Bool) : Option (Nat × List Char) :=
  match s with
  | [] => none
  | a :: s1 =>
    if !isDigit a then none
    else
      match s1 with
      | [] => if fixed then none else some (digitVal a, s1)
      | b :: s2 =>
        if !isDigit b then (if fixed then none else some (digitVal a, s1))
        else some (digitVal a * 10 + digitVal b, s2)

/-- Go's `time.leadingInt` (on the short inputs met here, which cannot overflow): the value of
the leading decimal digits, continuing from `acc`, and the rest. -/
def leadingInt : List Char → Nat → Nat × List Char
  | [], acc => (acc, [])
  | c :: s, acc => if isDigit c then leadingInt s (acc * 10 + digitVal c) else (acc, c :: s)

/-- Go's `time.atoi`: an optional sign and decimal digits, nothing else. -/
def atoi (s : List Char) : Option Int :=
  let neg : Bool := match s with
    | [] => false
    | c :: _ => c == '-'
  let s1 : List Char := match s with
    | [] => []
    | c :: r => if c == '-' || c == '+' then r else c :: r
  let qr := leadingInt s1 0
  if qr.2 ≠ [] then none else some (if neg then -(qr.1 : Int) else (qr.1 : Int))

/-- Go's `time.parseNanoseconds value nbytes`: a period or comma and `nbytes - 1` digits, scaled
to nanoseconds. -/
def parseNanoseconds (value : List Char) (nbytes : Nat) : Option Int :=
  match value with
  | [] => none
  | c :: _ =>
    if !(c == '.' || c == ',') then none
    else
      let nb : Nat := if nbytes > 10 then 10 else nbytes
      match atoi ((value.take nb).drop 1) with
      | none => none
      | some ns => if ns < 0 then none else some (ns * 10 ^ (10 - nb))

/-- The fields `time.Parse` collects; month and day start unset. -/
structure Parsed where
  year : Int := 0
  month : Option Nat := none
  day : Option Nat := none
  hour : Nat := 0
  min : Nat := 0
  sec : Nat := 0
  nsec : Int := 0

/-- The loop of `time.parse` over the elements of the layout; `none` is a parse error. -/
def parseLoop : List Chunk → List Char → Parsed → Option Parsed
  | [], value, f => if value ≠ [] then none else some f
  | .text pre :: layout, value, f =>
    match skip value pre with
    | none => none
    | some value1 => parseLoop layout value1 f
  | .stdLongYear :: layout, value, f =>
    match value with
    | a :: _ :: _ :: _ :: _ =>
      if !isDigit a then none
      else
        match atoi (value.take 4) with
        | none => none
        | some y => parseLoop layout (value.drop 4) { f with year := y }
    | _ => none
  | .stdZeroMonth :: layout, value, f =>
    match getnum value true with
    | none => none
    | some (m, value1) =>
      if m ≤ 0 ∨ 12 < m then none else parseLoop layout value1 { f with month := some m }
  | .stdZeroDay :: layout, value, f =>
    match getnum value true with
    | none => none
    | some (d, value1) => parseLoop layout value1 { f with day := some d }
  | .stdHour :: layout, value, f =>
    match getnum value false with
    | none => none
    | some (h, value1) => if 24 ≤ h then none else parseLoop layout value1 { f with hour := h }
  | .stdZeroMinute :: layout, value, f =>
    match getnum value true with
    | none => none
    | some (m, value1) => if 60 ≤ m then none else parseLoop layout value1 { f with min := m }
  | .stdZeroSecond :: layout, value, f =>
    match getnum value true with
    | none => none
    | some (sc, value1) =>
      if 60 ≤ sc then none
      else
        -- a fractional second in the value although the layout has none here
        let frac : Bool := match value1 with
          | c :: d :: _ => (c == '.' || c == ',') && isDigit d
          | _ => false
        let layoutHasFrac : Bool := match layout with
          | .stdFracSecond0 _ :: _ => true
          | _ => false
        if frac && !layoutHasFrac then
          let n : Nat := 1 + ((value1.drop 1).takeWhile isDigit).length
          match parseNanoseconds value1 n with
          | none => none
          | some ns => parseLoop layout (value1.drop n) { f with sec := sc, nsec := ns }
        else parseLoop layout value1 { f with sec := sc }
  | .stdFracSecond0 n :: layout, value, f =>
    if value.length < 1 + n then none
    else
      match parseNanoseconds value (1 + n) with
      | none => none
      | some ns => parseLoop layout (value.drop (1 + n)) { f with nsec := ns }

/-- The call `time.Parse(layout, value)`: the time and whether `err != nil`. On an error the time
is the zero time. Without zone information in the layout the result is in UTC. -/
def Parse (layout : List Chunk) (value : List Char) : Time × Bool :=
  match parseLoop layout value {} with
  | none => (Time.zero, true)
  | some f =>
    let month : Nat := f.month.getD 1
    let day : Nat := f.day.getD 1
    if day < 1 ∨ day > daysIn month f.year then (Time.zero, true)
    else (Date f.year month day f.hour f.min f.sec f.nsec, false)

/-- Left-pad a list of digits with zeros to `width`. -/
def zeroPad (width : Nat) (ds : List Char) : List Char :=
  List.replicate (width - ds.length) '0' ++ ds

/-- Go's `time.appendInt`: `x` in decimal, zero-padded to `width`, with the fast paths for two
and four digits. -/
def appendInt (x : Int) (width : Nat) : List Char :=
  let u : Nat := x.natAbs
  let sign : List Char := if x < 0 then ['-'] else []
  if width = 2 ∧ u < 100 then sign ++ [digitChar (u / 10), digitChar (u % 10)]
  else if width = 4 ∧ u < 10000 then
    sign ++ [digitChar (u / 100 / 10), digitChar (u / 100 % 10),
      digitChar (u % 100 / 10), digitChar (u % 100 % 10)]
  else sign ++ zeroPad width (Nat.toDigits 10 u)

/-- One element of a layout, formatted for the civil date `c` and the second of the day `s`. -/
def formatChunk (c : Civil) (s : Int) : Chunk → List Char
  | .stdLongYear => appendInt c.year 4
  | .stdZeroMonth => appendInt c.month 2
  | .stdZeroDay => appendInt c.day 2
  | .stdHour => appendInt (s / 3600) 2
  | .stdZeroMinute => appendInt (s % 3600 / 60) 2
  | .stdZeroSecond => appendInt (s % 60) 2
  | .stdFracSecond0 _ => []
  | .text t => t

/-- The method `t.Format(layout)` for layouts without a fractional second. -/
def Time.Format (tz : Zone) (t : Time) (layout : List Chunk) : List Char :=
  (layout.map (formatChunk (t.date tz) (t.wall tz % 86400))).flatten

/-- The call `strconv.ParseInt(s, 10, 64)`; `none` is an error (syntax or range). -/
def ParseInt (s : List Char) : Option Int :=
  let neg : Bool := match s with
    | [] => false
    | c :: _ => c == '-'
  let s1 : List Char := match s with
    | [] => []
    | c :: r => if c == '+' || c == '-' then r else c :: r
  if s1 = [] ∨ !s1.all isDigit then none
  else
    let un : Nat := s1.foldl (fun acc c => acc * 10 + digitVal c) 0
    if !neg ∧ un ≥ 9223372036854775808 then none
    else if neg ∧ un > 9223372036854775808 then none
    else some (if neg then -(un : Int) else (un : Int))

/-! ### The layouts of `src/main.go` -/

/-- Layout `"2006-01-02-15-04-05"` (line 152). -/
def layoutDashes : List Chunk :=
  [.stdLongYear, .text ['-'], .stdZeroMonth, .text ['-'], .stdZeroDay, .text ['-'],
    .stdHour, .text ['-'], .stdZeroMinute, .text ['-'], .stdZeroSecond]

/-- Layout `"20060102_150405"` (line 157). -/
def layoutCompactUnder : List Chunk :=
  [.stdLongYear, .stdZeroMonth, .stdZeroDay, .text ['_'], .stdHour, .stdZeroMinute,
    .stdZeroSecond]

/-- Layout `"2006-01-02 15.04.05"` (line 162); the period before `04` and `05` is text. -/
def layoutDots : List Chunk :=
  [.stdLongYear, .text ['-'], .stdZeroMonth, .text ['-'], .stdZeroDay, .text [' '],
    .stdHour, .text ['.'], .stdZeroMinute, .text ['.'], .stdZeroSecond]

/-- Layout `"20060102-150405"` (line 167). -/
def layoutCompactDash : List Chunk :=
  [.stdLongYear, .stdZeroMonth, .stdZeroDay, .text ['-'], .stdHour, .stdZeroMinute,
    .stdZeroSecond]

/-- Layout `"2006-01-02T15:04:05Z"` (lines 172, 177, 182, 196, 220, 236); a lone `Z` is text. -/
def layoutISO : List Chunk :=
  [.stdLongYear, .text ['-'], .stdZeroMonth, .text ['-'], .stdZeroDay, .text ['T'],
    .stdHour, .text [':'], .stdZeroMinute, .text [':'], .stdZeroSecond, .text ['Z']]

/-- Layout `"2006-01-02"` (line 187). -/
def layoutDate : List Chunk :=
  [.stdLongYear, .text ['-'], .stdZeroMonth, .text ['-'], .stdZeroDay]

/-- Layout `"20060102T150405"` (lines 206, 213). -/
def layoutCompactT : List Chunk :=
  [.stdLongYear, .stdZeroMonth, .stdZeroDay, .text ['T'], .stdHour, .stdZeroMinute,
    .stdZeroSecond]

/-- Layout `"2006-01-02T15:04:05.000Z"` (line 227). -/
def layoutMillis : List Chunk :=
  [.stdLongYear, .text ['-'], .stdZeroMonth, .text ['-'], .stdZeroDay, .text ['T'],
    .stdHour, .text [':'], .stdZeroMinute, .text [':'], .stdZeroSecond, .stdFracSecond0 3,
    .text ['Z']]

/-! ## `extractDateFromFilename` -/

/-- What a call of `extractDateFromFilename` does: return a timestamp, return an error with the
given message, or stop with an index-out-of-range run-time panic. -/
inductive Outcome where
  | ok (timestamp : List Char)
  | error (msg : List Char)
  | indexOutOfRange
  deriving DecidableEq, Repr

/-- How a `case` of the `switch` ends: with a `return`, with a run-time panic, or by leaving the
switch with the variables `t` and `err` (`errSet` is `err != nil`). -/
inductive Branch where
  | returned (o : Outcome)
  | panicked
  | left (t : Time) (errSet : Bool)
  deriving DecidableEq, Repr

/-- The variables `t`, `err` after `t, err = time.Parse(...)`. -/
def assign (r : Time × Bool) : Branch := .left r.1 r.2

/-- The value of `matches` after `matches = re.FindStringSubmatch(filename)`; `nil` has length
zero. -/
def submatches (re : Regex) (filename : List Char) : List (List Char) :=
  (FindStringSubmatch re filename).getD []

/-- Lines 150-152. -/
def case1 (filename : List Char) : Branch :=
  let ms := submatches re1 filename
  match ms[1]?, ms[2]?, ms[3]?, ms[4]?, ms[5]?, ms[6]? with
  | some a, some b, some c, some d, some e, some f =>
    assign (Parse layoutDashes
      (a ++ '-' :: b ++ '-' :: c ++ '-' :: d ++ '-' :: e ++ '-' :: f))
  | _, _, _, _, _, _ => .panicked

/-- Lines 155-157. -/
def case2 (filename : List Char) : Branch :=
  let ms := submatches re2 filename
  match ms[1]?, ms[2]?, ms[3]?, ms[4]?, ms[5]?, ms[6]? with
  | some a, some b, some c, some d, some e, some f =>
    assign (Parse layoutCompactUnder (a ++ b ++ c ++ '_' :: d ++ e ++ f))
  | _, _, _, _, _, _ => .panicked

/-- Lines 160-162. -/
def case3 (filename : List Char) : Branch :=
  let ms := submatches re3 filename
  match ms[1]?, ms[2]?, ms[3]?, ms[4]?, ms[5]?, ms[6]? with
  | some a, some b, some c, some d, some e, some f =>
    assign (Parse layoutDots
      (a ++ '-' :: b ++ '-' :: c ++ ' ' :: d ++ '.' :: e ++ '.' :: f))
  | _, _, _, _, _, _ => .panicked

/-- Lines 165-167. -/
def case4 (filename : List Char) : Branch :=
  let ms := submatches re4 filename
  match ms[1]?, ms[2]?, ms[3]?, ms[4]?, ms[5]?, ms[6]? with
  | some a, some b, some c, some d, some e, some f =>
    assign (Parse layoutCompactDash (a ++ b ++ c ++ '-' :: d ++ e ++ f))
  | _, _, _, _, _, _ => .panicked

/-- Lines 170-172. -/
def case5 (filename : List Char) : Branch :=
  let ms := submatches re5 filename
  match ms[1]?, ms[2]?, ms[3]? with
  | some a, some b, some c =>
    assign (Parse layoutISO (a ++ '-' :: b ++ '-' :: c ++ "T00:00:00Z".toList))
  | _, _, _ => .panicked

/-- Lines 175-177. -/
def case6 (filename : List Char) : Branch :=
  let ms := submatches re6 filename
  match ms[1]?, ms[2]?, ms[3]?, ms[4]?, ms[5]? with
  | some a, some b, some c, some d, some e =>
    assign (Parse layoutISO
      (a ++ '-' :: b ++ '-' :: c ++ 'T' :: d ++ ':' :: e ++ ":00Z".toList))
  | _, _, _, _, _ => .panicked

/-- Lines 180-182. -/
def case7 (filename : List Char) : Branch :=
  let ms := submatches re7 filename
  match ms[1]?, ms[2]?, ms[3]?, ms[4]?, ms[5]?, ms[6]? with
  | some a, some b, some c, some d, some e, some f =>
    assign (Parse layoutISO
      (a ++ '-' :: b ++ '-' :: c ++ 'T' :: d ++ ':' :: e ++ ':' :: f ++ ['Z']))
  | _, _, _, _, _, _ => .panicked

/-- Lines 185-187: the captures are read with the pattern of line 185, not that of line 184. -/
def case8 (filename : List Char) : Branch :=
  let ms := submatches re8x filename
  match ms[1]?, ms[2]?, ms[3]? with
  | some a, some b, some c => assign (Parse layoutDate (a ++ '-' :: b ++ '-' :: c))
  | _, _, _ => .panicked

/-- Lines 190-200. `time.Unix(0, tsInt*int64(time.Millisecond))` multiplies in `int64`. -/
def case9 (tz : Zone) (filename : List Char) : Branch :=
  let ms := submatches re9 filename
  let invalid : Branch :=
    .returned (.error ("invalid unix timestamp in filename: ".toList ++ filename))
  if ms.length > 1 then
    match ms[1]? with
    | none => .panicked
    | some a =>
      match ParseInt a with
      | none => invalid
      | some tsInt =>
        let t := Unix 0 (wrapInt64 (tsInt * 1000000))
        if t.Year tz ≥ 2010 ∧ t.Year tz ≤ 2023 then
          .returned (.ok (t.UTC.Format tz layoutISO))
        else invalid
  else invalid

/-- Lines 203-207. When the guard fails, `t` and `err` keep their zero values. -/
def case10 (filename : List Char) : Branch :=
  let ms := submatches re10 filename
  if ms.length = 3 then
    match ms[1]?, ms[2]? with
    | some a, some b => assign (Parse layoutCompactT (a ++ 'T' :: b))
    | _, _ => .panicked
  else .left Time.zero false

/-- Lines 210-214. -/
def case11 (filename : List Char) : Branch :=
  let ms := submatches re11 filename
  if ms.length = 3 then
    match ms[1]?, ms[2]? with
    | some a, some b => assign (Parse layoutCompactT (a ++ 'T' :: b))
    | _, _ => .panicked
  else .left Time.zero false

/-- Lines 217-221. -/
def case12 (filename : List Char) : Branch :=
  let ms := submatches re12 filename
  if ms.length = 4 then
    match ms[1]?, ms[2]?, ms[3]? with
    | some a, some b, some c =>
      assign (Parse layoutISO (a ++ '-' :: b ++ '-' :: c ++ "T00:00:00Z".toList))
    | _, _, _ => .panicked
  else .left Time.zero false

/-- Lines 224-228. -/
def case13 (filename : List Char) : Branch :=
  let ms := submatches re13 filename
  if ms.length = 8 then
    match ms[1]?, ms[2]?, ms[3]?, ms[4]?, ms[5]?, ms[6]?, ms[7]? with
    | some a, some b, some c, some d, some e, some f, some g =>
      assign (Parse layoutMillis
        (a ++ '-' :: b ++ '-' :: c ++ 'T' :: d ++ ':' :: e ++ ':' :: f ++ '.' :: g ++ ['Z']))
    | _, _, _, _, _, _, _ => .panicked
  else .left Time.zero false

/-- Lines 233-236, after the `switch`. -/
def finish (tz : Zone) (filename : List Char) : Branch → Outcome
  | .returned o => o
  | .panicked => .indexOutOfRange
  | .left t errSet =>
    if errSet then .error ("invalid date in filename: ".toList ++ filename)
    else .ok (t.UTC.Format tz layoutISO)

/-- The `switch` of lines 147-231: the first `case` whose condition holds is run. -/
def switchCases (tz : Zone) (filename : List Char) : Branch :=
  if MatchString re1 filename then case1 filename
  else if MatchString re2 filename then case2 filename
  else if MatchString re3 filename then case3 filename
  else if MatchString re4 filename then case4 filename
  else if MatchString re5 filename then case5 filename
  else if MatchString re6 filename then case6 filename
  else if MatchString re7 filename then case7 filename
  else if MatchString re8 filename then case8 filename
  else if MatchString re9 filename then case9 tz filename
  else if MatchString re10 filename then case10 filename
  else if MatchString re11 filename then case11 filename
  else if MatchString re12 filename then case12 filename
  else if MatchString re13 filename then case13 filename
  else .returned (.error ("no valid date found in filename: ".toList ++ filename))

/-- The function `extractDateFromFilename` of `src/main.go` (lines 139-237), run in a process
whose local time zone is `tz`. -/
def extractDateFromFilename (tz : Zone) (filename : List Char) : Outcome :=
  finish tz filename (switchCases tz filename)

/-! ## The cases of the switch as a table -/

/-- A `case` of the switch: its condition on the filename and its body. -/
structure Rule where
  detect : List Char → Bool
  run : Zone → List Char → Branch

/-- The 13 cases of the `switch` of lines 147-228, in source order: the condition of each `case`
(lines 149, 154, ..., 223) and its body. Rule `k` of the code is entry `k - 1`. -/
def ruleTable : List Rule :=
  [⟨MatchString re1, fun _ => case1⟩, ⟨MatchString re2, fun _ => case2⟩,
    ⟨MatchString re3, fun _ => case3⟩, ⟨MatchString re4, fun _ => case4⟩,
    ⟨MatchString re5, fun _ => case5⟩, ⟨MatchString re6, fun _ => case6⟩,
    ⟨MatchString re7, fun _ => case7⟩, ⟨MatchString re8, fun _ => case8⟩,
    ⟨MatchString re9, case9⟩, ⟨MatchString re10, fun _ => case10⟩,
    ⟨MatchString re11, fun _ => case11⟩, ⟨MatchString re12, fun _ => case12⟩,
    ⟨MatchString re13, fun _ => case13⟩]

/-- What the body of a case produces on its own, followed by lines 233-236: its success value or
its failure. -/
def Rule.alone (r : Rule) (tz : Zone) (filename : List Char) : Outcome :=
  finish tz filename (r.run tz filename)

/-- The `switch` read as a search of `ruleTable`: the body of the first case whose condition
holds is run; without one the default of line 230 fails. -/
def cascade (tz : Zone) (filename : List Char) : Outcome :=
  match ruleTable.find? (fun r => r.detect filename) with
  | some r => r.alone tz filename
  | none => .error ("no valid date found in filename: ".toList ++ filename)

/-- Number of the first of `rs` whose detection predicate matches, counting from `i`. -/
def firstIdx (filename : List Char) : List Rule → Nat → Option Nat
  | [], _ => none
  | r :: rs, i => if r.detect filename then some i else firstIdx filename rs (i + 1)

/-- The number (1 to 13) of the first matching rule of the table. -/
def firstRule (filename : List Char) : Option Nat := firstIdx filename ruleTable 1

/-! ## The fields a rule reads -/

/-- The pattern whose captures rule `k` reads. -/
def extraction : Nat → Regex
  | 1 => re1
  | 2 => re2
  | 3 => re3
  | 4 => re4
  | 5 => re5
  | 6 => re6
  | 7 => re7
  | 8 => re8x
  | 9 => re9
  | 10 => re10
  | 11 => re11
  | 12 => re12
  | _ => re13

/-- The value of a string of decimal digits. -/
def decimal (w : List Char) : Nat := w.foldl (fun acc c => acc * 10 + digitVal c) 0

/-- The date and time fields a rule captures, as the digit strings of the filename. -/
structure Fields where
  year : List Char
  month : List Char
  day : List Char
  hour : List Char
  minute : List Char
  second : List Char
  deriving DecidableEq, Repr

/-- The fields rule `k` (other than the epoch rule 9) reads from its captures `ms`; a component
the rule does not capture is `00`. Rules 10 and 11 capture the date and the time as two runs. -/
def fieldsOf (k : Nat) (ms : List (List Char)) : Fields :=
  let g : Nat → List Char := fun i => ms.getD i []
  if k = 5 ∨ k = 8 ∨ k = 12 then ⟨g 1, g 2, g 3, ['0', '0'], ['0', '0'], ['0', '0']⟩
  else if k = 6 then ⟨g 1, g 2, g 3, g 4, g 5, ['0', '0']⟩
  else if k = 10 ∨ k = 11 then
    ⟨(g 1).take 4, ((g 1).drop 4).take 2, (g 1).drop 6,
      (g 2).take 2, ((g 2).drop 2).take 2, (g 2).drop 4⟩
  else ⟨g 1, g 2, g 3, g 4, g 5, g 6⟩

/-- The fields rule `k` captures in `filename`. -/
def captured (k : Nat) (filename : List Char) : Fields :=
  fieldsOf k (submatches (extraction k) filename)

/-- The fields form a date and time of the proleptic Gregorian calendar: month 01-12, day from 01
to the length of the month in that year, hour 00-23, minute and second 00-59. -/
def Fields.valid (c : Fields) : Bool :=
  decide (1 ≤ decimal c.month ∧ decimal c.month ≤ 12 ∧ 1 ≤ decimal c.day ∧
    decimal c.day ≤ daysIn (decimal c.month) (decimal c.year) ∧
    decimal c.hour ≤ 23 ∧ decimal c.minute ≤ 59 ∧ decimal c.second ≤ 59)

/-- The string `Y-M-DTh:m:sZ` built from the digit strings of the fields. -/
def Fields.render (c : Fields) : List Char :=
  c.year ++ '-' :: c.month ++ '-' :: c.day ++ 'T' :: c.hour ++ ':' :: c.minute ++ ':' ::
    c.second ++ ['Z']

/-- The canonical form `YYYY-MM-DDTHH:MM:SSZ`: 20 characters, digits at the numeric positions,
the separators in place, month 01-12, day 01-31, hour 00-23, minute and second 00-59. -/
def isCanonical (s : List Char) : Bool :=
  match s with
  | [y1, y2, y3, y4, c4, m1, m2, c7, d1, d2, c10, h1, h2, c13, n1, n2, c16, s1, s2, c19] =>
    c4 == '-' && c7 == '-' && c10 == 'T' && c13 == ':' && c16 == ':' && c19 == 'Z' &&
    isDigit y1 && isDigit y2 && isDigit y3 && isDigit y4 && isDigit m1 && isDigit m2 &&
    isDigit d1 && isDigit d2 && isDigit h1 && isDigit h2 && isDigit n1 && isDigit n2 &&
    isDigit s1 && isDigit s2 &&
    decide (1 ≤ decimal [m1, m2] ∧ decimal [m1, m2] ≤ 12 ∧ 1 ≤ decimal [d1, d2] ∧
      decimal [d1, d2] ≤ 31 ∧ decimal [h1, h2] ≤ 23 ∧ decimal [n1, n2] ≤ 59 ∧
      decimal [s1, s2] ≤ 59)
  | _ => false

/-- What `time.Parse` returns for fields read in full: the time built by `Date` when the fields
are in range, an error otherwise. -/
def parseResult (y : Int) (m d h mi s : Nat) (ns : Int) : Time × Bool :=
  if 1 ≤ m ∧ m ≤ 12 ∧ 1 ≤ d ∧ d ≤ daysIn m y ∧ h < 24 ∧ mi < 60 ∧ s < 60 then
    (Date y m d h mi s ns, false)
  else (Time.zero, true)

/-- A run of `k` decimal digits. -/
def Digits (k : Nat) (w : List Char) : Prop := w.length = k ∧ ∀ c ∈ w, isDigit c = true

/-- The fields are digit strings of the widths of `YYYY`, `MM`, `DD`, `hh`, `mm`, `ss`. -/
def Fields.WellFormed (c : Fields) : Prop :=
  Digits 4 c.year ∧ Digits 2 c.month ∧ Digits 2 c.day ∧ Digits 2 c.hour ∧ Digits 2 c.minute ∧
    Digits 2 c.second

/-! ## Counting digits -/

/-- Number of ASCII decimal digits in a string. -/
def countDigits (s : List Char) : Nat := s.countP isDigit

/-! ## Digit runs -/

/-- The maximal runs of ASCII digits of `s`, left to right; `cur` is the run being read. -/
def runsAux : List Char → List Char → List (List Char)
  | [], cur => if cur = [] then [] else [cur]
  | c :: s, cur =>
    if isDigit c then runsAux s (cur ++ [c])
    else if cur = [] then runsAux s [] else cur :: runsAux s []

/-- The maximal runs of ASCII digits of a string. -/
def digitRuns (s : List Char) : List (List Char) := runsAux s []

/-! ## The detection patterns -/

/-- The pattern of the detection predicate of rule `k`: the pattern the rule extracts with,
except for rule 8 (line 184). -/
def detection : Nat → Regex
  | 8 => re8
  | k => extraction k

/-! ## The switch without rule 4 -/

/-- The `switch` of lines 147-231 with the `case` of rule 4 (lines 164-167) removed. -/
def switchCasesWithoutRule4 (tz : Zone) (filename : List Char) : Branch :=
  if MatchString re1 filename then case1 filename
  else if MatchString re2 filename then case2 filename
  else if MatchString re3 filename then case3 filename
  else if MatchString re5 filename then case5 filename
  else if MatchString re6 filename then case6 filename
  else if MatchString re7 filename then case7 filename
  else if MatchString re8 filename then case8 filename
  else if MatchString re9 filename then case9 tz filename
  else if MatchString re10 filename then case10 filename
  else if MatchString re11 filename then case11 filename
  else if MatchString re12 filename then case12 filename
  else if MatchString re13 filename then case13 filename
  else .returned (.error ("no valid date found in filename: ".toList ++ filename))

/-- The function `extractDateFromFilename` with the `case` of rule 4 removed. -/
def extractWithoutRule4 (tz : Zone) (filename : List Char) : Outcome :=
  finish tz filename (switchCasesWithoutRule4 tz filename)

/-! ## The rule table of the specification -/

/-- What a row of the table of §4.1 of the specification captures, with its normalization. -/
inductive SpecCapture where
  /-- The fields `Y,M,D,h,m,s`, exact (rows 1-4 and 7; row 13, whose milliseconds are not
  retained). -/
  | dateTime
  /-- The fields `Y,M,D,h,m`; seconds default to 00 (row 6). -/
  | dateMinute
  /-- The fields `Y,M,D`; time defaults to 00:00:00 (rows 5, 8, 12). -/
  | dateOnly
  /-- Eight digits and six digits, read as `Y,M,D,h,m,s`, exact (rows 10, 11). -/
  | dateTimeRuns
  /-- Epoch milliseconds, with the validity guard of row 9. -/
  | epochMillis
  deriving DecidableEq, Repr

/-- A recognizer rule of §3 of the specification: the filename shape its detection predicate
tests for, and what its extraction captures from the text of that shape. -/
structure SpecRule where
  shape : Regex
  capture : SpecCapture

/-- The recognizer catalog of §4.1 of the specification, highest priority first. The shapes of
the table are illustrative; each is written as the pattern it abbreviates (row 7 with two extra
digits, row 8 with its suffix and extension, row 9 with the 13 digits, suffix and extension). -/
def specTable : List SpecRule :=
  [⟨re1, .dateTime⟩, ⟨re2, .dateTime⟩, ⟨re3, .dateTime⟩, ⟨re4, .dateTime⟩, ⟨re5, .dateOnly⟩,
    ⟨re6, .dateMinute⟩, ⟨re7, .dateTime⟩, ⟨re8, .dateOnly⟩, ⟨re9, .epochMillis⟩,
    ⟨re10, .dateTimeRuns⟩, ⟨re11, .dateTimeRuns⟩, ⟨re12, .dateOnly⟩, ⟨re13, .dateTime⟩]

/-- The fields a row reads from the captures `ms` of the text of its shape (entry 0 is the whole
text), completed by the defaults of its normalization. -/
def SpecCapture.fields (c : SpecCapture) (ms : List (List Char)) : Fields :=
  let g : Nat → List Char := fun i => ms.getD i []
  match c with
  | .dateMinute => ⟨g 1, g 2, g 3, g 4, g 5, ['0', '0']⟩
  | .dateOnly => ⟨g 1, g 2, g 3, ['0', '0'], ['0', '0'], ['0', '0']⟩
  | .dateTimeRuns =>
    ⟨(g 1).take 4, ((g 1).drop 4).take 2, (g 1).drop 6,
      (g 2).take 2, ((g 2).drop 2).take 2, (g 2).drop 4⟩
  | _ => ⟨g 1, g 2, g 3, g 4, g 5, g 6⟩

/-- The canonical timestamp `YYYY-MM-DDTHH:MM:SSZ` of the instant `secs` seconds after
1970-01-01T00:00:00Z, in UTC. -/
def specCanonical (secs : Int) : List Char :=
  appendInt (civilFromDays (secs / 86400)).year 4 ++ '-' ::
    appendInt (civilFromDays (secs / 86400)).month 2 ++ '-' ::
    appendInt (civilFromDays (secs / 86400)).day 2 ++ 'T' ::
    appendInt (secs % 86400 / 3600) 2 ++ ':' ::
    appendInt (secs % 86400 % 3600 / 60) 2 ++ ':' ::
    appendInt (secs % 86400 % 60) 2 ++ ['Z']

/-- A rule of the specification applied alone (§4.1, §7). The captured fields are returned in
canonical form when they are a valid date and time and fail as MalformedCapture otherwise; the
epoch milliseconds of row 9 are returned as their UTC instant when its year is in [2010, 2023]
and fail as ImplausibleValue otherwise. -/
def SpecRule.apply (r : SpecRule) (filename : List Char) : Outcome :=
  let ms := submatches r.shape filename
  match r.capture with
  | .epochMillis =>
    let secs : Int := ((decimal (ms.getD 1 []) : Nat) : Int) / 1000
    if 2010 ≤ (civilFromDays (secs / 86400)).year ∧ (civilFromDays (secs / 86400)).year ≤ 2023
    then .ok (specCanonical secs)
    else .error ("invalid unix timestamp in filename: ".toList ++ filename)
  | c =>
    if (c.fields ms).valid = true then .ok (c.fields ms).render
    else .error ("invalid date in filename: ".toList ++ filename)

/-- The evaluation algorithm of §4.1 of the specification: the first rule of the table, in
priority order, whose shape the filename holds is applied alone; without one the call fails as
NoPatternMatched. -/
def specExtract (filename : List Char) : Outcome :=
  match specTable.find? (fun r => MatchString r.shape filename) with
  | some r => r.apply filename
  | none => .error ("no valid date found in filename: ".toList ++ filename)

/-! ## Soundness of the matcher -/

theorem take_append_length_sub (w rest : List Char) :
    (w ++ rest).take ((w ++ rest).length - rest.length) = w := by
  simp

theorem starLoop_sound (R : List Char → List Char → List (List Char) → List (List Char) → Prop)
    (ma : List Char → List (List Char) → Cont → Option (List (List Char)))
    (hma : ∀ rest caps k out, ma rest caps k = some out →
      ∃ w rest1 caps1, rest = w ++ rest1 ∧ R w rest1 caps caps1 ∧ k rest1 caps1 = some out) :
    ∀ fuel rest caps k out, starLoop ma fuel rest caps k = some out →
      ∃ w rest1 caps1, rest = w ++ rest1 ∧ StarMatches R w rest1 caps caps1 ∧
        k rest1 caps1 = some out := by
  intro fuel
  induction fuel with
  | zero =>
    intro rest caps k out h
    exact ⟨[], rest, caps, rfl, .done _ _, h⟩
  | succ fuel ih =>
    intro rest caps k out h
    simp only [starLoop] at h
    split at h
    · rename_i r hr
      cases h
      obtain ⟨w, rest1, caps1, hrest, hR, hk⟩ := hma _ _ _ _ hr
      split at hk
      · obtain ⟨w2, rest2, caps2, hrest2, hS, hk2⟩ := ih _ _ _ _ hk
        subst hrest2
        refine ⟨w ++ w2, rest2, caps2, by simp [hrest], ?_, hk2⟩
        exact .more _ _ _ _ _ _ hR hS
      · cases hk
    · exact ⟨[], rest, caps, rfl, .done _ _, h⟩

theorem matchRe_sound (n : Nat) (re : Regex) :
    ∀ rest caps k out, matchRe n re rest caps k = some out →
      ∃ w rest1 caps1, rest = w ++ rest1 ∧ Matches n re w rest1 caps caps1 ∧
        k rest1 caps1 = some out := by
  induction re with
  | cls p =>
    intro rest caps k out h
    cases rest with
    | nil => simp [matchRe] at h
    | cons c rest1 =>
      simp only [matchRe] at h
      split at h
      · rename_i hp
        exact ⟨[c], rest1, caps, rfl, ⟨c, rfl, hp, rfl⟩, h⟩
      · cases h
  | eps =>
    intro rest caps k out h
    exact ⟨[], rest, caps, rfl, ⟨rfl, rfl⟩, h⟩
  | seq a b iha ihb =>
    intro rest caps k out h
    simp only [matchRe] at h
    obtain ⟨w1, rest1, caps1, h1, hm1, hk1⟩ := iha _ _ _ _ h
    obtain ⟨w2, rest2, caps2, h2, hm2, hk2⟩ := ihb _ _ _ _ hk1
    subst h2
    exact ⟨w1 ++ w2, rest2, caps2, by simp [h1], ⟨w1, w2, caps1, rfl, hm1, hm2⟩, hk2⟩
  | alt a b iha ihb =>
    intro rest caps k out h
    simp only [matchRe] at h
    split at h
    · rename_i r hr
      cases h
      obtain ⟨w, rest1, caps1, h1, hm, hk⟩ := iha _ _ _ _ hr
      exact ⟨w, rest1, caps1, h1, Or.inl hm, hk⟩
    · obtain ⟨w, rest1, caps1, h1, hm, hk⟩ := ihb _ _ _ _ h
      exact ⟨w, rest1, caps1, h1, Or.inr hm, hk⟩
  | star a iha =>
    intro rest caps k out h
    simp only [matchRe] at h
    exact starLoop_sound (Matches n a) (matchRe n a) iha _ _ _ _ _ h
  | group i a iha =>
    intro rest caps k out h
    simp only [matchRe] at h
    obtain ⟨w, rest1, caps1, h1, hm, hk⟩ := iha _ _ _ _ h
    subst h1
    rw [take_append_length_sub] at hk
    exact ⟨w, rest1, _, rfl, ⟨caps1, hm, rfl⟩, hk⟩
  | bot =>
    intro rest caps k out h
    simp only [matchRe] at h
    split at h
    · rename_i hn
      exact ⟨[], rest, caps, rfl, ⟨rfl, hn, rfl⟩, h⟩
    · cases h
  | eot =>
    intro rest caps k out h
    simp only [matchRe] at h
    split at h
    · rename_i hn
      exact ⟨[], rest, caps, rfl, ⟨rfl, hn, rfl⟩, h⟩
    · cases h

/-! ## Shapes of the matches -/

theorem findFrom_sound (n : Nat) (re : Regex) :
    ∀ s ms, findFrom n re s = some ms →
      ∃ pre w rest caps1, s = pre ++ (w ++ rest) ∧
        Matches n re w rest (List.replicate (numSubexp re + 1) []) caps1 ∧ ms = caps1.set 0 w := by
  intro s
  induction s with
  | nil =>
    intro ms h
    simp only [findFrom] at h
    obtain ⟨w, rest1, caps1, h1, hm, hk⟩ := matchRe_sound _ _ _ _ _ _ h
    obtain ⟨capsIn, hm1, hc⟩ := hm
    refine ⟨[], w, rest1, capsIn, by simpa using h1, hm1, ?_⟩
    simp at hk
    rw [← hk, hc]
  | cons c s ih =>
    intro ms h
    simp only [findFrom] at h
    split at h
    · rename_i caps hcaps
      cases h
      obtain ⟨w, rest1, caps1, h1, hm, hk⟩ := matchRe_sound _ _ _ _ _ _ hcaps
      obtain ⟨capsIn, hm1, hc⟩ := hm
      refine ⟨[], w, rest1, capsIn, by simpa using h1, hm1, ?_⟩
      simp at hk
      rw [← hk, hc]
    · obtain ⟨pre, w, rest, caps1, hs, hm, hms⟩ := ih _ h
      exact ⟨c :: pre, w, rest, caps1, by simp [hs], hm, hms⟩

theorem find_sound (re : Regex) (s : List Char) (ms : List (List Char))
    (h : FindStringSubmatch re s = some ms) :
    ∃ pre w rest caps1, s = pre ++ (w ++ rest) ∧
      Matches s.length re w rest (List.replicate (numSubexp re + 1) []) caps1 ∧
      ms = caps1.set 0 w :=
  findFrom_sound _ _ _ _ h

theorem matches_rep_cls (n : Nat) (p : Char → Bool) :
    ∀ k w rest caps caps1, Matches n (rep k (.cls p)) w rest caps caps1 →
      w.length = k ∧ (∀ c ∈ w, p c = true) ∧ caps1 = caps := by
  intro k
  induction k with
  | zero =>
    intro w rest caps caps1 h
    simp only [rep, Matches] at h
    obtain ⟨hw, hc⟩ := h
    subst hw
    simp [hc]
  | succ k ih =>
    intro w rest caps caps1 h
    simp only [rep, Matches] at h
    obtain ⟨w1, w2, capsMid, hw, ⟨c, hc, hp, hcaps⟩, h2⟩ := h
    obtain ⟨hl, hall, hcaps2⟩ := ih _ _ _ _ h2
    subst hw hc
    refine ⟨by simp [hl], ?_, by rw [hcaps2, hcaps]⟩
    intro x hx
    simp at hx
    rcases hx with hx | hx
    · rw [hx]; exact hp
    · exact hall x hx

theorem matches_group_digits (n i k : Nat) (w rest : List Char) (caps caps1 : List (List Char))
    (h : Matches n (.group i (digits k)) w rest caps caps1) :
    w.length = k ∧ (∀ c ∈ w, isDigit c = true) ∧ caps1 = caps.set i w := by
  simp only [Matches] at h
  obtain ⟨capsIn, hm, hc⟩ := h
  obtain ⟨hl, hall, hcaps⟩ := matches_rep_cls n isDigit k _ _ _ _ hm
  exact ⟨hl, hall, by rw [hc, hcaps]⟩

theorem matches_lit (n : Nat) (c : Char) (w rest : List Char) (caps caps1 : List (List Char))
    (h : Matches n (lit c) w rest caps caps1) : w = [c] ∧ caps1 = caps := by
  simp only [lit, Matches] at h
  obtain ⟨x, hw, hx, hc⟩ := h
  simp at hx
  exact ⟨by rw [hw, hx], hc⟩

theorem matches_seq (n : Nat) (a b : Regex) (w rest : List Char) (caps caps1 : List (List Char)) :
    Matches n (.seq a b) w rest caps caps1 ↔
      ∃ w1 w2 capsMid, w = w1 ++ w2 ∧ Matches n a w1 (w2 ++ rest) caps capsMid ∧
        Matches n b w2 rest capsMid caps1 := by
  simp only [Matches]

theorem matches_eps (n : Nat) (w rest : List Char) (caps caps1 : List (List Char)) :
    Matches n .eps w rest caps caps1 ↔ w = [] ∧ caps1 = caps := by
  simp only [Matches]

theorem matches_cls (n : Nat) (p : Char → Bool) (w rest : List Char)
    (caps caps1 : List (List Char)) :
    Matches n (.cls p) w rest caps caps1 ↔ ∃ c, w = [c] ∧ p c = true ∧ caps1 = caps := by
  simp only [Matches]

theorem cat_cons (r : Regex) (rs : List Regex) : cat (r :: rs) = .seq r (cat rs) := rfl

theorem cat_nil : cat [] = .eps := rfl

/-! ## The calendar -/

theorem splitEra_cycles (a b c doy : Int) (ha : 0 ≤ a ∧ a ≤ 3) (hb : 0 ≤ b ∧ b ≤ 24)
    (hc : 0 ≤ c ∧ c ≤ 3) (hd : 0 ≤ doy ∧ doy ≤ 365)
    (h4 : doy = 365 → (c = 3 ∧ (b ≠ 24 ∨ a = 3))) :
    splitEra (36524 * a + 1461 * b + 365 * c + doy) = (100 * a + 4 * b + c, doy) := by
  have h1 : min ((36524 * a + 1461 * b + 365 * c + doy) / 36524) 3 = a := by omega
  have h2 : (36524 * a + 1461 * b + 365 * c + doy - 36524 * a) / 1461 = b := by omega
  have h3 : min ((36524 * a + 1461 * b + 365 * c + doy - 36524 * a - 1461 * b) / 365) 3 = c := by
    omega
  simp only [splitEra, h1, h2, h3]
  ext
  · simp
  · simp; omega

theorem splitEra_eq (yoe doy : Int) (hy : 0 ≤ yoe ∧ yoe ≤ 399) (hd : 0 ≤ doy ∧ doy ≤ 365)
    (h4 : doy = 365 → ((yoe + 1) % 4 = 0 ∧ ((yoe + 1) % 100 ≠ 0 ∨ (yoe + 1) % 400 = 0))) :
    splitEra (yoe * 365 + yoe / 4 - yoe / 100 + doy) = (yoe, doy) := by
  have h := splitEra_cycles (yoe / 100) (yoe % 100 / 4) (yoe % 4) doy (by omega) (by omega)
    (by omega) hd (by omega)
  have e1 : yoe * 365 + yoe / 4 - yoe / 100 + doy =
      36524 * (yoe / 100) + 1461 * (yoe % 100 / 4) + 365 * (yoe % 4) + doy := by omega
  have e2 : 100 * (yoe / 100) + 4 * (yoe % 100 / 4) + yoe % 4 = yoe := by omega
  rw [e1, h, e2]

/-- Every day of an era splits into a year of the era and a day of that year. -/
theorem splitEra_bounds (doe : Int) (h : 0 ≤ doe ∧ doe < 146097) :
    0 ≤ (splitEra doe).1 ∧ (splitEra doe).1 ≤ 399 ∧ 0 ≤ (splitEra doe).2 ∧
      (splitEra doe).2 ≤ 365 := by
  simp only [splitEra]
  omega

theorem splitYear_bounds (doy : Int) (h : 0 ≤ doy ∧ doy ≤ 365) :
    0 ≤ (splitYear doy).1 ∧ (splitYear doy).1 ≤ 11 ∧ 1 ≤ (splitYear doy).2 ∧
      (splitYear doy).2 ≤ 31 := by
  simp only [splitYear]
  omega

theorem march_facts (mp d : Int) (hmp : 0 ≤ mp ∧ mp ≤ 11)
    (hd : 1 ≤ d ∧ d ≤ (153 * (mp + 1) + 2) / 5 - (153 * mp + 2) / 5) (hfeb : mp = 11 → d ≤ 29) :
    0 ≤ (153 * mp + 2) / 5 + d - 1 ∧ (153 * mp + 2) / 5 + d - 1 ≤ 365 ∧
      ((153 * mp + 2) / 5 + d - 1 = 365 → mp = 11 ∧ d = 29) ∧
      (5 * ((153 * mp + 2) / 5 + d - 1) + 2) / 153 = mp ∧
      (153 * mp + 2) / 5 + d - 1 - (153 * mp + 2) / 5 + 1 = d := by
  obtain ⟨h0, h11⟩ := hmp
  obtain ⟨hd1, hd2⟩ := hd
  interval_cases mp <;> norm_num at hd2 hfeb ⊢ <;> omega

/-- The civil date of a day given by its March-based year `y`, month `mp` (0 is March) and day
`d` of the month. -/
theorem civilFromDays_march (y mp d : Int) (hmp : 0 ≤ mp ∧ mp ≤ 11)
    (hd : 1 ≤ d ∧ d ≤ (153 * (mp + 1) + 2) / 5 - (153 * mp + 2) / 5) (hfeb : mp = 11 → d ≤ 29)
    (hleap : mp = 11 → d = 29 → ((y + 1) % 4 = 0 ∧ ((y + 1) % 100 ≠ 0 ∨ (y + 1) % 400 = 0))) :
    civilFromDays (y / 400 * 146097 +
        (y % 400 * 365 + y % 400 / 4 - y % 400 / 100 + ((153 * mp + 2) / 5 + d - 1)) - 719468) =
      { year := if mp < 10 then y else y + 1
        month := (if mp < 10 then mp + 3 else mp - 9).toNat
        day := d.toNat } := by
  obtain ⟨hdoy0, hdoy1, hlast, e1, e2⟩ := march_facts mp d hmp hd hfeb
  have h365 : (153 * mp + 2) / 5 + d - 1 = 365 →
      ((y % 400 + 1) % 4 = 0 ∧ ((y % 400 + 1) % 100 ≠ 0 ∨ (y % 400 + 1) % 400 = 0)) := by
    intro h
    obtain ⟨h11, h29⟩ := hlast h
    have := hleap h11 h29
    omega
  have hyear : splitYear ((153 * mp + 2) / 5 + d - 1) = (mp, d) := by
    simp only [splitYear, e1, e2]
  generalize (153 * mp + 2) / 5 + d - 1 = doy at hdoy0 hdoy1 h365 hyear
  have hsplit := splitEra_eq (y % 400) doy (by omega) ⟨hdoy0, hdoy1⟩ h365
  have hq : (y / 400 * 146097 + (y % 400 * 365 + y % 400 / 4 - y % 400 / 100 + doy) - 719468 +
        719468) / 146097 = y / 400 := by omega
  have hr : (y / 400 * 146097 + (y % 400 * 365 + y % 400 / 4 - y % 400 / 100 + doy) - 719468 +
        719468) % 146097 = y % 400 * 365 + y % 400 / 4 - y % 400 / 100 + doy := by omega
  simp only [civilFromDays, hq, hr, hsplit, hyear]
  by_cases h10 : mp < 10
  · have hm : ¬ (mp + 3 ≤ 2) := by omega
    simp only [h10, if_true, hm, if_false]
    rw [show y % 400 + y / 400 * 400 = y by omega]
  · have hm : mp - 9 ≤ 2 := by omega
    simp only [h10, if_false, hm, if_true]
    rw [show y % 400 + y / 400 * 400 + 1 = y + 1 by omega]

theorem civilFromDays_daysFromCivil (y : Int) (m d : Nat) (hm : 1 ≤ m ∧ m ≤ 12)
    (hd : 1 ≤ d ∧ d ≤ daysIn m y) : civilFromDays (daysFromCivil y m d) = ⟨y, m, d⟩ := by
  obtain ⟨hm1, hm2⟩ := hm
  obtain ⟨hd1, hd2⟩ := hd
  simp only [daysIn, isLeap] at hd2
  by_cases h2 : m ≤ 2
  · have hmm : m = 1 ∨ m = 2 := by omega
    have h := civilFromDays_march (y - 1) ((m : Int) + 9) d (by omega)
      (by rcases hmm with rfl | rfl <;> simp at hd2 ⊢ <;>
        first | omega | (split at hd2 <;> omega))
      (by rcases hmm with rfl | rfl <;> simp at hd2 ⊢ <;>
        first | omega | (split at hd2 <;> omega))
      (by
        intro _ h29
        rcases hmm with rfl | rfl
        · omega
        · rw [if_pos rfl] at hd2
          split at hd2
          · rename_i hl
            simp only [Bool.and_eq_true, Bool.or_eq_true, beq_iff_eq, bne_iff_ne] at hl
            omega
          · omega)
    simp only [daysFromCivil, h2, if_true]
    rw [h]
    have h10 : ¬ ((m : Int) + 9 < 10) := by omega
    simp only [h10, if_false]
    congr 1
    · omega
    · omega
  · have h := civilFromDays_march y ((m : Int) - 3) d (by omega)
      (by
        rw [if_neg (by omega)] at hd2
        interval_cases m <;> simp at hd2 ⊢ <;> omega)
      (by omega) (by omega)
    simp only [daysFromCivil, h2, if_false]
    rw [h]
    have h10 : (m : Int) - 3 < 10 := by omega
    simp only [h10, if_true]
    congr 1
    omega

/-! ## Formatting -/

/-- Formatting with the layout `2006-01-02T15:04:05Z`, element by element. -/
theorem format_layoutISO (tz : Zone) (t : Time) :
    t.UTC.Format tz layoutISO =
      appendInt (civilFromDays (t.sec / 86400)).year 4 ++ '-' ::
        appendInt (civilFromDays (t.sec / 86400)).month 2 ++ '-' ::
        appendInt (civilFromDays (t.sec / 86400)).day 2 ++ 'T' ::
        appendInt (t.sec % 86400 / 3600) 2 ++ ':' ::
        appendInt (t.sec % 86400 % 3600 / 60) 2 ++ ':' ::
        appendInt (t.sec % 86400 % 60) 2 ++ ['Z'] := by
  simp [Time.Format, Time.UTC, Time.date, Time.wall, layoutISO, formatChunk]

/-- A time built by `Date` from fields in range is formatted with exactly these fields. -/
theorem format_Date (tz : Zone) (y : Int) (m d h mi s : Nat) (ns : Int)
    (hm : 1 ≤ m ∧ m ≤ 12) (hd : 1 ≤ d ∧ d ≤ daysIn m y) (hh : h < 24) (hmi : mi < 60)
    (hs : s < 60) :
    (Date y m d h mi s ns).UTC.Format tz layoutISO =
      appendInt y 4 ++ '-' :: appendInt m 2 ++ '-' :: appendInt d 2 ++ 'T' ::
        appendInt h 2 ++ ':' :: appendInt mi 2 ++ ':' :: appendInt s 2 ++ ['Z'] := by
  rw [format_layoutISO]
  have e1 : (Date y m d h mi s ns).sec / 86400 = daysFromCivil y m d := by
    simp only [Date]; omega
  have e2 : (Date y m d h mi s ns).sec % 86400 / 3600 = (h : Int) := by
    simp only [Date]; omega
  have e3 : (Date y m d h mi s ns).sec % 86400 % 3600 / 60 = (mi : Int) := by
    simp only [Date]; omega
  have e4 : (Date y m d h mi s ns).sec % 86400 % 60 = (s : Int) := by
    simp only [Date]; omega
  rw [e1, e2, e3, e4, civilFromDays_daysFromCivil y m d hm hd]

theorem civilFromDays_bounds (z : Int) :
    1 ≤ (civilFromDays z).month ∧ (civilFromDays z).month ≤ 12 ∧
      1 ≤ (civilFromDays z).day ∧ (civilFromDays z).day ≤ 31 := by
  have hdoe : 0 ≤ (z + 719468) % 146097 ∧ (z + 719468) % 146097 < 146097 := by omega
  obtain ⟨-, -, h3, h4⟩ := splitEra_bounds _ hdoe
  obtain ⟨k1, k2, k3, k4⟩ := splitYear_bounds _ ⟨h3, h4⟩
  simp only [civilFromDays]
  generalize (splitYear (splitEra ((z + 719468) % 146097)).2).1 = mp at k1 k2
  generalize (splitYear (splitEra ((z + 719468) % 146097)).2).2 = d at k3 k4
  refine ⟨?_, ?_, ?_, ?_⟩ <;> omega

theorem civilFromDays_year_bounds (z : Int) :
    (z + 719468) / 146097 * 400 ≤ (civilFromDays z).year ∧
      (civilFromDays z).year ≤ (z + 719468) / 146097 * 400 + 400 := by
  have hdoe : 0 ≤ (z + 719468) % 146097 ∧ (z + 719468) % 146097 < 146097 := by omega
  obtain ⟨h1, h2, -, -⟩ := splitEra_bounds _ hdoe
  simp only [civilFromDays]
  generalize (splitEra ((z + 719468) % 146097)).1 = yoe at h1 h2
  constructor <;> split <;> omega

/-! ### Digits -/

theorem isDigit_toNat (c : Char) (h : isDigit c = true) : 48 ≤ c.toNat ∧ c.toNat ≤ 57 := by
  simp only [isDigit, Bool.and_eq_true, decide_eq_true_eq] at h
  obtain ⟨h1, h2⟩ := h
  rw [Char.le_def] at h1 h2
  exact ⟨h1, h2⟩

theorem digitVal_lt (c : Char) (h : isDigit c = true) : digitVal c < 10 := by
  have := isDigit_toNat c h
  simp only [digitVal]
  omega

theorem digitChar_digitVal (c : Char) (h : isDigit c = true) : digitChar (digitVal c) = c := by
  have := isDigit_toNat c h
  simp only [digitVal, digitChar]
  rw [show 48 + (c.toNat - 48) = c.toNat by omega]
  exact Char.ofNat_toNat c

theorem isDigit_digitChar (d : Nat) (h : d < 10) : isDigit (digitChar d) = true := by
  interval_cases d <;> rfl

theorem digitVal_digitChar (d : Nat) (h : d < 10) : digitVal (digitChar d) = d := by
  interval_cases d <;> rfl

theorem appendInt_two (n : Nat) (h : n < 100) :
    appendInt (n : Int) 2 = [digitChar (n / 10), digitChar (n % 10)] := by
  simp [appendInt, h]

theorem appendInt_four (n : Nat) (h : n < 10000) :
    appendInt (n : Int) 4 = [digitChar (n / 100 / 10), digitChar (n / 100 % 10),
      digitChar (n % 100 / 10), digitChar (n % 100 % 10)] := by
  simp [appendInt, h]

/-- Two digits written back are the digits read. -/
theorem appendInt_decimal_two (a b : Char) (ha : isDigit a = true) (hb : isDigit b = true) :
    appendInt (decimal [a, b] : Nat) 2 = [a, b] := by
  have h1 := digitVal_lt a ha
  have h2 := digitVal_lt b hb
  have hv : decimal [a, b] = digitVal a * 10 + digitVal b := by simp [decimal]
  rw [hv, appendInt_two _ (by omega)]
  rw [show (digitVal a * 10 + digitVal b) / 10 = digitVal a by omega,
    show (digitVal a * 10 + digitVal b) % 10 = digitVal b by omega,
    digitChar_digitVal a ha, digitChar_digitVal b hb]

/-- Four digits written back are the digits read. -/
theorem appendInt_decimal_four (a b c d : Char) (ha : isDigit a = true) (hb : isDigit b = true)
    (hc : isDigit c = true) (hd : isDigit d = true) :
    appendInt (decimal [a, b, c, d] : Nat) 4 = [a, b, c, d] := by
  have h1 := digitVal_lt a ha
  have h2 := digitVal_lt b hb
  have h3 := digitVal_lt c hc
  have h4 := digitVal_lt d hd
  have hv : decimal [a, b, c, d] =
      ((digitVal a * 10 + digitVal b) * 10 + digitVal c) * 10 + digitVal d := by
    simp [decimal]
  rw [hv, appendInt_four _ (by omega)]
  rw [show (((digitVal a * 10 + digitVal b) * 10 + digitVal c) * 10 + digitVal d) / 100 / 10 =
      digitVal a by omega,
    show (((digitVal a * 10 + digitVal b) * 10 + digitVal c) * 10 + digitVal d) / 100 % 10 =
      digitVal b by omega,
    show (((digitVal a * 10 + digitVal b) * 10 + digitVal c) * 10 + digitVal d) % 100 / 10 =
      digitVal c by omega,
    show (((digitVal a * 10 + digitVal b) * 10 + digitVal c) * 10 + digitVal d) % 100 % 10 =
      digitVal d by omega,
    digitChar_digitVal a ha, digitChar_digitVal b hb, digitChar_digitVal c hc,
    digitChar_digitVal d hd]

/-! ## Parsing -/

theorem isDigit_ne (c x : Char) (h : isDigit c = true) (hx : isDigit x = false) : c ≠ x := by
  intro e
  rw [e, hx] at h
  cases h

theorem leadingInt_digit (c : Char) (s : List Char) (acc : Nat) (h : isDigit c = true) :
    leadingInt (c :: s) acc = leadingInt s (acc * 10 + digitVal c) := by
  simp [leadingInt, h]

theorem atoi_four (a b c d : Char) (ha : isDigit a = true) (hb : isDigit b = true)
    (hc : isDigit c = true) (hd : isDigit d = true) :
    atoi [a, b, c, d] = some ((decimal [a, b, c, d] : Nat) : Int) := by
  have h1 : (a == '-') = false := by
    simpa using isDigit_ne a '-' ha rfl
  have h2 : (a == '+') = false := by
    simpa using isDigit_ne a '+' ha rfl
  simp [atoi, h1, h2, leadingInt, ha, hb, hc, hd, decimal]

theorem atoi_three (a b c : Char) (ha : isDigit a = true) (hb : isDigit b = true)
    (hc : isDigit c = true) :
    atoi [a, b, c] = some ((decimal [a, b, c] : Nat) : Int) := by
  have h1 : (a == '-') = false := by
    simpa using isDigit_ne a '-' ha rfl
  have h2 : (a == '+') = false := by
    simpa using isDigit_ne a '+' ha rfl
  simp [atoi, h1, h2, leadingInt, ha, hb, hc, decimal]

theorem getnum_two (a b : Char) (v : List Char) (fixed : Bool) (ha : isDigit a = true)
    (hb : isDigit b = true) : getnum (a :: b :: v) fixed = some (decimal [a, b], v) := by
  simp [getnum, ha, hb, decimal]

theorem parse_year (L : List Chunk) (a b c d : Char) (v : List Char) (f : Parsed)
    (ha : isDigit a = true) (hb : isDigit b = true) (hc : isDigit c = true)
    (hd : isDigit d = true) :
    parseLoop (.stdLongYear :: L) (a :: b :: c :: d :: v) f =
      parseLoop L v { f with year := (decimal [a, b, c, d] : Nat) } := by
  simp [parseLoop, ha, atoi_four a b c d ha hb hc hd]

theorem parse_month (L : List Chunk) (a b : Char) (v : List Char) (f : Parsed)
    (ha : isDigit a = true) (hb : isDigit b = true) :
    parseLoop (.stdZeroMonth :: L) (a :: b :: v) f =
      if decimal [a, b] ≤ 0 ∨ 12 < decimal [a, b] then none
      else parseLoop L v { f with month := some (decimal [a, b]) } := by
  simp only [parseLoop, getnum_two a b v true ha hb]

theorem parse_day (L : List Chunk) (a b : Char) (v : List Char) (f : Parsed)
    (ha : isDigit a = true) (hb : isDigit b = true) :
    parseLoop (.stdZeroDay :: L) (a :: b :: v) f =
      parseLoop L v { f with day := some (decimal [a, b]) } := by
  simp only [parseLoop, getnum_two a b v true ha hb]

theorem parse_hour (L : List Chunk) (a b : Char) (v : List Char) (f : Parsed)
    (ha : isDigit a = true) (hb : isDigit b = true) :
    parseLoop (.stdHour :: L) (a :: b :: v) f =
      if 24 ≤ decimal [a, b] then none
      else parseLoop L v { f with hour := decimal [a, b] } := by
  simp only [parseLoop, getnum_two a b v false ha hb]

theorem parse_minute (L : List Chunk) (a b : Char) (v : List Char) (f : Parsed)
    (ha : isDigit a = true) (hb : isDigit b = true) :
    parseLoop (.stdZeroMinute :: L) (a :: b :: v) f =
      if 60 ≤ decimal [a, b] then none
      else parseLoop L v { f with min := decimal [a, b] } := by
  simp only [parseLoop, getnum_two a b v true ha hb]

/-- The seconds at the end of the value. -/
theorem parse_second_end (L : List Chunk) (a b : Char) (f : Parsed)
    (ha : isDigit a = true) (hb : isDigit b = true) :
    parseLoop (.stdZeroSecond :: L) [a, b] f =
      if 60 ≤ decimal [a, b] then none
      else parseLoop L [] { f with sec := decimal [a, b] } := by
  simp [parseLoop, getnum_two a b [] true ha hb]

/-- The seconds before a `Z`. -/
theorem parse_second_Z (L : List Chunk) (a b : Char) (v : List Char) (f : Parsed)
    (ha : isDigit a = true) (hb : isDigit b = true) :
    parseLoop (.stdZeroSecond :: L) (a :: b :: 'Z' :: v) f =
      if 60 ≤ decimal [a, b] then none
      else parseLoop L ('Z' :: v) { f with sec := decimal [a, b] } := by
  cases v <;> simp [parseLoop, getnum_two a b _ true ha hb]

/-- The seconds before a fractional second of the layout. -/
theorem parse_second_frac (L : List Chunk) (k : Nat) (a b : Char) (v : List Char) (f : Parsed)
    (ha : isDigit a = true) (hb : isDigit b = true) :
    parseLoop (.stdZeroSecond :: .stdFracSecond0 k :: L) (a :: b :: v) f =
      if 60 ≤ decimal [a, b] then none
      else parseLoop (.stdFracSecond0 k :: L) v { f with sec := decimal [a, b] } := by
  simp [parseLoop, getnum_two a b _ true ha hb]

theorem parse_text (L : List Chunk) (c : Char) (v : List Char) (f : Parsed) (hc : c ≠ ' ') :
    parseLoop (.text [c] :: L) (c :: v) f = parseLoop L v f := by
  simp [parseLoop, skip, skipAux, hc]

theorem parse_space (L : List Chunk) (a : Char) (v : List Char) (f : Parsed)
    (ha : isDigit a = true) :
    parseLoop (.text [' '] :: L) (' ' :: a :: v) f = parseLoop L (a :: v) f := by
  have h : a ≠ ' ' := isDigit_ne a ' ' ha rfl
  simp [parseLoop, skip, skipAux, cutspace, h]

theorem parse_frac3 (L : List Chunk) (a b c : Char) (v : List Char) (f : Parsed)
    (ha : isDigit a = true) (hb : isDigit b = true) (hc : isDigit c = true) :
    parseLoop (.stdFracSecond0 3 :: L) ('.' :: a :: b :: c :: v) f =
      parseLoop L v { f with nsec := ((decimal [a, b, c] : Nat) : Int) * 1000000 } := by
  have h1 : ¬ (v.length + 1 + 1 + 1 + 1 < 4) := by omega
  have h2 : ¬ (((decimal [a, b, c] : Nat) : Int) < 0) := by omega
  simp [parseLoop, parseNanoseconds, atoi_three a b c ha hb hc, h1, h2]

theorem parse_nil (f : Parsed) : parseLoop [] [] f = some f := by
  simp [parseLoop]

/-- Parsing `YYYY-MM-DD-hh-mm-ss` (line 152). -/
theorem Parse_layoutDashes (y1 y2 y3 y4 m1 m2 d1 d2 h1 h2 n1 n2 s1 s2 : Char)
    (hy1 : isDigit y1 = true) (hy2 : isDigit y2 = true) (hy3 : isDigit y3 = true)
    (hy4 : isDigit y4 = true) (hm1 : isDigit m1 = true) (hm2 : isDigit m2 = true)
    (hd1 : isDigit d1 = true) (hd2 : isDigit d2 = true) (hh1 : isDigit h1 = true)
    (hh2 : isDigit h2 = true) (hn1 : isDigit n1 = true) (hn2 : isDigit n2 = true)
    (hs1 : isDigit s1 = true) (hs2 : isDigit s2 = true) :
    Parse layoutDashes [y1, y2, y3, y4, '-', m1, m2, '-', d1, d2, '-', h1, h2, '-', n1, n2,
      '-', s1, s2] =
    parseResult (decimal [y1, y2, y3, y4] : Nat) (decimal [m1, m2]) (decimal [d1, d2])
      (decimal [h1, h2]) (decimal [n1, n2]) (decimal [s1, s2]) 0 := by
  have hdash : '-' ≠ ' ' := by decide
  simp only [Parse, layoutDashes, parse_year _ _ _ _ _ _ _ hy1 hy2 hy3 hy4,
    parse_month _ _ _ _ _ hm1 hm2, parse_day _ _ _ _ _ hd1 hd2, parse_hour _ _ _ _ _ hh1 hh2,
    parse_minute _ _ _ _ _ hn1 hn2, parse_second_end _ _ _ _ hs1 hs2, parse_text _ _ _ _ hdash,
    parse_nil, parseResult]
  generalize decimal [m1, m2] = m
  generalize decimal [d1, d2] = d
  generalize decimal [h1, h2] = h
  generalize decimal [n1, n2] = n
  generalize decimal [s1, s2] = s
  generalize decimal [y1, y2, y3, y4] = y
  split_ifs <;> simp_all <;> omega

/-- Parsing `YYYYMMDD_hhmmss` (line 157). -/
theorem Parse_layoutCompactUnder (y1 y2 y3 y4 m1 m2 d1 d2 h1 h2 n1 n2 s1 s2 : Char)
    (hy1 : isDigit y1 = true) (hy2 : isDigit y2 = true) (hy3 : isDigit y3 = true)
    (hy4 : isDigit y4 = true) (hm1 : isDigit m1 = true) (hm2 : isDigit m2 = true)
    (hd1 : isDigit d1 = true) (hd2 : isDigit d2 = true) (hh1 : isDigit h1 = true)
    (hh2 : isDigit h2 = true) (hn1 : isDigit n1 = true) (hn2 : isDigit n2 = true)
    (hs1 : isDigit s1 = true) (hs2 : isDigit s2 = true) :
    Parse layoutCompactUnder [y1, y2, y3, y4, m1, m2, d1, d2, '_', h1, h2, n1, n2, s1, s2] =
    parseResult (decimal [y1, y2, y3, y4] : Nat) (decimal [m1, m2]) (decimal [d1, d2])
      (decimal [h1, h2]) (decimal [n1, n2]) (decimal [s1, s2]) 0 := by
  have hu : '_' ≠ ' ' := by decide
  simp only [Parse, layoutCompactUnder, parse_year _ _ _ _ _ _ _ hy1 hy2 hy3 hy4,
    parse_month _ _ _ _ _ hm1 hm2, parse_day _ _ _ _ _ hd1 hd2, parse_hour _ _ _ _ _ hh1 hh2,
    parse_minute _ _ _ _ _ hn1 hn2, parse_second_end _ _ _ _ hs1 hs2, parse_text _ _ _ _ hu,
    parse_nil, parseResult]
  generalize decimal [m1, m2] = m
  generalize decimal [d1, d2] = d
  generalize decimal [h1, h2] = h
  generalize decimal [n1, n2] = n
  generalize decimal [s1, s2] = s
  generalize decimal [y1, y2, y3, y4] = y
  split_ifs <;> simp_all <;> omega

/-- Parsing `YYYY-MM-DD hh.mm.ss` (line 162). -/
theorem Parse_layoutDots (y1 y2 y3 y4 m1 m2 d1 d2 h1 h2 n1 n2 s1 s2 : Char)
    (hy1 : isDigit y1 = true) (hy2 : isDigit y2 = true) (hy3 : isDigit y3 = true)
    (hy4 : isDigit y4 = true) (hm1 : isDigit m1 = true) (hm2 : isDigit m2 = true)
    (hd1 : isDigit d1 = true) (hd2 : isDigit d2 = true) (hh1 : isDigit h1 = true)
    (hh2 : isDigit h2 = true) (hn1 : isDigit n1 = true) (hn2 : isDigit n2 = true)
    (hs1 : isDigit s1 = true) (hs2 : isDigit s2 = true) :
    Parse layoutDots [y1, y2, y3, y4, '-', m1, m2, '-', d1, d2, ' ', h1, h2, '.', n1, n2, '.', s1, s2] =
    parseResult (decimal [y1, y2, y3, y4] : Nat) (decimal [m1, m2]) (decimal [d1, d2])
      (decimal [h1, h2]) (decimal [n1, n2]) (decimal [s1, s2]) 0 := by
  have hdash : '-' ≠ ' ' := by decide
  have hdot : '.' ≠ ' ' := by decide
  simp only [Parse, layoutDots, parse_year _ _ _ _ _ _ _ hy1 hy2 hy3 hy4,
    parse_month _ _ _ _ _ hm1 hm2, parse_day _ _ _ _ _ hd1 hd2, parse_hour _ _ _ _ _ hh1 hh2,
    parse_minute _ _ _ _ _ hn1 hn2, parse_second_end _ _ _ _ hs1 hs2, parse_text _ _ _ _ hdash, parse_text _ _ _ _ hdot, parse_space _ _ _ _ hh1,
    parse_nil, parseResult]
  generalize decimal [m1, m2] = m
  generalize decimal [d1, d2] = d
  generalize decimal [h1, h2] = h
  generalize decimal [n1, n2] = n
  generalize decimal [s1, s2] = s
  generalize decimal [y1, y2, y3, y4] = y
  split_ifs <;> simp_all <;> omega

/-- Parsing `YYYYMMDD-hhmmss` (line 167). -/
theorem Parse_layoutCompactDash (y1 y2 y3 y4 m1 m2 d1 d2 h1 h2 n1 n2 s1 s2 : Char)
    (hy1 : isDigit y1 = true) (hy2 : isDigit y2 = true) (hy3 : isDigit y3 = true)
    (hy4 : isDigit y4 = true) (hm1 : isDigit m1 = true) (hm2 : isDigit m2 = true)
    (hd1 : isDigit d1 = true) (hd2 : isDigit d2 = true) (hh1 : isDigit h1 = true)
    (hh2 : isDigit h2 = true) (hn1 : isDigit n1 = true) (hn2 : isDigit n2 = true)
    (hs1 : isDigit s1 = true) (hs2 : isDigit s2 = true) :
    Parse layoutCompactDash [y1, y2, y3, y4, m1, m2, d1, d2, '-', h1, h2, n1, n2, s1, s2] =
    parseResult (decimal [y1, y2, y3, y4] : Nat) (decimal [m1, m2]) (decimal [d1, d2])
      (decimal [h1, h2]) (decimal [n1, n2]) (decimal [s1, s2]) 0 := by
  have hdash : '-' ≠ ' ' := by decide
  simp only [Parse, layoutCompactDash, parse_year _ _ _ _ _ _ _ hy1 hy2 hy3 hy4,
    parse_month _ _ _ _ _ hm1 hm2, parse_day _ _ _ _ _ hd1 hd2, parse_hour _ _ _ _ _ hh1 hh2,
    parse_minute _ _ _ _ _ hn1 hn2, parse_second_end _ _ _ _ hs1 hs2, parse_text _ _ _ _ hdash,
    parse_nil, parseResult]
  generalize decimal [m1, m2] = m
  generalize decimal [d1, d2] = d
  generalize decimal [h1, h2] = h
  generalize decimal [n1, n2] = n
  generalize decimal [s1, s2] = s
  generalize decimal [y1, y2, y3, y4] = y
  split_ifs <;> simp_all <;> omega

/-- Parsing `YYYY-MM-DDThh:mm:ssZ` (lines 172, 177, 182, 220). -/
theorem Parse_layoutISO (y1 y2 y3 y4 m1 m2 d1 d2 h1 h2 n1 n2 s1 s2 : Char)
    (hy1 : isDigit y1 = true) (hy2 : isDigit y2 = true) (hy3 : isDigit y3 = true)
    (hy4 : isDigit y4 = true) (hm1 : isDigit m1 = true) (hm2 : isDigit m2 = true)
    (hd1 : isDigit d1 = true) (hd2 : isDigit d2 = true) (hh1 : isDigit h1 = true)
    (hh2 : isDigit h2 = true) (hn1 : isDigit n1 = true) (hn2 : isDigit n2 = true)
    (hs1 : isDigit s1 = true) (hs2 : isDigit s2 = true) :
    Parse layoutISO [y1, y2, y3, y4, '-', m1, m2, '-', d1, d2, 'T', h1, h2, ':', n1, n2, ':', s1, s2, 'Z'] =
    parseResult (decimal [y1, y2, y3, y4] : Nat) (decimal [m1, m2]) (decimal [d1, d2])
      (decimal [h1, h2]) (decimal [n1, n2]) (decimal [s1, s2]) 0 := by
  have hdash : '-' ≠ ' ' := by decide
  have hT : 'T' ≠ ' ' := by decide
  have hc : ':' ≠ ' ' := by decide
  have hZ : 'Z' ≠ ' ' := by decide
  simp only [Parse, layoutISO, parse_year _ _ _ _ _ _ _ hy1 hy2 hy3 hy4,
    parse_month _ _ _ _ _ hm1 hm2, parse_day _ _ _ _ _ hd1 hd2, parse_hour _ _ _ _ _ hh1 hh2,
    parse_minute _ _ _ _ _ hn1 hn2, parse_second_Z _ _ _ _ _ hs1 hs2, parse_text _ _ _ _ hdash, parse_text _ _ _ _ hT, parse_text _ _ _ _ hc, parse_text _ _ _ _ hZ,
    parse_nil, parseResult]
  generalize decimal [m1, m2] = m
  generalize decimal [d1, d2] = d
  generalize decimal [h1, h2] = h
  generalize decimal [n1, n2] = n
  generalize decimal [s1, s2] = s
  generalize decimal [y1, y2, y3, y4] = y
  split_ifs <;> simp_all <;> omega

/-- Parsing `YYYYMMDDThhmmss` (lines 206, 213). -/
theorem Parse_layoutCompactT (y1 y2 y3 y4 m1 m2 d1 d2 h1 h2 n1 n2 s1 s2 : Char)
    (hy1 : isDigit y1 = true) (hy2 : isDigit y2 = true) (hy3 : isDigit y3 = true)
    (hy4 : isDigit y4 = true) (hm1 : isDigit m1 = true) (hm2 : isDigit m2 = true)
    (hd1 : isDigit d1 = true) (hd2 : isDigit d2 = true) (hh1 : isDigit h1 = true)
    (hh2 : isDigit h2 = true) (hn1 : isDigit n1 = true) (hn2 : isDigit n2 = true)
    (hs1 : isDigit s1 = true) (hs2 : isDigit s2 = true) :
    Parse layoutCompactT [y1, y2, y3, y4, m1, m2, d1, d2, 'T', h1, h2, n1, n2, s1, s2] =
    parseResult (decimal [y1, y2, y3, y4] : Nat) (decimal [m1, m2]) (decimal [d1, d2])
      (decimal [h1, h2]) (decimal [n1, n2]) (decimal [s1, s2]) 0 := by
  have hT : 'T' ≠ ' ' := by decide
  simp only [Parse, layoutCompactT, parse_year _ _ _ _ _ _ _ hy1 hy2 hy3 hy4,
    parse_month _ _ _ _ _ hm1 hm2, parse_day _ _ _ _ _ hd1 hd2, parse_hour _ _ _ _ _ hh1 hh2,
    parse_minute _ _ _ _ _ hn1 hn2, parse_second_end _ _ _ _ hs1 hs2, parse_text _ _ _ _ hT,
    parse_nil, parseResult]
  generalize decimal [m1, m2] = m
  generalize decimal [d1, d2] = d
  generalize decimal [h1, h2] = h
  generalize decimal [n1, n2] = n
  generalize decimal [s1, s2] = s
  generalize decimal [y1, y2, y3, y4] = y
  split_ifs <;> simp_all <;> omega

/-- Parsing `YYYY-MM-DDThh:mm:ss.fffZ` (line 227). -/
theorem Parse_layoutMillis (y1 y2 y3 y4 m1 m2 d1 d2 h1 h2 n1 n2 s1 s2 : Char)
    (hy1 : isDigit y1 = true) (hy2 : isDigit y2 = true) (hy3 : isDigit y3 = true)
    (hy4 : isDigit y4 = true) (hm1 : isDigit m1 = true) (hm2 : isDigit m2 = true)
    (hd1 : isDigit d1 = true) (hd2 : isDigit d2 = true) (hh1 : isDigit h1 = true)
    (hh2 : isDigit h2 = true) (hn1 : isDigit n1 = true) (hn2 : isDigit n2 = true)
    (hs1 : isDigit s1 = true) (hs2 : isDigit s2 = true)
    (g1 g2 g3 : Char) (hg1 : isDigit g1 = true) (hg2 : isDigit g2 = true)
    (hg3 : isDigit g3 = true) :
    Parse layoutMillis [y1, y2, y3, y4, '-', m1, m2, '-', d1, d2, 'T', h1, h2, ':', n1, n2, ':',
      s1, s2, '.', g1, g2, g3, 'Z'] =
    parseResult (decimal [y1, y2, y3, y4] : Nat) (decimal [m1, m2]) (decimal [d1, d2])
      (decimal [h1, h2]) (decimal [n1, n2]) (decimal [s1, s2]) (((decimal [g1, g2, g3] : Nat) : Int) * 1000000) := by
  have hdash : '-' ≠ ' ' := by decide
  have hT : 'T' ≠ ' ' := by decide
  have hc : ':' ≠ ' ' := by decide
  have hZ : 'Z' ≠ ' ' := by decide
  simp only [Parse, layoutMillis, parse_year _ _ _ _ _ _ _ hy1 hy2 hy3 hy4,
    parse_month _ _ _ _ _ hm1 hm2, parse_day _ _ _ _ _ hd1 hd2, parse_hour _ _ _ _ _ hh1 hh2,
    parse_minute _ _ _ _ _ hn1 hn2, parse_second_frac _ _ _ _ _ _ hs1 hs2,
    parse_frac3 _ _ _ _ _ _ hg1 hg2 hg3, parse_text _ _ _ _ hdash, parse_text _ _ _ _ hT,
    parse_text _ _ _ _ hc, parse_text _ _ _ _ hZ, parse_nil, parseResult]
  generalize ((decimal [g1, g2, g3] : Nat) : Int) * 1000000 = ns
  generalize decimal [m1, m2] = m
  generalize decimal [d1, d2] = d
  generalize decimal [h1, h2] = h
  generalize decimal [n1, n2] = n
  generalize decimal [s1, s2] = s
  generalize decimal [y1, y2, y3, y4] = y
  split_ifs <;> simp_all <;> omega

/-- Parsing `YYYY-MM-DD` (line 187). -/
theorem Parse_layoutDate (y1 y2 y3 y4 m1 m2 d1 d2 : Char)
    (hy1 : isDigit y1 = true) (hy2 : isDigit y2 = true) (hy3 : isDigit y3 = true)
    (hy4 : isDigit y4 = true) (hm1 : isDigit m1 = true) (hm2 : isDigit m2 = true)
    (hd1 : isDigit d1 = true) (hd2 : isDigit d2 = true) :
    Parse layoutDate [y1, y2, y3, y4, '-', m1, m2, '-', d1, d2] =
    parseResult (decimal [y1, y2, y3, y4] : Nat) (decimal [m1, m2]) (decimal [d1, d2]) 0 0 0 0 := by
  have hdash : '-' ≠ ' ' := by decide
  simp only [Parse, layoutDate, parse_year _ _ _ _ _ _ _ hy1 hy2 hy3 hy4,
    parse_month _ _ _ _ _ hm1 hm2, parse_day _ _ _ _ _ hd1 hd2, parse_text _ _ _ _ hdash,
    parse_nil, parseResult]
  generalize decimal [m1, m2] = m
  generalize decimal [d1, d2] = d
  generalize decimal [y1, y2, y3, y4] = y
  split_ifs <;> simp_all <;> omega

/-! ## Shapes of the matches of the patterns -/

theorem matches_cat_group_digits (n i k : Nat) (rs : List Regex) (w rest : List Char)
    (caps caps1 : List (List Char))
    (h : Matches n (cat (.group i (digits k) :: rs)) w rest caps caps1) :
    ∃ a w2, w = a ++ w2 ∧ Digits k a ∧ Matches n (cat rs) w2 rest (caps.set i a) caps1 := by
  rw [cat_cons, matches_seq] at h
  obtain ⟨a, w2, capsMid, hw, ha, h2⟩ := h
  obtain ⟨hl, hall, hc⟩ := matches_group_digits _ _ _ _ _ _ _ ha
  rw [hc] at h2
  exact ⟨a, w2, hw, ⟨hl, hall⟩, h2⟩

theorem matches_cat_cls (n : Nat) (p : Char → Bool) (rs : List Regex) (w rest : List Char)
    (caps caps1 : List (List Char))
    (h : Matches n (cat (.cls p :: rs)) w rest caps caps1) :
    ∃ x w2, w = x :: w2 ∧ p x = true ∧ Matches n (cat rs) w2 rest caps caps1 := by
  rw [cat_cons, matches_seq] at h
  obtain ⟨a, w2, capsMid, hw, ha, h2⟩ := h
  rw [matches_cls] at ha
  obtain ⟨x, hx, hp, hc⟩ := ha
  rw [hc] at h2
  exact ⟨x, w2, by rw [hw, hx]; rfl, hp, h2⟩

theorem matches_cat_lit (n : Nat) (c : Char) (rs : List Regex) (w rest : List Char)
    (caps caps1 : List (List Char))
    (h : Matches n (cat (lit c :: rs)) w rest caps caps1) :
    ∃ w2, w = c :: w2 ∧ Matches n (cat rs) w2 rest caps caps1 := by
  obtain ⟨x, w2, hw, hp, h2⟩ := matches_cat_cls _ _ _ _ _ _ _ h
  simp at hp
  exact ⟨w2, by rw [hw, hp], h2⟩

theorem matches_cat_nil (n : Nat) (w rest : List Char) (caps caps1 : List (List Char))
    (h : Matches n (cat []) w rest caps caps1) : w = [] ∧ caps1 = caps := by
  rw [cat_nil, matches_eps] at h
  exact h

theorem matches_lits (n : Nat) :
    ∀ (l w rest : List Char) (caps caps1 : List (List Char)),
      Matches n (cat (l.map lit)) w rest caps caps1 → w = l ∧ caps1 = caps := by
  intro l
  induction l with
  | nil =>
    intro w rest caps caps1 h
    exact matches_cat_nil _ _ _ _ _ h
  | cons c l ih =>
    intro w rest caps caps1 h
    rw [List.map_cons] at h
    obtain ⟨w2, hw, h2⟩ := matches_cat_lit _ _ _ _ _ _ _ h
    obtain ⟨hw2, hc⟩ := ih _ _ _ _ h2
    exact ⟨by rw [hw, hw2], hc⟩

theorem matches_cat_str (n : Nat) (s : String) (rs : List Regex) (w rest : List Char)
    (caps caps1 : List (List Char))
    (h : Matches n (cat (str s :: rs)) w rest caps caps1) :
    ∃ w2, w = s.toList ++ w2 ∧ Matches n (cat rs) w2 rest caps caps1 := by
  rw [cat_cons, matches_seq] at h
  obtain ⟨a, w2, capsMid, hw, ha, h2⟩ := h
  obtain ⟨ha1, hc⟩ := matches_lits _ _ _ _ _ _ ha
  rw [hc] at h2
  exact ⟨w2, by rw [hw, ha1], h2⟩

theorem starMatches_caps (R : List Char → List Char → List (List Char) → List (List Char) → Prop)
    (hR : ∀ w rest caps caps1, R w rest caps caps1 → caps1 = caps)
    (w rest : List Char) (caps caps1 : List (List Char)) (h : StarMatches R w rest caps caps1) :
    caps1 = caps := by
  induction h with
  | done => rfl
  | more w1 w2 rest caps capsA capsB h1 _ ih => rw [ih, hR _ _ _ _ h1]

/-- A regular expression without capture groups leaves the capture slots alone. -/
theorem matches_caps (n : Nat) (re : Regex) (hre : numSubexp re = 0) :
    ∀ w rest caps caps1, Matches n re w rest caps caps1 → caps1 = caps := by
  induction re with
  | cls p =>
    intro w rest caps caps1 h
    obtain ⟨_, _, _, hc⟩ := h
    exact hc
  | eps =>
    intro w rest caps caps1 h
    exact h.2
  | seq a b iha ihb =>
    intro w rest caps caps1 h
    simp only [numSubexp] at hre
    obtain ⟨w1, w2, capsMid, _, h1, h2⟩ := h
    rw [ihb (by omega) _ _ _ _ h2, iha (by omega) _ _ _ _ h1]
  | alt a b iha ihb =>
    intro w rest caps caps1 h
    simp only [numSubexp] at hre
    rcases h with h | h
    · exact iha (by omega) _ _ _ _ h
    · exact ihb (by omega) _ _ _ _ h
  | star a iha =>
    intro w rest caps caps1 h
    simp only [numSubexp] at hre
    exact starMatches_caps _ (iha hre) _ _ _ _ h
  | group i a _ =>
    simp only [numSubexp] at hre
    omega
  | bot =>
    intro w rest caps caps1 h
    exact h.2.2
  | eot =>
    intro w rest caps caps1 h
    exact h.2.2

theorem matches_caps_of (n : Nat) (re : Regex) (w rest : List Char)
    (caps caps1 : List (List Char)) (h : Matches n re w rest caps caps1)
    (hre : numSubexp re = 0) : caps1 = caps :=
  matches_caps n re hre _ _ _ _ h

theorem digits_two (w : List Char) (h : Digits 2 w) :
    ∃ a b, w = [a, b] ∧ isDigit a = true ∧ isDigit b = true := by
  obtain ⟨hl, hall⟩ := h
  match w, hl, hall with
  | [a, b], _, hall => exact ⟨a, b, rfl, hall a (by simp), hall b (by simp)⟩

theorem digits_three (w : List Char) (h : Digits 3 w) :
    ∃ a b c, w = [a, b, c] ∧ isDigit a = true ∧ isDigit b = true ∧ isDigit c = true := by
  obtain ⟨hl, hall⟩ := h
  match w, hl, hall with
  | [a, b, c], _, hall => exact ⟨a, b, c, rfl, hall a (by simp), hall b (by simp), hall c (by simp)⟩

theorem digits_four (w : List Char) (h : Digits 4 w) :
    ∃ a b c d, w = [a, b, c, d] ∧ isDigit a = true ∧ isDigit b = true ∧ isDigit c = true ∧
      isDigit d = true := by
  obtain ⟨hl, hall⟩ := h
  match w, hl, hall with
  | [a, b, c, d], _, hall =>
    exact ⟨a, b, c, d, rfl, hall a (by simp), hall b (by simp), hall c (by simp), hall d (by simp)⟩

theorem digits_six (w : List Char) (h : Digits 6 w) :
    ∃ a b c d e f, w = [a, b, c, d, e, f] ∧ isDigit a = true ∧ isDigit b = true ∧
      isDigit c = true ∧ isDigit d = true ∧ isDigit e = true ∧ isDigit f = true := by
  obtain ⟨hl, hall⟩ := h
  match w, hl, hall with
  | [a, b, c, d, e, f], _, hall =>
    exact ⟨a, b, c, d, e, f, rfl, hall a (by simp), hall b (by simp), hall c (by simp),
      hall d (by simp), hall e (by simp), hall f (by simp)⟩

theorem digits_eight (w : List Char) (h : Digits 8 w) :
    ∃ a b c d e f g i, w = [a, b, c, d, e, f, g, i] ∧ isDigit a = true ∧ isDigit b = true ∧
      isDigit c = true ∧ isDigit d = true ∧ isDigit e = true ∧ isDigit f = true ∧
      isDigit g = true ∧ isDigit i = true := by
  obtain ⟨hl, hall⟩ := h
  match w, hl, hall with
  | [a, b, c, d, e, f, g, i], _, hall =>
    exact ⟨a, b, c, d, e, f, g, i, rfl, hall a (by simp), hall b (by simp), hall c (by simp),
      hall d (by simp), hall e (by simp), hall f (by simp), hall g (by simp), hall i (by simp)⟩


/-- The shape of a match of `re1`. -/
theorem re1_shape (s : List Char) (ms : List (List Char))
    (h : FindStringSubmatch re1 s = some ms) :
    ∃ pre rest a b c d e f sep, s = pre ++ (a ++ '-' :: b ++ '-' :: c ++ sep :: d ++ '-' :: e ++ '-' :: f ++ rest) ∧
      ms = [a ++ '-' :: b ++ '-' :: c ++ sep :: d ++ '-' :: e ++ '-' :: f, a, b, c, d, e, f] ∧
      Digits 4 a ∧ Digits 2 b ∧ Digits 2 c ∧ Digits 2 d ∧ Digits 2 e ∧ Digits 2 f := by
  obtain ⟨pre, w, rest, caps1, hs, hm, hms⟩ := find_sound _ _ _ h
  have hn : numSubexp re1 = 6 := rfl
  rw [hn, re1] at hm
  obtain ⟨a, w1, hw1, ha, hm⟩ := matches_cat_group_digits _ _ _ _ _ _ _ _ hm
  obtain ⟨w2, hw2, hm⟩ := matches_cat_lit _ _ _ _ _ _ _ hm
  obtain ⟨b, w3, hw3, hb, hm⟩ := matches_cat_group_digits _ _ _ _ _ _ _ _ hm
  obtain ⟨w4, hw4, hm⟩ := matches_cat_lit _ _ _ _ _ _ _ hm
  obtain ⟨c, w5, hw5, hc, hm⟩ := matches_cat_group_digits _ _ _ _ _ _ _ _ hm
  obtain ⟨sep, w6, hw6, -, hm⟩ := matches_cat_cls _ _ _ _ _ _ _ hm
  obtain ⟨d, w7, hw7, hd, hm⟩ := matches_cat_group_digits _ _ _ _ _ _ _ _ hm
  obtain ⟨w8, hw8, hm⟩ := matches_cat_lit _ _ _ _ _ _ _ hm
  obtain ⟨e, w9, hw9, he, hm⟩ := matches_cat_group_digits _ _ _ _ _ _ _ _ hm
  obtain ⟨w10, hw10, hm⟩ := matches_cat_lit _ _ _ _ _ _ _ hm
  obtain ⟨f, w11, hw11, hf, hm⟩ := matches_cat_group_digits _ _ _ _ _ _ _ _ hm
  obtain ⟨hwn, hcaps⟩ := matches_cat_nil _ _ _ _ _ hm
  refine ⟨pre, rest, a, b, c, d, e, f, sep, ?_, ?_, ha, hb, hc, hd, he, hf⟩
  · rw [hs, hw1, hw2, hw3, hw4, hw5, hw6, hw7, hw8, hw9, hw10, hw11, hwn]
    simp
  · rw [hms, hcaps, hw1, hw2, hw3, hw4, hw5, hw6, hw7, hw8, hw9, hw10, hw11, hwn]
    simp [List.replicate]

/-- The shape of a match of `re2`. -/
theorem re2_shape (s : List Char) (ms : List (List Char))
    (h : FindStringSubmatch re2 s = some ms) :
    ∃ pre rest a b c d e f sep, s = pre ++ (a ++ b ++ c ++ sep :: d ++ e ++ f ++ rest) ∧
      ms = [a ++ b ++ c ++ sep :: d ++ e ++ f, a, b, c, d, e, f] ∧
      Digits 4 a ∧ Digits 2 b ∧ Digits 2 c ∧ Digits 2 d ∧ Digits 2 e ∧ Digits 2 f := by
  obtain ⟨pre, w, rest, caps1, hs, hm, hms⟩ := find_sound _ _ _ h
  have hn : numSubexp re2 = 6 := rfl
  rw [hn, re2] at hm
  obtain ⟨a, w1, hw1, ha, hm⟩ := matches_cat_group_digits _ _ _ _ _ _ _ _ hm
  obtain ⟨b, w2, hw2, hb, hm⟩ := matches_cat_group_digits _ _ _ _ _ _ _ _ hm
  obtain ⟨c, w3, hw3, hc, hm⟩ := matches_cat_group_digits _ _ _ _ _ _ _ _ hm
  obtain ⟨sep, w4, hw4, -, hm⟩ := matches_cat_cls _ _ _ _ _ _ _ hm
  obtain ⟨d, w5, hw5, hd, hm⟩ := matches_cat_group_digits _ _ _ _ _ _ _ _ hm
  obtain ⟨e, w6, hw6, he, hm⟩ := matches_cat_group_digits _ _ _ _ _ _ _ _ hm
  obtain ⟨f, w7, hw7, hf, hm⟩ := matches_cat_group_digits _ _ _ _ _ _ _ _ hm
  obtain ⟨hwn, hcaps⟩ := matches_cat_nil _ _ _ _ _ hm
  refine ⟨pre, rest, a, b, c, d, e, f, sep, ?_, ?_, ha, hb, hc, hd, he, hf⟩
  · rw [hs, hw1, hw2, hw3, hw4, hw5, hw6, hw7, hwn]
    simp
  · rw [hms, hcaps, hw1, hw2, hw3, hw4, hw5, hw6, hw7, hwn]
    simp [List.replicate]

/-- The shape of a match of `re3`. -/
theorem re3_shape (s : List Char) (ms : List (List Char))
    (h : FindStringSubmatch re3 s = some ms) :
    ∃ pre rest a b c d e f sep, s = pre ++ (a ++ '-' :: b ++ '-' :: c ++ sep :: d ++ '.' :: e ++ '.' :: f ++ rest) ∧
      ms = [a ++ '-' :: b ++ '-' :: c ++ sep :: d ++ '.' :: e ++ '.' :: f, a, b, c, d, e, f] ∧
      Digits 4 a ∧ Digits 2 b ∧ Digits 2 c ∧ Digits 2 d ∧ Digits 2 e ∧ Digits 2 f := by
  obtain ⟨pre, w, rest, caps1, hs, hm, hms⟩ := find_sound _ _ _ h
  have hn : numSubexp re3 = 6 := rfl
  rw [hn, re3] at hm
  obtain ⟨a, w1, hw1, ha, hm⟩ := matches_cat_group_digits _ _ _ _ _ _ _ _ hm
  obtain ⟨w2, hw2, hm⟩ := matches_cat_lit _ _ _ _ _ _ _ hm
  obtain ⟨b, w3, hw3, hb, hm⟩ := matches_cat_group_digits _ _ _ _ _ _ _ _ hm
  obtain ⟨w4, hw4, hm⟩ := matches_cat_lit _ _ _ _ _ _ _ hm
  obtain ⟨c, w5, hw5, hc, hm⟩ := matches_cat_group_digits _ _ _ _ _ _ _ _ hm
  obtain ⟨sep, w6, hw6, -, hm⟩ := matches_cat_cls _ _ _ _ _ _ _ hm
  obtain ⟨d, w7, hw7, hd, hm⟩ := matches_cat_group_digits _ _ _ _ _ _ _ _ hm
  obtain ⟨w8, hw8, hm⟩ := matches_cat_lit _ _ _ _ _ _ _ hm
  obtain ⟨e, w9, hw9, he, hm⟩ := matches_cat_group_digits _ _ _ _ _ _ _ _ hm
  obtain ⟨w10, hw10, hm⟩ := matches_cat_lit _ _ _ _ _ _ _ hm
  obtain ⟨f, w11, hw11, hf, hm⟩ := matches_cat_group_digits _ _ _ _ _ _ _ _ hm
  obtain ⟨hwn, hcaps⟩ := matches_cat_nil _ _ _ _ _ hm
  refine ⟨pre, rest, a, b, c, d, e, f, sep, ?_, ?_, ha, hb, hc, hd, he, hf⟩
  · rw [hs, hw1, hw2, hw3, hw4, hw5, hw6, hw7, hw8, hw9, hw10, hw11, hwn]
    simp
  · rw [hms, hcaps, hw1, hw2, hw3, hw4, hw5, hw6, hw7, hw8, hw9, hw10, hw11, hwn]
    simp [List.replicate]

/-- The shape of a match of `re4`. -/
theorem re4_shape (s : List Char) (ms : List (List Char))
    (h : FindStringSubmatch re4 s = some ms) :
    ∃ pre rest a b c d e f sep, s = pre ++ (a ++ b ++ c ++ sep :: d ++ e ++ f ++ rest) ∧
      ms = [a ++ b ++ c ++ sep :: d ++ e ++ f, a, b, c, d, e, f] ∧
      Digits 4 a ∧ Digits 2 b ∧ Digits 2 c ∧ Digits 2 d ∧ Digits 2 e ∧ Digits 2 f := by
  obtain ⟨pre, w, rest, caps1, hs, hm, hms⟩ := find_sound _ _ _ h
  have hn : numSubexp re4 = 6 := rfl
  rw [hn, re4] at hm
  obtain ⟨a, w1, hw1, ha, hm⟩ := matches_cat_group_digits _ _ _ _ _ _ _ _ hm
  obtain ⟨b, w2, hw2, hb, hm⟩ := matches_cat_group_digits _ _ _ _ _ _ _ _ hm
  obtain ⟨c, w3, hw3, hc, hm⟩ := matches_cat_group_digits _ _ _ _ _ _ _ _ hm
  obtain ⟨sep, w4, hw4, -, hm⟩ := matches_cat_cls _ _ _ _ _ _ _ hm
  obtain ⟨d, w5, hw5, hd, hm⟩ := matches_cat_group_digits _ _ _ _ _ _ _ _ hm
  obtain ⟨e, w6, hw6, he, hm⟩ := matches_cat_group_digits _ _ _ _ _ _ _ _ hm
  obtain ⟨f, w7, hw7, hf, hm⟩ := matches_cat_group_digits _ _ _ _ _ _ _ _ hm
  obtain ⟨hwn, hcaps⟩ := matches_cat_nil _ _ _ _ _ hm
  refine ⟨pre, rest, a, b, c, d, e, f, sep, ?_, ?_, ha, hb, hc, hd, he, hf⟩
  · rw [hs, hw1, hw2, hw3, hw4, hw5, hw6, hw7, hwn]
    simp
  · rw [hms, hcaps, hw1, hw2, hw3, hw4, hw5, hw6, hw7, hwn]
    simp [List.replicate]

/-- The shape of a match of `re5`. -/
theorem re5_shape (s : List Char) (ms : List (List Char))
    (h : FindStringSubmatch re5 s = some ms) :
    ∃ pre rest a b c t, s = pre ++ ("IMG-".toList ++ a ++ b ++ c ++ t ++ rest) ∧
      ms = ["IMG-".toList ++ a ++ b ++ c ++ t, a, b, c] ∧
      Digits 4 a ∧ Digits 2 b ∧ Digits 2 c := by
  obtain ⟨pre, w, rest, caps1, hs, hm, hms⟩ := find_sound _ _ _ h
  have hn : numSubexp re5 = 3 := rfl
  rw [hn, re5] at hm
  obtain ⟨w1, hw1, hm⟩ := matches_cat_str _ _ _ _ _ _ _ hm
  obtain ⟨a, w2, hw2, ha, hm⟩ := matches_cat_group_digits _ _ _ _ _ _ _ _ hm
  obtain ⟨b, w3, hw3, hb, hm⟩ := matches_cat_group_digits _ _ _ _ _ _ _ _ hm
  obtain ⟨c, w4, hw4, hc, hm⟩ := matches_cat_group_digits _ _ _ _ _ _ _ _ hm
  have hcaps := matches_caps_of _ _ _ _ _ _ hm rfl
  refine ⟨pre, rest, a, b, c, w4, ?_, ?_, ha, hb, hc⟩
  · rw [hs, hw1, hw2, hw3, hw4]
    simp
  · rw [hms, hcaps, hw1, hw2, hw3, hw4]
    simp [List.replicate]

/-- The shape of a match of `re6`. -/
theorem re6_shape (s : List Char) (ms : List (List Char))
    (h : FindStringSubmatch re6 s = some ms) :
    ∃ pre rest a b c d e, s = pre ++ (a ++ '-' :: b ++ '-' :: c ++ '_' :: d ++ e ++ rest) ∧
      ms = [a ++ '-' :: b ++ '-' :: c ++ '_' :: d ++ e, a, b, c, d, e] ∧
      Digits 4 a ∧ Digits 2 b ∧ Digits 2 c ∧ Digits 2 d ∧ Digits 2 e := by
  obtain ⟨pre, w, rest, caps1, hs, hm, hms⟩ := find_sound _ _ _ h
  have hn : numSubexp re6 = 5 := rfl
  rw [hn, re6] at hm
  obtain ⟨a, w1, hw1, ha, hm⟩ := matches_cat_group_digits _ _ _ _ _ _ _ _ hm
  obtain ⟨w2, hw2, hm⟩ := matches_cat_lit _ _ _ _ _ _ _ hm
  obtain ⟨b, w3, hw3, hb, hm⟩ := matches_cat_group_digits _ _ _ _ _ _ _ _ hm
  obtain ⟨w4, hw4, hm⟩ := matches_cat_lit _ _ _ _ _ _ _ hm
  obtain ⟨c, w5, hw5, hc, hm⟩ := matches_cat_group_digits _ _ _ _ _ _ _ _ hm
  obtain ⟨w6, hw6, hm⟩ := matches_cat_lit _ _ _ _ _ _ _ hm
  obtain ⟨d, w7, hw7, hd, hm⟩ := matches_cat_group_digits _ _ _ _ _ _ _ _ hm
  obtain ⟨e, w8, hw8, he, hm⟩ := matches_cat_group_digits _ _ _ _ _ _ _ _ hm
  obtain ⟨hwn, hcaps⟩ := matches_cat_nil _ _ _ _ _ hm
  refine ⟨pre, rest, a, b, c, d, e, ?_, ?_, ha, hb, hc, hd, he⟩
  · rw [hs, hw1, hw2, hw3, hw4, hw5, hw6, hw7, hw8, hwn]
    simp
  · rw [hms, hcaps, hw1, hw2, hw3, hw4, hw5, hw6, hw7, hw8, hwn]
    simp [List.replicate]

/-- The shape of a match of `re7`. -/
theorem re7_shape (s : List Char) (ms : List (List Char))
    (h : FindStringSubmatch re7 s = some ms) :
    ∃ pre rest a b c d e f t, s = pre ++ ("IMG_".toList ++ a ++ '-' :: b ++ '-' :: c ++ '-' :: d ++ e ++ f ++ t ++ rest) ∧
      ms = ["IMG_".toList ++ a ++ '-' :: b ++ '-' :: c ++ '-' :: d ++ e ++ f ++ t, a, b, c, d, e, f] ∧
      Digits 4 a ∧ Digits 2 b ∧ Digits 2 c ∧ Digits 2 d ∧ Digits 2 e ∧ Digits 2 f := by
  obtain ⟨pre, w, rest, caps1, hs, hm, hms⟩ := find_sound _ _ _ h
  have hn : numSubexp re7 = 6 := rfl
  rw [hn, re7] at hm
  obtain ⟨w1, hw1, hm⟩ := matches_cat_str _ _ _ _ _ _ _ hm
  obtain ⟨a, w2, hw2, ha, hm⟩ := matches_cat_group_digits _ _ _ _ _ _ _ _ hm
  obtain ⟨w3, hw3, hm⟩ := matches_cat_lit _ _ _ _ _ _ _ hm
  obtain ⟨b, w4, hw4, hb, hm⟩ := matches_cat_group_digits _ _ _ _ _ _ _ _ hm
  obtain ⟨w5, hw5, hm⟩ := matches_cat_lit _ _ _ _ _ _ _ hm
  obtain ⟨c, w6, hw6, hc, hm⟩ := matches_cat_group_digits _ _ _ _ _ _ _ _ hm
  obtain ⟨w7, hw7, hm⟩ := matches_cat_lit _ _ _ _ _ _ _ hm
  obtain ⟨d, w8, hw8, hd, hm⟩ := matches_cat_group_digits _ _ _ _ _ _ _ _ hm
  obtain ⟨e, w9, hw9, he, hm⟩ := matches_cat_group_digits _ _ _ _ _ _ _ _ hm
  obtain ⟨f, w10, hw10, hf, hm⟩ := matches_cat_group_digits _ _ _ _ _ _ _ _ hm
  have hcaps := matches_caps_of _ _ _ _ _ _ hm rfl
  refine ⟨pre, rest, a, b, c, d, e, f, w10, ?_, ?_, ha, hb, hc, hd, he, hf⟩
  · rw [hs, hw1, hw2, hw3, hw4, hw5, hw6, hw7, hw8, hw9, hw10]
    simp
  · rw [hms, hcaps, hw1, hw2, hw3, hw4, hw5, hw6, hw7, hw8, hw9, hw10]
    simp [List.replicate]

/-- The shape of a match of `re8`. -/
theorem re8_shape (s : List Char) (ms : List (List Char))
    (h : FindStringSubmatch re8 s = some ms) :
    ∃ pre rest a b c t, s = pre ++ (a ++ '-' :: b ++ '-' :: c ++ t ++ rest) ∧
      ms = [a ++ '-' :: b ++ '-' :: c ++ t, a, b, c] ∧
      Digits 4 a ∧ Digits 2 b ∧ Digits 2 c := by
  obtain ⟨pre, w, rest, caps1, hs, hm, hms⟩ := find_sound _ _ _ h
  have hn : numSubexp re8 = 3 := rfl
  rw [hn, re8] at hm
  obtain ⟨a, w1, hw1, ha, hm⟩ := matches_cat_group_digits _ _ _ _ _ _ _ _ hm
  obtain ⟨w2, hw2, hm⟩ := matches_cat_lit _ _ _ _ _ _ _ hm
  obtain ⟨b, w3, hw3, hb, hm⟩ := matches_cat_group_digits _ _ _ _ _ _ _ _ hm
  obtain ⟨w4, hw4, hm⟩ := matches_cat_lit _ _ _ _ _ _ _ hm
  obtain ⟨c, w5, hw5, hc, hm⟩ := matches_cat_group_digits _ _ _ _ _ _ _ _ hm
  have hcaps := matches_caps_of _ _ _ _ _ _ hm rfl
  refine ⟨pre, rest, a, b, c, w5, ?_, ?_, ha, hb, hc⟩
  · rw [hs, hw1, hw2, hw3, hw4, hw5]
    simp
  · rw [hms, hcaps, hw1, hw2, hw3, hw4, hw5]
    simp [List.replicate]

/-- The shape of a match of `re8x`, the extraction pattern of line 185. -/
theorem re8x_shape (s : List Char) (ms : List (List Char))
    (h : FindStringSubmatch re8x s = some ms) :
    ∃ pre rest a b c, s = pre ++ (a ++ '-' :: b ++ '-' :: c ++ rest) ∧
      ms = [a ++ '-' :: b ++ '-' :: c, a, b, c] ∧
      Digits 4 a ∧ Digits 2 b ∧ Digits 2 c := by
  obtain ⟨pre, w, rest, caps1, hs, hm, hms⟩ := find_sound _ _ _ h
  have hn : numSubexp re8x = 3 := rfl
  rw [hn, re8x] at hm
  obtain ⟨a, w1, hw1, ha, hm⟩ := matches_cat_group_digits _ _ _ _ _ _ _ _ hm
  obtain ⟨w2, hw2, hm⟩ := matches_cat_lit _ _ _ _ _ _ _ hm
  obtain ⟨b, w3, hw3, hb, hm⟩ := matches_cat_group_digits _ _ _ _ _ _ _ _ hm
  obtain ⟨w4, hw4, hm⟩ := matches_cat_lit _ _ _ _ _ _ _ hm
  obtain ⟨c, w5, hw5, hc, hm⟩ := matches_cat_group_digits _ _ _ _ _ _ _ _ hm
  obtain ⟨hwn, hcaps⟩ := matches_cat_nil _ _ _ _ _ hm
  refine ⟨pre, rest, a, b, c, ?_, ?_, ha, hb, hc⟩
  · rw [hs, hw1, hw2, hw3, hw4, hw5, hwn]
    simp
  · rw [hms, hcaps, hw1, hw2, hw3, hw4, hw5, hwn]
    simp [List.replicate]

/-- The shape of a match of `re10`. -/
theorem re10_shape (s : List Char) (ms : List (List Char))
    (h : FindStringSubmatch re10 s = some ms) :
    ∃ pre rest a b, s = pre ++ ("BURST".toList ++ a ++ b ++ rest) ∧
      ms = ["BURST".toList ++ a ++ b, a, b] ∧
      Digits 8 a ∧ Digits 6 b := by
  obtain ⟨pre, w, rest, caps1, hs, hm, hms⟩ := find_sound _ _ _ h
  have hn : numSubexp re10 = 2 := rfl
  rw [hn, re10] at hm
  obtain ⟨w1, hw1, hm⟩ := matches_cat_str _ _ _ _ _ _ _ hm
  obtain ⟨a, w2, hw2, ha, hm⟩ := matches_cat_group_digits _ _ _ _ _ _ _ _ hm
  obtain ⟨b, w3, hw3, hb, hm⟩ := matches_cat_group_digits _ _ _ _ _ _ _ _ hm
  obtain ⟨hwn, hcaps⟩ := matches_cat_nil _ _ _ _ _ hm
  refine ⟨pre, rest, a, b, ?_, ?_, ha, hb⟩
  · rw [hs, hw1, hw2, hw3, hwn]
    simp
  · rw [hms, hcaps, hw1, hw2, hw3, hwn]
    simp [List.replicate]

/-- The shape of a match of `re11`. -/
theorem re11_shape (s : List Char) (ms : List (List Char))
    (h : FindStringSubmatch re11 s = some ms) :
    ∃ pre rest a b t, s = pre ++ ('_' :: a ++ b ++ t ++ rest) ∧
      ms = ['_' :: a ++ b ++ t, a, b] ∧
      Digits 8 a ∧ Digits 6 b := by
  obtain ⟨pre, w, rest, caps1, hs, hm, hms⟩ := find_sound _ _ _ h
  have hn : numSubexp re11 = 2 := rfl
  rw [hn, re11] at hm
  obtain ⟨w1, hw1, hm⟩ := matches_cat_lit _ _ _ _ _ _ _ hm
  obtain ⟨a, w2, hw2, ha, hm⟩ := matches_cat_group_digits _ _ _ _ _ _ _ _ hm
  obtain ⟨b, w3, hw3, hb, hm⟩ := matches_cat_group_digits _ _ _ _ _ _ _ _ hm
  have hcaps := matches_caps_of _ _ _ _ _ _ hm rfl
  refine ⟨pre, rest, a, b, w3, ?_, ?_, ha, hb⟩
  · rw [hs, hw1, hw2, hw3]
    simp
  · rw [hms, hcaps, hw1, hw2, hw3]
    simp [List.replicate]

/-- The shape of a match of `re12`. -/
theorem re12_shape (s : List Char) (ms : List (List Char))
    (h : FindStringSubmatch re12 s = some ms) :
    ∃ pre rest a b c t, s = pre ++ ("CameraZOOM-".toList ++ a ++ b ++ c ++ t ++ rest) ∧
      ms = ["CameraZOOM-".toList ++ a ++ b ++ c ++ t, a, b, c] ∧
      Digits 4 a ∧ Digits 2 b ∧ Digits 2 c := by
  obtain ⟨pre, w, rest, caps1, hs, hm, hms⟩ := find_sound _ _ _ h
  have hn : numSubexp re12 = 3 := rfl
  rw [hn, re12] at hm
  obtain ⟨w1, hw1, hm⟩ := matches_cat_str _ _ _ _ _ _ _ hm
  obtain ⟨a, w2, hw2, ha, hm⟩ := matches_cat_group_digits _ _ _ _ _ _ _ _ hm
  obtain ⟨b, w3, hw3, hb, hm⟩ := matches_cat_group_digits _ _ _ _ _ _ _ _ hm
  obtain ⟨c, w4, hw4, hc, hm⟩ := matches_cat_group_digits _ _ _ _ _ _ _ _ hm
  have hcaps := matches_caps_of _ _ _ _ _ _ hm rfl
  refine ⟨pre, rest, a, b, c, w4, ?_, ?_, ha, hb, hc⟩
  · rw [hs, hw1, hw2, hw3, hw4]
    simp
  · rw [hms, hcaps, hw1, hw2, hw3, hw4]
    simp [List.replicate]

/-- The shape of a match of `re13`. -/
theorem re13_shape (s : List Char) (ms : List (List Char))
    (h : FindStringSubmatch re13 s = some ms) :
    ∃ pre rest a b c d e f g, s = pre ++ ('-' :: a ++ b ++ c ++ d ++ e ++ f ++ g ++ rest) ∧
      ms = ['-' :: a ++ b ++ c ++ d ++ e ++ f ++ g, a, b, c, d, e, f, g] ∧
      Digits 4 a ∧ Digits 2 b ∧ Digits 2 c ∧ Digits 2 d ∧ Digits 2 e ∧ Digits 2 f ∧ Digits 3 g := by
  obtain ⟨pre, w, rest, caps1, hs, hm, hms⟩ := find_sound _ _ _ h
  have hn : numSubexp re13 = 7 := rfl
  rw [hn, re13] at hm
  obtain ⟨w1, hw1, hm⟩ := matches_cat_lit _ _ _ _ _ _ _ hm
  obtain ⟨a, w2, hw2, ha, hm⟩ := matches_cat_group_digits _ _ _ _ _ _ _ _ hm
  obtain ⟨b, w3, hw3, hb, hm⟩ := matches_cat_group_digits _ _ _ _ _ _ _ _ hm
  obtain ⟨c, w4, hw4, hc, hm⟩ := matches_cat_group_digits _ _ _ _ _ _ _ _ hm
  obtain ⟨d, w5, hw5, hd, hm⟩ := matches_cat_group_digits _ _ _ _ _ _ _ _ hm
  obtain ⟨e, w6, hw6, he, hm⟩ := matches_cat_group_digits _ _ _ _ _ _ _ _ hm
  obtain ⟨f, w7, hw7, hf, hm⟩ := matches_cat_group_digits _ _ _ _ _ _ _ _ hm
  obtain ⟨g, w8, hw8, hg, hm⟩ := matches_cat_group_digits _ _ _ _ _ _ _ _ hm
  obtain ⟨hwn, hcaps⟩ := matches_cat_nil _ _ _ _ _ hm
  refine ⟨pre, rest, a, b, c, d, e, f, g, ?_, ?_, ha, hb, hc, hd, he, hf, hg⟩
  · rw [hs, hw1, hw2, hw3, hw4, hw5, hw6, hw7, hw8, hwn]
    simp
  · rw [hms, hcaps, hw1, hw2, hw3, hw4, hw5, hw6, hw7, hw8, hwn]
    simp [List.replicate]

/-! ## The cases of the switch -/

theorem Digits.two (a b : Char) (ha : isDigit a = true) (hb : isDigit b = true) :
    Digits 2 [a, b] := by
  refine ⟨rfl, ?_⟩
  intro c hc
  simp at hc
  rcases hc with rfl | rfl <;> assumption

theorem Digits.four (a b c d : Char) (ha : isDigit a = true) (hb : isDigit b = true)
    (hc : isDigit c = true) (hd : isDigit d = true) : Digits 4 [a, b, c, d] := by
  refine ⟨rfl, ?_⟩
  intro x hx
  simp at hx
  rcases hx with rfl | rfl | rfl | rfl <;> assumption

/-- After a parse of well-formed fields, the call returns the fields as they were read when
they form a valid date and time, and the invalid-date error otherwise. -/
theorem finish_parseResult (tz : Zone) (filename : List Char) (c : Fields) (ns : Int)
    (hc : c.WellFormed) :
    finish tz filename (assign (parseResult (decimal c.year : Nat) (decimal c.month)
      (decimal c.day) (decimal c.hour) (decimal c.minute) (decimal c.second) ns)) =
    if c.valid = true then .ok c.render
    else .error ("invalid date in filename: ".toList ++ filename) := by
  obtain ⟨hy, hm, hd, hh, hn, hs⟩ := hc
  obtain ⟨y1, y2, y3, y4, ey, hy1, hy2, hy3, hy4⟩ := digits_four _ hy
  obtain ⟨m1, m2, em, hm1, hm2⟩ := digits_two _ hm
  obtain ⟨d1, d2, ed, hd1, hd2⟩ := digits_two _ hd
  obtain ⟨h1, h2, eh, hh1, hh2⟩ := digits_two _ hh
  obtain ⟨n1, n2, en, hn1, hn2⟩ := digits_two _ hn
  obtain ⟨s1, s2, es, hs1, hs2⟩ := digits_two _ hs
  by_cases hv : c.valid = true
  · rw [if_pos hv]
    simp only [Fields.valid, decide_eq_true_eq] at hv
    obtain ⟨v1, v2, v3, v4, v5, v6, v7⟩ := hv
    have hp : parseResult (decimal c.year : Nat) (decimal c.month) (decimal c.day)
        (decimal c.hour) (decimal c.minute) (decimal c.second) ns =
        (Date (decimal c.year : Nat) (decimal c.month) (decimal c.day) (decimal c.hour)
          (decimal c.minute) (decimal c.second) ns, false) := by
      simp only [parseResult]
      rw [if_pos]
      exact ⟨v1, v2, v3, v4, by omega, by omega, by omega⟩
    rw [hp]
    simp only [assign, finish, Bool.false_eq_true, if_false]
    rw [format_Date tz _ _ _ _ _ _ _ ⟨v1, v2⟩ ⟨v3, v4⟩ (by omega) (by omega) (by omega)]
    simp only [Fields.render]
    rw [ey, em, ed, eh, en, es, appendInt_decimal_four _ _ _ _ hy1 hy2 hy3 hy4,
      appendInt_decimal_two _ _ hm1 hm2, appendInt_decimal_two _ _ hd1 hd2,
      appendInt_decimal_two _ _ hh1 hh2, appendInt_decimal_two _ _ hn1 hn2,
      appendInt_decimal_two _ _ hs1 hs2]
  · rw [if_neg hv]
    have hp : parseResult (decimal c.year : Nat) (decimal c.month) (decimal c.day)
        (decimal c.hour) (decimal c.minute) (decimal c.second) ns = (Time.zero, true) := by
      simp only [parseResult]
      rw [if_neg]
      intro ⟨v1, v2, v3, v4, v5, v6, v7⟩
      apply hv
      simp only [Fields.valid, decide_eq_true_eq]
      exact ⟨v1, v2, v3, v4, by omega, by omega, by omega⟩
    rw [hp]
    simp [assign, finish]

theorem findFrom_isSome_append (n : Nat) (re : Regex) (s : List Char)
    (h : (matchRe n (.group 0 re) s (List.replicate (numSubexp re + 1) [])
      (fun _ caps => some caps)).isSome = true) :
    ∀ pre, (findFrom n re (pre ++ s)).isSome = true := by
  intro pre
  induction pre with
  | nil =>
    cases s with
    | nil => simpa [findFrom] using h
    | cons c s =>
      simp only [List.nil_append, findFrom]
      split
      · rfl
      · rename_i hnone
        rw [hnone] at h
        cases h
  | cons c pre ih =>
    simp only [List.cons_append, findFrom]
    split
    · rfl
    · exact ih

/-- Where the detection pattern of rule 8 matches, its extraction pattern matches too. -/
theorem re8x_of_re8 (filename : List Char) (h : MatchString re8 filename = true) :
    MatchString re8x filename = true := by
  simp only [MatchString, Option.isSome_iff_exists] at h
  obtain ⟨ms, hms⟩ := h
  obtain ⟨pre, rest, a, b, c, t, hs, -, ha, hb, hc⟩ := re8_shape _ _ hms
  obtain ⟨y1, y2, y3, y4, rfl, hy1, hy2, hy3, hy4⟩ := digits_four _ ha
  obtain ⟨m1, m2, rfl, hm1, hm2⟩ := digits_two _ hb
  obtain ⟨d1, d2, rfl, hd1, hd2⟩ := digits_two _ hc
  simp only [MatchString, FindStringSubmatch]
  rw [hs]
  apply findFrom_isSome_append
  simp [matchRe, re8x, cat, digits, rep, lit, hy1, hy2, hy3, hy4, hm1, hm2, hd1, hd2]

/-- Rule 1: the case parses the captured fields. -/
theorem case1_eq (filename : List Char) (h : MatchString re1 filename = true) :
    ∃ ns, case1 filename = assign (parseResult (decimal (captured 1 filename).year : Nat)
        (decimal (captured 1 filename).month) (decimal (captured 1 filename).day)
        (decimal (captured 1 filename).hour) (decimal (captured 1 filename).minute)
        (decimal (captured 1 filename).second) ns) ∧
      (captured 1 filename).WellFormed := by
  simp only [MatchString, Option.isSome_iff_exists] at h
  obtain ⟨ms, hms⟩ := h
  obtain ⟨pre, rest, a, b, c, d, e, f, sep, -, rfl, ha, hb, hc, hd, he, hf⟩ := re1_shape _ _ hms
  obtain ⟨y1, y2, y3, y4, rfl, hy1, hy2, hy3, hy4⟩ := digits_four _ ha
  obtain ⟨m1, m2, rfl, hm1, hm2⟩ := digits_two _ hb
  obtain ⟨d1, d2, rfl, hd1, hd2⟩ := digits_two _ hc
  obtain ⟨h1, h2, rfl, hh1, hh2⟩ := digits_two _ hd
  obtain ⟨n1, n2, rfl, hn1, hn2⟩ := digits_two _ he
  obtain ⟨s1, s2, rfl, hs1, hs2⟩ := digits_two _ hf
  have hcap : captured 1 filename =
      ⟨[y1, y2, y3, y4], [m1, m2], [d1, d2], [h1, h2], [n1, n2], [s1, s2]⟩ := by
    simp [captured, extraction, submatches, hms, fieldsOf]
  rw [hcap]
  refine ⟨0, ?_, Digits.four _ _ _ _ hy1 hy2 hy3 hy4, Digits.two _ _ hm1 hm2,
    Digits.two _ _ hd1 hd2, Digits.two _ _ hh1 hh2, Digits.two _ _ hn1 hn2,
    Digits.two _ _ hs1 hs2⟩
  simp [case1, submatches, hms]
  exact congrArg assign (Parse_layoutDashes y1 y2 y3 y4 m1 m2 d1 d2 h1 h2 n1 n2 s1 s2
    hy1 hy2 hy3 hy4 hm1 hm2 hd1 hd2 hh1 hh2
    hn1 hn2 hs1 hs2)

/-- Rule 2: the case parses the captured fields. -/
theorem case2_eq (filename : List Char) (h : MatchString re2 filename = true) :
    ∃ ns, case2 filename = assign (parseResult (decimal (captured 2 filename).year : Nat)
        (decimal (captured 2 filename).month) (decimal (captured 2 filename).day)
        (decimal (captured 2 filename).hour) (decimal (captured 2 filename).minute)
        (decimal (captured 2 filename).second) ns) ∧
      (captured 2 filename).WellFormed := by
  simp only [MatchString, Option.isSome_iff_exists] at h
  obtain ⟨ms, hms⟩ := h
  obtain ⟨pre, rest, a, b, c, d, e, f, sep, -, rfl, ha, hb, hc, hd, he, hf⟩ := re2_shape _ _ hms
  obtain ⟨y1, y2, y3, y4, rfl, hy1, hy2, hy3, hy4⟩ := digits_four _ ha
  obtain ⟨m1, m2, rfl, hm1, hm2⟩ := digits_two _ hb
  obtain ⟨d1, d2, rfl, hd1, hd2⟩ := digits_two _ hc
  obtain ⟨h1, h2, rfl, hh1, hh2⟩ := digits_two _ hd
  obtain ⟨n1, n2, rfl, hn1, hn2⟩ := digits_two _ he
  obtain ⟨s1, s2, rfl, hs1, hs2⟩ := digits_two _ hf
  have hcap : captured 2 filename =
      ⟨[y1, y2, y3, y4], [m1, m2], [d1, d2], [h1, h2], [n1, n2], [s1, s2]⟩ := by
    simp [captured, extraction, submatches, hms, fieldsOf]
  rw [hcap]
  refine ⟨0, ?_, Digits.four _ _ _ _ hy1 hy2 hy3 hy4, Digits.two _ _ hm1 hm2,
    Digits.two _ _ hd1 hd2, Digits.two _ _ hh1 hh2, Digits.two _ _ hn1 hn2,
    Digits.two _ _ hs1 hs2⟩
  simp [case2, submatches, hms]
  exact congrArg assign (Parse_layoutCompactUnder y1 y2 y3 y4 m1 m2 d1 d2 h1 h2 n1 n2 s1 s2
    hy1 hy2 hy3 hy4 hm1 hm2 hd1 hd2 hh1 hh2
    hn1 hn2 hs1 hs2)

/-- Rule 3: the case parses the captured fields. -/
theorem case3_eq (filename : List Char) (h : MatchString re3 filename = true) :
    ∃ ns, case3 filename = assign (parseResult (decimal (captured 3 filename).year : Nat)
        (decimal (captured 3 filename).month) (decimal (captured 3 filename).day)
        (decimal (captured 3 filename).hour) (decimal (captured 3 filename).minute)
        (decimal (captured 3 filename).second) ns) ∧
      (captured 3 filename).WellFormed := by
  simp only [MatchString, Option.isSome_iff_exists] at h
  obtain ⟨ms, hms⟩ := h
  obtain ⟨pre, rest, a, b, c, d, e, f, sep, -, rfl, ha, hb, hc, hd, he, hf⟩ := re3_shape _ _ hms
  obtain ⟨y1, y2, y3, y4, rfl, hy1, hy2, hy3, hy4⟩ := digits_four _ ha
  obtain ⟨m1, m2, rfl, hm1, hm2⟩ := digits_two _ hb
  obtain ⟨d1, d2, rfl, hd1, hd2⟩ := digits_two _ hc
  obtain ⟨h1, h2, rfl, hh1, hh2⟩ := digits_two _ hd
  obtain ⟨n1, n2, rfl, hn1, hn2⟩ := digits_two _ he
  obtain ⟨s1, s2, rfl, hs1, hs2⟩ := digits_two _ hf
  have hcap : captured 3 filename =
      ⟨[y1, y2, y3, y4], [m1, m2], [d1, d2], [h1, h2], [n1, n2], [s1, s2]⟩ := by
    simp [captured, extraction, submatches, hms, fieldsOf]
  rw [hcap]
  refine ⟨0, ?_, Digits.four _ _ _ _ hy1 hy2 hy3 hy4, Digits.two _ _ hm1 hm2,
    Digits.two _ _ hd1 hd2, Digits.two _ _ hh1 hh2, Digits.two _ _ hn1 hn2,
    Digits.two _ _ hs1 hs2⟩
  simp [case3, submatches, hms]
  exact congrArg assign (Parse_layoutDots y1 y2 y3 y4 m1 m2 d1 d2 h1 h2 n1 n2 s1 s2
    hy1 hy2 hy3 hy4 hm1 hm2 hd1 hd2 hh1 hh2
    hn1 hn2 hs1 hs2)

/-- Rule 4: the case parses the captured fields. -/
theorem case4_eq (filename : List Char) (h : MatchString re4 filename = true) :
    ∃ ns, case4 filename = assign (parseResult (decimal (captured 4 filename).year : Nat)
        (decimal (captured 4 filename).month) (decimal (captured 4 filename).day)
        (decimal (captured 4 filename).hour) (decimal (captured 4 filename).minute)
        (decimal (captured 4 filename).second) ns) ∧
      (captured 4 filename).WellFormed := by
  simp only [MatchString, Option.isSome_iff_exists] at h
  obtain ⟨ms, hms⟩ := h
  obtain ⟨pre, rest, a, b, c, d, e, f, sep, -, rfl, ha, hb, hc, hd, he, hf⟩ := re4_shape _ _ hms
  obtain ⟨y1, y2, y3, y4, rfl, hy1, hy2, hy3, hy4⟩ := digits_four _ ha
  obtain ⟨m1, m2, rfl, hm1, hm2⟩ := digits_two _ hb
  obtain ⟨d1, d2, rfl, hd1, hd2⟩ := digits_two _ hc
  obtain ⟨h1, h2, rfl, hh1, hh2⟩ := digits_two _ hd
  obtain ⟨n1, n2, rfl, hn1, hn2⟩ := digits_two _ he
  obtain ⟨s1, s2, rfl, hs1, hs2⟩ := digits_two _ hf
  have hcap : captured 4 filename =
      ⟨[y1, y2, y3, y4], [m1, m2], [d1, d2], [h1, h2], [n1, n2], [s1, s2]⟩ := by
    simp [captured, extraction, submatches, hms, fieldsOf]
  rw [hcap]
  refine ⟨0, ?_, Digits.four _ _ _ _ hy1 hy2 hy3 hy4, Digits.two _ _ hm1 hm2,
    Digits.two _ _ hd1 hd2, Digits.two _ _ hh1 hh2, Digits.two _ _ hn1 hn2,
    Digits.two _ _ hs1 hs2⟩
  simp [case4, submatches, hms]
  exact congrArg assign (Parse_layoutCompactDash y1 y2 y3 y4 m1 m2 d1 d2 h1 h2 n1 n2 s1 s2
    hy1 hy2 hy3 hy4 hm1 hm2 hd1 hd2 hh1 hh2
    hn1 hn2 hs1 hs2)

/-- Rule 5: the case parses the captured fields. -/
theorem case5_eq (filename : List Char) (h : MatchString re5 filename = true) :
    ∃ ns, case5 filename = assign (parseResult (decimal (captured 5 filename).year : Nat)
        (decimal (captured 5 filename).month) (decimal (captured 5 filename).day)
        (decimal (captured 5 filename).hour) (decimal (captured 5 filename).minute)
        (decimal (captured 5 filename).second) ns) ∧
      (captured 5 filename).WellFormed := by
  simp only [MatchString, Option.isSome_iff_exists] at h
  obtain ⟨ms, hms⟩ := h
  obtain ⟨pre, rest, a, b, c, t, -, rfl, ha, hb, hc⟩ := re5_shape _ _ hms
  obtain ⟨y1, y2, y3, y4, rfl, hy1, hy2, hy3, hy4⟩ := digits_four _ ha
  obtain ⟨m1, m2, rfl, hm1, hm2⟩ := digits_two _ hb
  obtain ⟨d1, d2, rfl, hd1, hd2⟩ := digits_two _ hc
  have hcap : captured 5 filename =
      ⟨[y1, y2, y3, y4], [m1, m2], [d1, d2], ['0', '0'], ['0', '0'], ['0', '0']⟩ := by
    simp [captured, extraction, submatches, hms, fieldsOf]
  rw [hcap]
  refine ⟨0, ?_, Digits.four _ _ _ _ hy1 hy2 hy3 hy4, Digits.two _ _ hm1 hm2,
    Digits.two _ _ hd1 hd2, Digits.two _ _ rfl rfl, Digits.two _ _ rfl rfl,
    Digits.two _ _ rfl rfl⟩
  have hT : "T00:00:00Z".toList = ['T', '0', '0', ':', '0', '0', ':', '0', '0', 'Z'] := rfl
  simp [case5, submatches, hms, hT]
  exact congrArg assign (Parse_layoutISO y1 y2 y3 y4 m1 m2 d1 d2 '0' '0' '0' '0' '0' '0'
    hy1 hy2 hy3 hy4 hm1 hm2 hd1 hd2 rfl rfl
    rfl rfl rfl rfl)

/-- Rule 6: the case parses the captured fields. -/
theorem case6_eq (filename : List Char) (h : MatchString re6 filename = true) :
    ∃ ns, case6 filename = assign (parseResult (decimal (captured 6 filename).year : Nat)
        (decimal (captured 6 filename).month) (decimal (captured 6 filename).day)
        (decimal (captured 6 filename).hour) (decimal (captured 6 filename).minute)
        (decimal (captured 6 filename).second) ns) ∧
      (captured 6 filename).WellFormed := by
  simp only [MatchString, Option.isSome_iff_exists] at h
  obtain ⟨ms, hms⟩ := h
  obtain ⟨pre, rest, a, b, c, d, e, -, rfl, ha, hb, hc, hd, he⟩ := re6_shape _ _ hms
  obtain ⟨y1, y2, y3, y4, rfl, hy1, hy2, hy3, hy4⟩ := digits_four _ ha
  obtain ⟨m1, m2, rfl, hm1, hm2⟩ := digits_two _ hb
  obtain ⟨d1, d2, rfl, hd1, hd2⟩ := digits_two _ hc
  obtain ⟨h1, h2, rfl, hh1, hh2⟩ := digits_two _ hd
  obtain ⟨n1, n2, rfl, hn1, hn2⟩ := digits_two _ he
  have hcap : captured 6 filename =
      ⟨[y1, y2, y3, y4], [m1, m2], [d1, d2], [h1, h2], [n1, n2], ['0', '0']⟩ := by
    simp [captured, extraction, submatches, hms, fieldsOf]
  rw [hcap]
  refine ⟨0, ?_, Digits.four _ _ _ _ hy1 hy2 hy3 hy4, Digits.two _ _ hm1 hm2,
    Digits.two _ _ hd1 hd2, Digits.two _ _ hh1 hh2, Digits.two _ _ hn1 hn2,
    Digits.two _ _ rfl rfl⟩
  have hS : ":00Z".toList = [':', '0', '0', 'Z'] := rfl
  simp [case6, submatches, hms, hS]
  exact congrArg assign (Parse_layoutISO y1 y2 y3 y4 m1 m2 d1 d2 h1 h2 n1 n2 '0' '0'
    hy1 hy2 hy3 hy4 hm1 hm2 hd1 hd2 hh1 hh2
    hn1 hn2 rfl rfl)

/-- Rule 7: the case parses the captured fields. -/
theorem case7_eq (filename : List Char) (h : MatchString re7 filename = true) :
    ∃ ns, case7 filename = assign (parseResult (decimal (captured 7 filename).year : Nat)
        (decimal (captured 7 filename).month) (decimal (captured 7 filename).day)
        (decimal (captured 7 filename).hour) (decimal (captured 7 filename).minute)
        (decimal (captured 7 filename).second) ns) ∧
      (captured 7 filename).WellFormed := by
  simp only [MatchString, Option.isSome_iff_exists] at h
  obtain ⟨ms, hms⟩ := h
  obtain ⟨pre, rest, a, b, c, d, e, f, t, -, rfl, ha, hb, hc, hd, he, hf⟩ := re7_shape _ _ hms
  obtain ⟨y1, y2, y3, y4, rfl, hy1, hy2, hy3, hy4⟩ := digits_four _ ha
  obtain ⟨m1, m2, rfl, hm1, hm2⟩ := digits_two _ hb
  obtain ⟨d1, d2, rfl, hd1, hd2⟩ := digits_two _ hc
  obtain ⟨h1, h2, rfl, hh1, hh2⟩ := digits_two _ hd
  obtain ⟨n1, n2, rfl, hn1, hn2⟩ := digits_two _ he
  obtain ⟨s1, s2, rfl, hs1, hs2⟩ := digits_two _ hf
  have hcap : captured 7 filename =
      ⟨[y1, y2, y3, y4], [m1, m2], [d1, d2], [h1, h2], [n1, n2], [s1, s2]⟩ := by
    simp [captured, extraction, submatches, hms, fieldsOf]
  rw [hcap]
  refine ⟨0, ?_, Digits.four _ _ _ _ hy1 hy2 hy3 hy4, Digits.two _ _ hm1 hm2,
    Digits.two _ _ hd1 hd2, Digits.two _ _ hh1 hh2, Digits.two _ _ hn1 hn2,
    Digits.two _ _ hs1 hs2⟩
  simp [case7, submatches, hms]
  exact congrArg assign (Parse_layoutISO y1 y2 y3 y4 m1 m2 d1 d2 h1 h2 n1 n2 s1 s2
    hy1 hy2 hy3 hy4 hm1 hm2 hd1 hd2 hh1 hh2
    hn1 hn2 hs1 hs2)

/-- Rule 8: the case parses the captured fields. -/
theorem case8_eq (filename : List Char) (h : MatchString re8 filename = true) :
    ∃ ns, case8 filename = assign (parseResult (decimal (captured 8 filename).year : Nat)
        (decimal (captured 8 filename).month) (decimal (captured 8 filename).day)
        (decimal (captured 8 filename).hour) (decimal (captured 8 filename).minute)
        (decimal (captured 8 filename).second) ns) ∧
      (captured 8 filename).WellFormed := by
  have h := re8x_of_re8 filename h
  simp only [MatchString, Option.isSome_iff_exists] at h
  obtain ⟨ms, hms⟩ := h
  obtain ⟨pre, rest, a, b, c, -, rfl, ha, hb, hc⟩ := re8x_shape _ _ hms
  obtain ⟨y1, y2, y3, y4, rfl, hy1, hy2, hy3, hy4⟩ := digits_four _ ha
  obtain ⟨m1, m2, rfl, hm1, hm2⟩ := digits_two _ hb
  obtain ⟨d1, d2, rfl, hd1, hd2⟩ := digits_two _ hc
  have hcap : captured 8 filename =
      ⟨[y1, y2, y3, y4], [m1, m2], [d1, d2], ['0', '0'], ['0', '0'], ['0', '0']⟩ := by
    simp [captured, extraction, submatches, hms, fieldsOf]
  rw [hcap]
  refine ⟨0, ?_, Digits.four _ _ _ _ hy1 hy2 hy3 hy4, Digits.two _ _ hm1 hm2,
    Digits.two _ _ hd1 hd2, Digits.two _ _ rfl rfl, Digits.two _ _ rfl rfl,
    Digits.two _ _ rfl rfl⟩
  simp [case8, submatches, hms]
  have hz : decimal ['0', '0'] = 0 := rfl
  rw [hz]
  exact congrArg assign (Parse_layoutDate _ _ _ _ _ _ _ _ hy1 hy2 hy3 hy4 hm1 hm2 hd1 hd2)

/-- Rule 10: the case parses the captured fields. -/
theorem case10_eq (filename : List Char) (h : MatchString re10 filename = true) :
    ∃ ns, case10 filename = assign (parseResult (decimal (captured 10 filename).year : Nat)
        (decimal (captured 10 filename).month) (decimal (captured 10 filename).day)
        (decimal (captured 10 filename).hour) (decimal (captured 10 filename).minute)
        (decimal (captured 10 filename).second) ns) ∧
      (captured 10 filename).WellFormed := by
  simp only [MatchString, Option.isSome_iff_exists] at h
  obtain ⟨ms, hms⟩ := h
  obtain ⟨pre, rest, a, b, -, rfl, ha, hb⟩ := re10_shape _ _ hms
  obtain ⟨y1, y2, y3, y4, m1, m2, d1, d2, rfl, hy1, hy2, hy3, hy4, hm1, hm2, hd1, hd2⟩ :=
    digits_eight _ ha
  obtain ⟨h1, h2, n1, n2, s1, s2, rfl, hh1, hh2, hn1, hn2, hs1, hs2⟩ := digits_six _ hb
  have hcap : captured 10 filename =
      ⟨[y1, y2, y3, y4], [m1, m2], [d1, d2], [h1, h2], [n1, n2], [s1, s2]⟩ := by
    simp [captured, extraction, submatches, hms, fieldsOf]
  rw [hcap]
  refine ⟨0, ?_, Digits.four _ _ _ _ hy1 hy2 hy3 hy4, Digits.two _ _ hm1 hm2,
    Digits.two _ _ hd1 hd2, Digits.two _ _ hh1 hh2, Digits.two _ _ hn1 hn2,
    Digits.two _ _ hs1 hs2⟩
  simp [case10, submatches, hms]
  exact congrArg assign (Parse_layoutCompactT y1 y2 y3 y4 m1 m2 d1 d2 h1 h2 n1 n2 s1 s2
    hy1 hy2 hy3 hy4 hm1 hm2 hd1 hd2 hh1 hh2
    hn1 hn2 hs1 hs2)

/-- Rule 11: the case parses the captured fields. -/
theorem case11_eq (filename : List Char) (h : MatchString re11 filename = true) :
    ∃ ns, case11 filename = assign (parseResult (decimal (captured 11 filename).year : Nat)
        (decimal (captured 11 filename).month) (decimal (captured 11 filename).day)
        (decimal (captured 11 filename).hour) (decimal (captured 11 filename).minute)
        (decimal (captured 11 filename).second) ns) ∧
      (captured 11 filename).WellFormed := by
  simp only [MatchString, Option.isSome_iff_exists] at h
  obtain ⟨ms, hms⟩ := h
  obtain ⟨pre, rest, a, b, t, -, rfl, ha, hb⟩ := re11_shape _ _ hms
  obtain ⟨y1, y2, y3, y4, m1, m2, d1, d2, rfl, hy1, hy2, hy3, hy4, hm1, hm2, hd1, hd2⟩ :=
    digits_eight _ ha
  obtain ⟨h1, h2, n1, n2, s1, s2, rfl, hh1, hh2, hn1, hn2, hs1, hs2⟩ := digits_six _ hb
  have hcap : captured 11 filename =
      ⟨[y1, y2, y3, y4], [m1, m2], [d1, d2], [h1, h2], [n1, n2], [s1, s2]⟩ := by
    simp [captured, extraction, submatches, hms, fieldsOf]
  rw [hcap]
  refine ⟨0, ?_, Digits.four _ _ _ _ hy1 hy2 hy3 hy4, Digits.two _ _ hm1 hm2,
    Digits.two _ _ hd1 hd2, Digits.two _ _ hh1 hh2, Digits.two _ _ hn1 hn2,
    Digits.two _ _ hs1 hs2⟩
  simp [case11, submatches, hms]
  exact congrArg assign (Parse_layoutCompactT y1 y2 y3 y4 m1 m2 d1 d2 h1 h2 n1 n2 s1 s2
    hy1 hy2 hy3 hy4 hm1 hm2 hd1 hd2 hh1 hh2
    hn1 hn2 hs1 hs2)

/-- Rule 12: the case parses the captured fields. -/
theorem case12_eq (filename : List Char) (h : MatchString re12 filename = true) :
    ∃ ns, case12 filename = assign (parseResult (decimal (captured 12 filename).year : Nat)
        (decimal (captured 12 filename).month) (decimal (captured 12 filename).day)
        (decimal (captured 12 filename).hour) (decimal (captured 12 filename).minute)
        (decimal (captured 12 filename).second) ns) ∧
      (captured 12 filename).WellFormed := by
  simp only [MatchString, Option.isSome_iff_exists] at h
  obtain ⟨ms, hms⟩ := h
  obtain ⟨pre, rest, a, b, c, t, -, rfl, ha, hb, hc⟩ := re12_shape _ _ hms
  obtain ⟨y1, y2, y3, y4, rfl, hy1, hy2, hy3, hy4⟩ := digits_four _ ha
  obtain ⟨m1, m2, rfl, hm1, hm2⟩ := digits_two _ hb
  obtain ⟨d1, d2, rfl, hd1, hd2⟩ := digits_two _ hc
  have hcap : captured 12 filename =
      ⟨[y1, y2, y3, y4], [m1, m2], [d1, d2], ['0', '0'], ['0', '0'], ['0', '0']⟩ := by
    simp [captured, extraction, submatches, hms, fieldsOf]
  rw [hcap]
  refine ⟨0, ?_, Digits.four _ _ _ _ hy1 hy2 hy3 hy4, Digits.two _ _ hm1 hm2,
    Digits.two _ _ hd1 hd2, Digits.two _ _ rfl rfl, Digits.two _ _ rfl rfl,
    Digits.two _ _ rfl rfl⟩
  have hT : "T00:00:00Z".toList = ['T', '0', '0', ':', '0', '0', ':', '0', '0', 'Z'] := rfl
  simp [case12, submatches, hms, hT]
  exact congrArg assign (Parse_layoutISO y1 y2 y3 y4 m1 m2 d1 d2 '0' '0' '0' '0' '0' '0'
    hy1 hy2 hy3 hy4 hm1 hm2 hd1 hd2 rfl rfl
    rfl rfl rfl rfl)

/-- Rule 13: the case parses the captured fields. -/
theorem case13_eq (filename : List Char) (h : MatchString re13 filename = true) :
    ∃ ns, case13 filename = assign (parseResult (decimal (captured 13 filename).year : Nat)
        (decimal (captured 13 filename).month) (decimal (captured 13 filename).day)
        (decimal (captured 13 filename).hour) (decimal (captured 13 filename).minute)
        (decimal (captured 13 filename).second) ns) ∧
      (captured 13 filename).WellFormed := by
  simp only [MatchString, Option.isSome_iff_exists] at h
  obtain ⟨ms, hms⟩ := h
  obtain ⟨pre, rest, a, b, c, d, e, f, g, -, rfl, ha, hb, hc, hd, he, hf, hg⟩ := re13_shape _ _ hms
  obtain ⟨y1, y2, y3, y4, rfl, hy1, hy2, hy3, hy4⟩ := digits_four _ ha
  obtain ⟨m1, m2, rfl, hm1, hm2⟩ := digits_two _ hb
  obtain ⟨d1, d2, rfl, hd1, hd2⟩ := digits_two _ hc
  obtain ⟨h1, h2, rfl, hh1, hh2⟩ := digits_two _ hd
  obtain ⟨n1, n2, rfl, hn1, hn2⟩ := digits_two _ he
  obtain ⟨s1, s2, rfl, hs1, hs2⟩ := digits_two _ hf
  obtain ⟨g1, g2, g3, rfl, hg1, hg2, hg3⟩ := digits_three _ hg
  have hcap : captured 13 filename =
      ⟨[y1, y2, y3, y4], [m1, m2], [d1, d2], [h1, h2], [n1, n2], [s1, s2]⟩ := by
    simp [captured, extraction, submatches, hms, fieldsOf]
  rw [hcap]
  refine ⟨((decimal [g1, g2, g3] : Nat) : Int) * 1000000, ?_, Digits.four _ _ _ _ hy1 hy2 hy3 hy4, Digits.two _ _ hm1 hm2,
    Digits.two _ _ hd1 hd2, Digits.two _ _ hh1 hh2, Digits.two _ _ hn1 hn2,
    Digits.two _ _ hs1 hs2⟩
  simp [case13, submatches, hms]
  exact congrArg assign (Parse_layoutMillis _ _ _ _ _ _ _ _ _ _ _ _ _ _ hy1 hy2 hy3 hy4 hm1 hm2 hd1 hd2
    hh1 hh2 hn1 hn2 hs1 hs2 _ _ _ hg1 hg2 hg3)

/-! ## The outcome by first matching rule -/

/-- The outcome of a call whose first matching rule is not the epoch rule 9: the captured
fields, which are digit strings of the right widths, are returned as they stand when they form
a valid date and time; otherwise the call fails with the invalid-date error. -/
theorem extract_of_firstRule (tz : Zone) (filename : List Char) (k : Nat)
    (hk : firstRule filename = some k) (h9 : k ≠ 9) :
    (captured k filename).WellFormed ∧
    extractDateFromFilename tz filename =
      if (captured k filename).valid = true then .ok (captured k filename).render
      else .error ("invalid date in filename: ".toList ++ filename) := by
  simp only [firstRule, firstIdx, ruleTable] at hk
  simp only [extractDateFromFilename, switchCases]
  by_cases h1 : MatchString re1 filename = true
  · simp only [h1, if_true, Option.some.injEq, Nat.reduceAdd] at hk ⊢
    subst hk
    obtain ⟨ns, hc, hw⟩ := case1_eq filename h1
    rw [hc]
    exact ⟨hw, finish_parseResult tz filename _ ns hw⟩
  simp only [h1, Bool.false_eq_true, if_false] at hk ⊢
  by_cases h2 : MatchString re2 filename = true
  · simp only [h2, if_true, Option.some.injEq, Nat.reduceAdd] at hk ⊢
    subst hk
    obtain ⟨ns, hc, hw⟩ := case2_eq filename h2
    rw [hc]
    exact ⟨hw, finish_parseResult tz filename _ ns hw⟩
  simp only [h2, Bool.false_eq_true, if_false] at hk ⊢
  by_cases h3 : MatchString re3 filename = true
  · simp only [h3, if_true, Option.some.injEq, Nat.reduceAdd] at hk ⊢
    subst hk
    obtain ⟨ns, hc, hw⟩ := case3_eq filename h3
    rw [hc]
    exact ⟨hw, finish_parseResult tz filename _ ns hw⟩
  simp only [h3, Bool.false_eq_true, if_false] at hk ⊢
  by_cases h4 : MatchString re4 filename = true
  · simp only [h4, if_true, Option.some.injEq, Nat.reduceAdd] at hk ⊢
    subst hk
    obtain ⟨ns, hc, hw⟩ := case4_eq filename h4
    rw [hc]
    exact ⟨hw, finish_parseResult tz filename _ ns hw⟩
  simp only [h4, Bool.false_eq_true, if_false] at hk ⊢
  by_cases h5 : MatchString re5 filename = true
  · simp only [h5, if_true, Option.some.injEq, Nat.reduceAdd] at hk ⊢
    subst hk
    obtain ⟨ns, hc, hw⟩ := case5_eq filename h5
    rw [hc]
    exact ⟨hw, finish_parseResult tz filename _ ns hw⟩
  simp only [h5, Bool.false_eq_true, if_false] at hk ⊢
  by_cases h6 : MatchString re6 filename = true
  · simp only [h6, if_true, Option.some.injEq, Nat.reduceAdd] at hk ⊢
    subst hk
    obtain ⟨ns, hc, hw⟩ := case6_eq filename h6
    rw [hc]
    exact ⟨hw, finish_parseResult tz filename _ ns hw⟩
  simp only [h6, Bool.false_eq_true, if_false] at hk ⊢
  by_cases h7 : MatchString re7 filename = true
  · simp only [h7, if_true, Option.some.injEq, Nat.reduceAdd] at hk ⊢
    subst hk
    obtain ⟨ns, hc, hw⟩ := case7_eq filename h7
    rw [hc]
    exact ⟨hw, finish_parseResult tz filename _ ns hw⟩
  simp only [h7, Bool.false_eq_true, if_false] at hk ⊢
  by_cases h8 : MatchString re8 filename = true
  · simp only [h8, if_true, Option.some.injEq, Nat.reduceAdd] at hk ⊢
    subst hk
    obtain ⟨ns, hc, hw⟩ := case8_eq filename h8
    rw [hc]
    exact ⟨hw, finish_parseResult tz filename _ ns hw⟩
  simp only [h8, Bool.false_eq_true, if_false] at hk ⊢
  by_cases h9 : MatchString re9 filename = true
  · simp only [h9, if_true, Option.some.injEq, Nat.reduceAdd] at hk ⊢
    omega
  simp only [h9, Bool.false_eq_true, if_false] at hk ⊢
  by_cases h10 : MatchString re10 filename = true
  · simp only [h10, if_true, Option.some.injEq, Nat.reduceAdd] at hk ⊢
    subst hk
    obtain ⟨ns, hc, hw⟩ := case10_eq filename h10
    rw [hc]
    exact ⟨hw, finish_parseResult tz filename _ ns hw⟩
  simp only [h10, Bool.false_eq_true, if_false] at hk ⊢
  by_cases h11 : MatchString re11 filename = true
  · simp only [h11, if_true, Option.some.injEq, Nat.reduceAdd] at hk ⊢
    subst hk
    obtain ⟨ns, hc, hw⟩ := case11_eq filename h11
    rw [hc]
    exact ⟨hw, finish_parseResult tz filename _ ns hw⟩
  simp only [h11, Bool.false_eq_true, if_false] at hk ⊢
  by_cases h12 : MatchString re12 filename = true
  · simp only [h12, if_true, Option.some.injEq, Nat.reduceAdd] at hk ⊢
    subst hk
    obtain ⟨ns, hc, hw⟩ := case12_eq filename h12
    rw [hc]
    exact ⟨hw, finish_parseResult tz filename _ ns hw⟩
  simp only [h12, Bool.false_eq_true, if_false] at hk ⊢
  by_cases h13 : MatchString re13 filename = true
  · simp only [h13, if_true, Option.some.injEq, Nat.reduceAdd] at hk ⊢
    subst hk
    obtain ⟨ns, hc, hw⟩ := case13_eq filename h13
    rw [hc]
    exact ⟨hw, finish_parseResult tz filename _ ns hw⟩
  simp only [h13, Bool.false_eq_true, if_false] at hk ⊢
  cases hk

/-- The call when the epoch rule 9 is the first matching rule. -/
theorem extract_of_firstRule_nine (tz : Zone) (filename : List Char)
    (hk : firstRule filename = some 9) :
    MatchString re9 filename = true ∧
    extractDateFromFilename tz filename = finish tz filename (case9 tz filename) := by
  simp only [firstRule, firstIdx, ruleTable] at hk
  simp only [extractDateFromFilename, switchCases]
  by_cases h1 : MatchString re1 filename = true
  · simp only [h1, if_true, Option.some.injEq, Nat.reduceAdd] at hk ⊢
    omega
  simp only [h1, Bool.false_eq_true, if_false] at hk ⊢
  by_cases h2 : MatchString re2 filename = true
  · simp only [h2, if_true, Option.some.injEq, Nat.reduceAdd] at hk ⊢
    omega
  simp only [h2, Bool.false_eq_true, if_false] at hk ⊢
  by_cases h3 : MatchString re3 filename = true
  · simp only [h3, if_true, Option.some.injEq, Nat.reduceAdd] at hk ⊢
    omega
  simp only [h3, Bool.false_eq_true, if_false] at hk ⊢
  by_cases h4 : MatchString re4 filename = true
  · simp only [h4, if_true, Option.some.injEq, Nat.reduceAdd] at hk ⊢
    omega
  simp only [h4, Bool.false_eq_true, if_false] at hk ⊢
  by_cases h5 : MatchString re5 filename = true
  · simp only [h5, if_true, Option.some.injEq, Nat.reduceAdd] at hk ⊢
    omega
  simp only [h5, Bool.false_eq_true, if_false] at hk ⊢
  by_cases h6 : MatchString re6 filename = true
  · simp only [h6, if_true, Option.some.injEq, Nat.reduceAdd] at hk ⊢
    omega
  simp only [h6, Bool.false_eq_true, if_false] at hk ⊢
  by_cases h7 : MatchString re7 filename = true
  · simp only [h7, if_true, Option.some.injEq, Nat.reduceAdd] at hk ⊢
    omega
  simp only [h7, Bool.false_eq_true, if_false] at hk ⊢
  by_cases h8 : MatchString re8 filename = true
  · simp only [h8, if_true, Option.some.injEq, Nat.reduceAdd] at hk ⊢
    omega
  simp only [h8, Bool.false_eq_true, if_false] at hk ⊢
  by_cases h9 : MatchString re9 filename = true
  · simp only [h9, if_true, Option.some.injEq, Nat.reduceAdd] at hk ⊢
    trivial
  simp only [h9, Bool.false_eq_true, if_false] at hk ⊢
  by_cases h10 : MatchString re10 filename = true
  · simp only [h10, if_true, Option.some.injEq, Nat.reduceAdd] at hk ⊢
    omega
  simp only [h10, Bool.false_eq_true, if_false] at hk ⊢
  by_cases h11 : MatchString re11 filename = true
  · simp only [h11, if_true, Option.some.injEq, Nat.reduceAdd] at hk ⊢
    omega
  simp only [h11, Bool.false_eq_true, if_false] at hk ⊢
  by_cases h12 : MatchString re12 filename = true
  · simp only [h12, if_true, Option.some.injEq, Nat.reduceAdd] at hk ⊢
    omega
  simp only [h12, Bool.false_eq_true, if_false] at hk ⊢
  by_cases h13 : MatchString re13 filename = true
  · simp only [h13, if_true, Option.some.injEq, Nat.reduceAdd] at hk ⊢
    omega
  simp only [h13, Bool.false_eq_true, if_false] at hk ⊢
  cases hk

/-- The call when no rule matches. -/
theorem extract_of_firstRule_none (tz : Zone) (filename : List Char)
    (hk : firstRule filename = none) :
    extractDateFromFilename tz filename =
      .error ("no valid date found in filename: ".toList ++ filename) := by
  simp only [firstRule, firstIdx, ruleTable] at hk
  simp only [extractDateFromFilename, switchCases]
  by_cases h1 : MatchString re1 filename = true
  · simp only [h1, if_true] at hk
    cases hk
  simp only [h1, Bool.false_eq_true, if_false] at hk ⊢
  by_cases h2 : MatchString re2 filename = true
  · simp only [h2, if_true] at hk
    cases hk
  simp only [h2, Bool.false_eq_true, if_false] at hk ⊢
  by_cases h3 : MatchString re3 filename = true
  · simp only [h3, if_true] at hk
    cases hk
  simp only [h3, Bool.false_eq_true, if_false] at hk ⊢
  by_cases h4 : MatchString re4 filename = true
  · simp only [h4, if_true] at hk
    cases hk
  simp only [h4, Bool.false_eq_true, if_false] at hk ⊢
  by_cases h5 : MatchString re5 filename = true
  · simp only [h5, if_true] at hk
    cases hk
  simp only [h5, Bool.false_eq_true, if_false] at hk ⊢
  by_cases h6 : MatchString re6 filename = true
  · simp only [h6, if_true] at hk
    cases hk
  simp only [h6, Bool.false_eq_true, if_false] at hk ⊢
  by_cases h7 : MatchString re7 filename = true
  · simp only [h7, if_true] at hk
    cases hk
  simp only [h7, Bool.false_eq_true, if_false] at hk ⊢
  by_cases h8 : MatchString re8 filename = true
  · simp only [h8, if_true] at hk
    cases hk
  simp only [h8, Bool.false_eq_true, if_false] at hk ⊢
  by_cases h9 : MatchString re9 filename = true
  · simp only [h9, if_true] at hk
    cases hk
  simp only [h9, Bool.false_eq_true, if_false] at hk ⊢
  by_cases h10 : MatchString re10 filename = true
  · simp only [h10, if_true] at hk
    cases hk
  simp only [h10, Bool.false_eq_true, if_false] at hk ⊢
  by_cases h11 : MatchString re11 filename = true
  · simp only [h11, if_true] at hk
    cases hk
  simp only [h11, Bool.false_eq_true, if_false] at hk ⊢
  by_cases h12 : MatchString re12 filename = true
  · simp only [h12, if_true] at hk
    cases hk
  simp only [h12, Bool.false_eq_true, if_false] at hk ⊢
  by_cases h13 : MatchString re13 filename = true
  · simp only [h13, if_true] at hk
    cases hk
  simp only [h13, Bool.false_eq_true, if_false] at hk ⊢
  rfl

/-! ## The calendar, from days to dates -/

/-- The split of a day of an era is the inverse of putting year and day together. -/
theorem splitEra_spec (doe : Int) (h : 0 ≤ doe ∧ doe < 146097) :
    doe = (splitEra doe).1 * 365 + (splitEra doe).1 / 4 - (splitEra doe).1 / 100 +
        (splitEra doe).2 ∧
      ((splitEra doe).2 = 365 → ((splitEra doe).1 + 1) % 4 = 0 ∧
        (((splitEra doe).1 + 1) % 100 ≠ 0 ∨ ((splitEra doe).1 + 1) % 400 = 0)) := by
  obtain ⟨a, ha⟩ : ∃ a, a = min (doe / 36524) 3 := ⟨_, rfl⟩
  obtain ⟨r, hr⟩ : ∃ r, r = doe - 36524 * a := ⟨_, rfl⟩
  obtain ⟨b, hb⟩ : ∃ b, b = r / 1461 := ⟨_, rfl⟩
  obtain ⟨r2, hr2⟩ : ∃ r2, r2 = r - 1461 * b := ⟨_, rfl⟩
  obtain ⟨c, hc⟩ : ∃ c, c = min (r2 / 365) 3 := ⟨_, rfl⟩
  have hs : splitEra doe = (100 * a + 4 * b + c, r2 - 365 * c) := by
    simp only [splitEra, ← ha, ← hr, ← hb, ← hr2, ← hc]
  have ha1 : 0 ≤ a ∧ a ≤ 3 := by omega
  have hr1 : 0 ≤ r ∧ r ≤ 36524 ∧ (a < 3 → r ≤ 36523) := by omega
  have hb1 : 0 ≤ b ∧ b ≤ 24 := by omega
  have hr21 : 0 ≤ r2 ∧ r2 ≤ 1460 ∧ (b = 24 → a < 3 → r2 ≤ 1459) := by omega
  have hc1 : 0 ≤ c ∧ c ≤ 3 := by omega
  have e4 : (100 * a + 4 * b + c) / 4 = 25 * a + b := by omega
  have e100 : (100 * a + 4 * b + c) / 100 = a := by omega
  rw [hs]
  simp only
  rw [e4, e100]
  constructor
  · omega
  · intro h365
    have hc3 : c = 3 := by omega
    omega

theorem splitYear_spec (doy : Int) (h : 0 ≤ doy ∧ doy ≤ 365) :
    doy = (153 * (splitYear doy).1 + 2) / 5 + (splitYear doy).2 - 1 ∧
      (splitYear doy).2 ≤ (153 * ((splitYear doy).1 + 1) + 2) / 5 -
        (153 * (splitYear doy).1 + 2) / 5 ∧
      ((splitYear doy).1 = 11 → (splitYear doy).2 ≤ 29) ∧
      ((splitYear doy).1 = 11 → (splitYear doy).2 = 29 → doy = 365) := by
  obtain ⟨mp, hmp⟩ : ∃ mp, mp = (5 * doy + 2) / 153 := ⟨_, rfl⟩
  have hs : splitYear doy = (mp, doy - (153 * mp + 2) / 5 + 1) := by
    simp only [splitYear, ← hmp]
  have h1 : 0 ≤ mp ∧ mp ≤ 11 := by omega
  rw [hs]
  simp only
  obtain ⟨h0, h11⟩ := h1
  interval_cases mp <;> omega

/-- Every day is the day of its own civil date, which is a valid date. -/
theorem daysFromCivil_civilFromDays (z : Int) :
    daysFromCivil (civilFromDays z).year (civilFromDays z).month (civilFromDays z).day = z ∧
      1 ≤ (civilFromDays z).month ∧ (civilFromDays z).month ≤ 12 ∧
      1 ≤ (civilFromDays z).day := by
  have hdoe : 0 ≤ (z + 719468) % 146097 ∧ (z + 719468) % 146097 < 146097 := by omega
  obtain ⟨hb1, hb2, hb3, hb4⟩ := splitEra_bounds _ hdoe
  obtain ⟨he1, -⟩ := splitEra_spec _ hdoe
  obtain ⟨hy1, hy2, hy3, hy4⟩ := splitYear_bounds _ ⟨hb3, hb4⟩
  obtain ⟨hs1, -, -, -⟩ := splitYear_spec _ ⟨hb3, hb4⟩
  simp only [civilFromDays, daysFromCivil]
  generalize (splitYear (splitEra ((z + 719468) % 146097)).2).1 = mp at hy1 hy2 hs1
  generalize (splitYear (splitEra ((z + 719468) % 146097)).2).2 = d at hy3 hy4 hs1
  generalize (splitEra ((z + 719468) % 146097)).2 = doy at hb3 hb4 he1 hs1
  generalize (splitEra ((z + 719468) % 146097)).1 = yoe at hb1 hb2 he1
  by_cases h10 : mp < 10
  · simp only [h10, if_true]
    have hm : ¬ (mp + 3 ≤ 2) := by omega
    have hm2 : ¬ ((mp + 3).toNat ≤ 2) := by omega
    simp only [hm, hm2, if_false]
    refine ⟨?_, by omega, by omega, by omega⟩
    have q1 : (yoe + (z + 719468) / 146097 * 400) / 400 = (z + 719468) / 146097 := by omega
    have q2 : (yoe + (z + 719468) / 146097 * 400) % 400 = yoe := by omega
    rw [q1, q2]
    omega
  · simp only [h10, if_false]
    have hm : mp - 9 ≤ 2 := by omega
    have hm2 : (mp - 9).toNat ≤ 2 := by omega
    simp only [hm, hm2, if_true]
    refine ⟨?_, by omega, by omega, by omega⟩
    have q1 : (yoe + (z + 719468) / 146097 * 400 + 1 - 1) / 400 = (z + 719468) / 146097 := by
      omega
    have q2 : (yoe + (z + 719468) / 146097 * 400 + 1 - 1) % 400 = yoe := by omega
    rw [q1, q2]
    omega

/-- Days before 2010-01-01 and days from it on, by the year. -/
theorem daysFromCivil_2010 (y : Int) (m d : Nat) (hm : 1 ≤ m ∧ m ≤ 12) (hd : 1 ≤ d ∧ d ≤ 31) :
    (2010 ≤ y → 14610 ≤ daysFromCivil y m d) ∧ (y ≤ 2009 → daysFromCivil y m d ≤ 14609) := by
  simp only [daysFromCivil]
  obtain ⟨hm1, hm2⟩ := hm
  interval_cases m <;> simp <;> omega

/-- Days before 2024-01-01 and days from it on, by the year. -/
theorem daysFromCivil_2024 (y : Int) (m d : Nat) (hm : 1 ≤ m ∧ m ≤ 12) (hd : 1 ≤ d ∧ d ≤ 31) :
    (2024 ≤ y → 19723 ≤ daysFromCivil y m d) ∧ (y ≤ 2023 → daysFromCivil y m d ≤ 19722) := by
  simp only [daysFromCivil]
  obtain ⟨hm1, hm2⟩ := hm
  interval_cases m <;> simp <;> omega

/-- The year guard of line 195, in days since 1970-01-01. -/
theorem year_guard_iff (z : Int) :
    (2010 ≤ (civilFromDays z).year ∧ (civilFromDays z).year ≤ 2023) ↔
      (14610 ≤ z ∧ z ≤ 19722) := by
  obtain ⟨h1, h2, h3, h4⟩ := daysFromCivil_civilFromDays z
  obtain ⟨-, -, -, h5⟩ := civilFromDays_bounds z
  obtain ⟨a1, a2⟩ := daysFromCivil_2010 (civilFromDays z).year _ _ ⟨h2, h3⟩ ⟨h4, h5⟩
  obtain ⟨b1, b2⟩ := daysFromCivil_2024 (civilFromDays z).year _ _ ⟨h2, h3⟩ ⟨h4, h5⟩
  rw [h1] at a1 a2 b1 b2
  generalize (civilFromDays z).year = y at a1 a2 b1 b2
  constructor
  · intro ⟨k1, k2⟩
    exact ⟨a1 k1, b2 k2⟩
  · intro ⟨k1, k2⟩
    constructor
    · by_contra hc
      have := a2 (by omega)
      omega
    · by_contra hc
      have := b1 (by omega)
      omega

/-! ## The epoch rule -/

theorem digits_thirteen (w : List Char) (h : Digits 13 w) :
    ∃ a b c d e f g i j k l m n, w = [a, b, c, d, e, f, g, i, j, k, l, m, n] ∧
      isDigit a = true ∧ isDigit b = true ∧ isDigit c = true ∧ isDigit d = true ∧
      isDigit e = true ∧ isDigit f = true ∧ isDigit g = true ∧ isDigit i = true ∧
      isDigit j = true ∧ isDigit k = true ∧ isDigit l = true ∧ isDigit m = true ∧
      isDigit n = true := by
  obtain ⟨hl, hall⟩ := h
  match w, hl, hall with
  | [a, b, c, d, e, f, g, i, j, k, l, m, n], _, hall =>
    exact ⟨a, b, c, d, e, f, g, i, j, k, l, m, n, rfl, hall a (by simp), hall b (by simp),
      hall c (by simp), hall d (by simp), hall e (by simp), hall f (by simp), hall g (by simp),
      hall i (by simp), hall j (by simp), hall k (by simp), hall l (by simp), hall m (by simp),
      hall n (by simp)⟩

/-- The shape of a match of `re9`: the 13 captured digits come first in the text or follow a
rune that is not a digit. -/
theorem re9_shape (s : List Char) (ms : List (List Char))
    (h : FindStringSubmatch re9 s = some ms) :
    ∃ pre rest lead a t, s = pre ++ (lead ++ a ++ t ++ rest) ∧ ms = [lead ++ a ++ t, a] ∧
      Digits 13 a ∧ ((lead = [] ∧ pre = []) ∨ ∃ c, lead = [c] ∧ isDigit c = false) := by
  obtain ⟨pre, w, rest, caps1, hs, hm, hms⟩ := find_sound _ _ _ h
  have hn : numSubexp re9 = 1 := rfl
  rw [hn, re9, cat_cons, matches_seq] at hm
  obtain ⟨lead, w1, capsMid, hw, hlead, hm⟩ := hm
  have hcm := matches_caps_of _ _ _ _ _ _ hlead rfl
  rw [hcm] at hm
  obtain ⟨a, w2, hw2, ha, hm⟩ := matches_cat_group_digits _ _ _ _ _ _ _ _ hm
  have hcaps := matches_caps_of _ _ _ _ _ _ hm rfl
  refine ⟨pre, rest, lead, a, w2, ?_, ?_, ha, ?_⟩
  · rw [hs, hw, hw2]
    simp
  · rw [hms, hcaps, hw, hw2]
    simp [List.replicate]
  · rcases hlead with hb | hc
    · obtain ⟨hl, hlen, -⟩ := hb
      left
      refine ⟨hl, ?_⟩
      rw [hs, hw, hl] at hlen
      simp at hlen
      exact hlen
    · obtain ⟨c, hl, hc, -⟩ := hc
      right
      have hn : (!isDigit c) = true := hc
      exact ⟨c, hl, by simpa using hn⟩

/-- The call `strconv.ParseInt` reads a run of 13 digits without error. -/
theorem ParseInt_thirteen (a : List Char) (ha : Digits 13 a) :
    ParseInt a = some ((decimal a : Nat) : Int) ∧ decimal a < 10000000000000 := by
  obtain ⟨c1, c2, c3, c4, c5, c6, c7, c8, c9, c10, c11, c12, c13, rfl, h1, h2, h3, h4, h5, h6,
    h7, h8, h9, h10, h11, h12, h13⟩ := digits_thirteen _ ha
  have b1 := digitVal_lt _ h1
  have b2 := digitVal_lt _ h2
  have b3 := digitVal_lt _ h3
  have b4 := digitVal_lt _ h4
  have b5 := digitVal_lt _ h5
  have b6 := digitVal_lt _ h6
  have b7 := digitVal_lt _ h7
  have b8 := digitVal_lt _ h8
  have b9 := digitVal_lt _ h9
  have b10 := digitVal_lt _ h10
  have b11 := digitVal_lt _ h11
  have b12 := digitVal_lt _ h12
  have b13 := digitVal_lt _ h13
  have hlt : decimal [c1, c2, c3, c4, c5, c6, c7, c8, c9, c10, c11, c12, c13] <
      10000000000000 := by
    simp only [decimal, List.foldl]
    omega
  refine ⟨?_, hlt⟩
  have hm : (c1 == '-') = false := by simpa using isDigit_ne c1 '-' h1 rfl
  have hp : (c1 == '+') = false := by simpa using isDigit_ne c1 '+' h1 rfl
  have hun : List.foldl (fun acc c => acc * 10 + digitVal c) 0
      [c1, c2, c3, c4, c5, c6, c7, c8, c9, c10, c11, c12, c13] =
      decimal [c1, c2, c3, c4, c5, c6, c7, c8, c9, c10, c11, c12, c13] := rfl
  simp only [ParseInt, hm, hp, Bool.or_self, Bool.false_eq_true, if_false, List.all_cons,
    List.all_nil, h1, h2, h3, h4, h5, h6, h7, h8, h9, h10, h11, h12, h13, Bool.and_self,
    Bool.not_true, hun]
  simp
  omega

/-! ### The epoch rule by local zone -/

theorem wrapInt64_of_lt (x : Int) (h : 0 ≤ x ∧ x < 9223372036854775808) : wrapInt64 x = x := by
  simp only [wrapInt64]
  omega

theorem wrapInt64_of_ge (x : Int)
    (h : 9223372036854775808 ≤ x ∧ x < 18446744073709551616) :
    wrapInt64 x = x - 18446744073709551616 := by
  simp only [wrapInt64]
  omega

/-- The epoch rule 9 in a process whose local zone is `tz`: the 13 captured digits `a` are read
as a count of milliseconds, and the call succeeds exactly when the year of that instant in the
local zone (line 195) lies in 2010-2023. -/
theorem extract_epoch (tz : Zone) (filename : List Char) (hk : firstRule filename = some 9) :
    ∃ a, (submatches re9 filename)[1]? = some a ∧ Digits 13 a ∧
      extractDateFromFilename tz filename =
        if 2010 ≤ (Unix 0 (wrapInt64 ((decimal a : Nat) * 1000000))).Year tz ∧
            (Unix 0 (wrapInt64 ((decimal a : Nat) * 1000000))).Year tz ≤ 2023 then
          .ok ((Unix 0 (wrapInt64 ((decimal a : Nat) * 1000000))).UTC.Format tz layoutISO)
        else .error ("invalid unix timestamp in filename: ".toList ++ filename) := by
  obtain ⟨hm, he⟩ := extract_of_firstRule_nine tz filename hk
  simp only [MatchString, Option.isSome_iff_exists] at hm
  obtain ⟨ms, hms⟩ := hm
  obtain ⟨pre, rest, lead, a, t, -, rfl, ha, -⟩ := re9_shape _ _ hms
  obtain ⟨hp, -⟩ := ParseInt_thirteen a ha
  refine ⟨a, by simp [submatches, hms], ha, ?_⟩
  have hlen : [lead ++ a ++ t, a].length > 1 := by simp
  rw [he]
  simp only [case9, submatches, hms, Option.getD_some, if_pos hlen,
    List.getElem?_cons_succ, List.getElem?_cons_zero, hp, ge_iff_le]
  split
  · rfl
  · rfl

theorem year_utc (t : Time) :
    t.Year Zone.UTC = (civilFromDays (t.sec / 86400)).year := by
  simp only [Time.Year, Time.date, Time.wall, Zone.UTC]
  cases t.loc
  · rfl
  · simp only [Int.add_zero]

/-- The epoch rule 9 in a process whose local zone is UTC: the call succeeds exactly when the
captured value lies between 1262304000000 and 1704067199999, the milliseconds of the years 2010
to 2023, and it returns that instant cut to whole seconds; a product beyond `int64` wraps
around to a year before 1970 and fails. -/
theorem extract_epoch_utc (filename : List Char) (hk : firstRule filename = some 9) :
    ∃ a, (submatches re9 filename)[1]? = some a ∧ Digits 13 a ∧
      extractDateFromFilename Zone.UTC filename =
        if 1262304000000 ≤ decimal a ∧ decimal a ≤ 1704067199999 then
          .ok ((Time.mk ((decimal a : Nat) / 1000) ((decimal a : Nat) % 1000 * 1000000)
            .utc).Format Zone.UTC layoutISO)
        else .error ("invalid unix timestamp in filename: ".toList ++ filename) := by
  obtain ⟨a, h1, ha, he⟩ := extract_epoch Zone.UTC filename hk
  obtain ⟨-, hlt⟩ := ParseInt_thirteen a ha
  refine ⟨a, h1, ha, ?_⟩
  rw [he, year_utc]
  generalize decimal a = v at hlt
  by_cases hr : 1262304000000 ≤ v ∧ v ≤ 1704067199999
  · have hw := wrapInt64_of_lt ((v : Int) * 1000000) (by omega)
    have hg : 14610 ≤ (Unix 0 (wrapInt64 ((v : Int) * 1000000))).sec / 86400 ∧
        (Unix 0 (wrapInt64 ((v : Int) * 1000000))).sec / 86400 ≤ 19722 := by
      rw [hw]
      simp only [Unix]
      omega
    rw [if_pos ((year_guard_iff _).mpr hg), if_pos hr, hw]
    have ht : (Unix 0 ((v : Int) * 1000000)).UTC =
        Time.mk ((v : Int) / 1000) ((v : Int) % 1000 * 1000000) .utc := by
      simp only [Unix, Time.UTC, Time.mk.injEq, and_true]
      constructor <;> omega
    rw [ht]
  · have hg : ¬ (14610 ≤ (Unix 0 (wrapInt64 ((v : Int) * 1000000))).sec / 86400 ∧
        (Unix 0 (wrapInt64 ((v : Int) * 1000000))).sec / 86400 ≤ 19722) := by
      by_cases hw : (v : Int) * 1000000 < 9223372036854775808
      · rw [wrapInt64_of_lt _ (by omega)]
        simp only [Unix]
        omega
      · rw [wrapInt64_of_ge _ (by omega)]
        simp only [Unix]
        omega
    rw [if_neg (fun h => hg ((year_guard_iff _).mp h)), if_neg hr]

/-- Outside the epoch rule 9 the outcome does not depend on the local zone. -/
theorem extract_zone_independent (tz1 tz2 : Zone) (filename : List Char)
    (h : firstRule filename ≠ some 9) :
    extractDateFromFilename tz1 filename = extractDateFromFilename tz2 filename := by
  cases hfr : firstRule filename with
  | none =>
    rw [extract_of_firstRule_none tz1 filename hfr, extract_of_firstRule_none tz2 filename hfr]
  | some k =>
    have h9 : k ≠ 9 := by
      intro hk
      rw [hfr, hk] at h
      exact h rfl
    rw [(extract_of_firstRule tz1 filename k hfr h9).2,
      (extract_of_firstRule tz2 filename k hfr h9).2]

/-! ## The switch as a search of its cases -/

theorem firstIdx_ge (filename : List Char) :
    ∀ (rs : List Rule) (s n : Nat), firstIdx filename rs s = some n → s ≤ n := by
  intro rs
  induction rs with
  | nil =>
    intro s n h
    simp [firstIdx] at h
  | cons r rs ih =>
    intro s n h
    simp only [firstIdx] at h
    split at h
    · simp only [Option.some.injEq] at h
      omega
    · have := ih _ _ h
      omega

theorem find_of_firstIdx (filename : List Char) :
    ∀ (rs : List Rule) (s i : Nat) (r : Rule), firstIdx filename rs s = some (i + s) →
      rs[i]? = some r → rs.find? (fun r => r.detect filename) = some r := by
  intro rs
  induction rs with
  | nil =>
    intro s i r h
    simp [firstIdx] at h
  | cons r0 rs ih =>
    intro s i r h hr
    simp only [firstIdx] at h
    split at h
    · rename_i hd
      simp only [Option.some.injEq] at h
      have hi : i = 0 := by omega
      subst hi
      simp only [List.getElem?_cons_zero, Option.some.injEq] at hr
      subst hr
      simp [List.find?, hd]
    · rename_i hd
      have hge := firstIdx_ge _ _ _ _ h
      obtain ⟨i1, rfl⟩ : ∃ i1, i = i1 + 1 := ⟨i - 1, by omega⟩
      simp only [List.getElem?_cons_succ] at hr
      have h2 : firstIdx filename rs (s + 1) = some (i1 + (s + 1)) := by
        rw [h]
        congr 1
        omega
      have := ih _ _ _ h2 hr
      simp only [List.find?]
      simp only [Bool.not_eq_true] at hd
      rw [hd]
      exact this

/-- The `switch` runs the first rule of the table whose detection predicate matches. -/
theorem extract_eq_cascade (tz : Zone) (filename : List Char) :
    extractDateFromFilename tz filename = cascade tz filename := by
  simp only [extractDateFromFilename, switchCases, cascade, ruleTable, List.find?, Rule.alone]
  by_cases h1 : MatchString re1 filename = true
  · simp only [h1, if_true]
  simp only [h1, Bool.false_eq_true, if_false]
  by_cases h2 : MatchString re2 filename = true
  · simp only [h2, if_true]
  simp only [h2, Bool.false_eq_true, if_false]
  by_cases h3 : MatchString re3 filename = true
  · simp only [h3, if_true]
  simp only [h3, Bool.false_eq_true, if_false]
  by_cases h4 : MatchString re4 filename = true
  · simp only [h4, if_true]
  simp only [h4, Bool.false_eq_true, if_false]
  by_cases h5 : MatchString re5 filename = true
  · simp only [h5, if_true]
  simp only [h5, Bool.false_eq_true, if_false]
  by_cases h6 : MatchString re6 filename = true
  · simp only [h6, if_true]
  simp only [h6, Bool.false_eq_true, if_false]
  by_cases h7 : MatchString re7 filename = true
  · simp only [h7, if_true]
  simp only [h7, Bool.false_eq_true, if_false]
  by_cases h8 : MatchString re8 filename = true
  · simp only [h8, if_true]
  simp only [h8, Bool.false_eq_true, if_false]
  by_cases h9 : MatchString re9 filename = true
  · simp only [h9, if_true]
  simp only [h9, Bool.false_eq_true, if_false]
  by_cases h10 : MatchString re10 filename = true
  · simp only [h10, if_true]
  simp only [h10, Bool.false_eq_true, if_false]
  by_cases h11 : MatchString re11 filename = true
  · simp only [h11, if_true]
  simp only [h11, Bool.false_eq_true, if_false]
  by_cases h12 : MatchString re12 filename = true
  · simp only [h12, if_true]
  simp only [h12, Bool.false_eq_true, if_false]
  by_cases h13 : MatchString re13 filename = true
  · simp only [h13, if_true]
  simp only [h13, Bool.false_eq_true, if_false]
  rfl

/-! ## C3, C4, C8, C9, C10: the rules that parse captured fields -/

/-- C3. When the first matching rule is not the epoch rule 9, the call fails with
`invalid date in filename: <filename>` if and only if the fields that rule captured are not a
valid date and time of the proleptic Gregorian calendar (month 01-12, day from 01 to the length
of the month in that year, hour 00-23, minute and second 00-59). Nothing is clamped, and no
later rule is tried. -/
theorem C3_invalid_date_iff (tz : Zone) (filename : List Char) (k : Nat)
    (hk : firstRule filename = some k) (h9 : k ≠ 9) :
    extractDateFromFilename tz filename =
        .error ("invalid date in filename: ".toList ++ filename) ↔
      (captured k filename).valid = false := by
  obtain ⟨-, h⟩ := extract_of_firstRule tz filename k hk h9
  rw [h]
  by_cases hv : (captured k filename).valid = true
  · simp [hv]
  · simp [hv]

/-- C3 at `2021-01-15-25-00-00.jpg`: rule 1 matches first, hour 25 is invalid, the call fails,
although the date-only rule 8 matches as well and alone would give `2021-01-15T00:00:00Z`. -/
theorem C3_invalid_date_iff_witness :
    firstRule "2021-01-15-25-00-00.jpg".toList = some 1 ∧
    extractDateFromFilename Zone.UTC "2021-01-15-25-00-00.jpg".toList =
      .error "invalid date in filename: 2021-01-15-25-00-00.jpg".toList ∧
    MatchString re8 "2021-01-15-25-00-00.jpg".toList = true ∧
    finish Zone.UTC "2021-01-15-25-00-00.jpg".toList (case8 "2021-01-15-25-00-00.jpg".toList) =
      .ok "2021-01-15T00:00:00Z".toList :=
  ⟨by decide,
    (C3_invalid_date_iff Zone.UTC "2021-01-15-25-00-00.jpg".toList 1 (by decide)
      (by decide)).mpr (by decide),
    by decide, by decide⟩

/-- C4 fails as stated: this filename contains `2021-02-30-10-00-00`, but the leftmost match of
rule 1 is the valid `2020-01-01-10-00-00` before it, and the call succeeds. -/
theorem C4_counterexample :
    "2020-01-01-10-00-00_2021-02-30-10-00-00.jpg".toList =
      "2020-01-01-10-00-00_".toList ++ "2021-02-30-10-00-00".toList ++ ".jpg".toList ∧
    extractDateFromFilename Zone.UTC "2020-01-01-10-00-00_2021-02-30-10-00-00.jpg".toList =
      .ok "2020-01-01T10:00:00Z".toList := by
  constructor <;> decide

/-- C4, amended. For every filename in which the leftmost match of rule 1's pattern is the text
`2021-02-30-10-00-00`, the call fails with `invalid date in filename: <filename>`. -/
theorem C4_leftmost_invalid_date (tz : Zone) (filename : List Char)
    (h : FindStringSubmatch re1 filename =
      some ["2021-02-30-10-00-00".toList, "2021".toList, "02".toList, "30".toList,
        "10".toList, "00".toList, "00".toList]) :
    extractDateFromFilename tz filename =
      .error ("invalid date in filename: ".toList ++ filename) := by
  have h1 : firstRule filename = some 1 := by
    simp [firstRule, firstIdx, ruleTable, MatchString, h]
  obtain ⟨-, he⟩ := extract_of_firstRule tz filename 1 h1 (by decide)
  have hc : captured 1 filename =
      ⟨"2021".toList, "02".toList, "30".toList, "10".toList, "00".toList, "00".toList⟩ := by
    simp [captured, extraction, submatches, fieldsOf, h]
  rw [he, hc, if_neg (by decide)]

/-- C4, amended, at `Screenshot_2021-02-30-10-00-00.png`. -/
theorem C4_leftmost_invalid_date_witness :
    extractDateFromFilename Zone.UTC "Screenshot_2021-02-30-10-00-00.png".toList =
      .error "invalid date in filename: Screenshot_2021-02-30-10-00-00.png".toList :=
  C4_leftmost_invalid_date Zone.UTC "Screenshot_2021-02-30-10-00-00.png".toList (by decide)

/-- C8. When the first matching rule is one of the full date-time rules 1, 2, 3, 7, 10, 11, 13
and the captured fields are a valid date and time, the call returns the string `Y-M-DTh:m:sZ`
made of the captured digit strings as they stand: no zone shift, and neither captured
milliseconds nor extra trailing digits change it. -/
theorem C8_datetime_rules (tz : Zone) (filename : List Char) (k : Nat)
    (hk : firstRule filename = some k)
    (hkind : k = 1 ∨ k = 2 ∨ k = 3 ∨ k = 7 ∨ k = 10 ∨ k = 11 ∨ k = 13)
    (hv : (captured k filename).valid = true) :
    extractDateFromFilename tz filename =
      .ok ((captured k filename).year ++ '-' :: (captured k filename).month ++ '-' ::
        (captured k filename).day ++ 'T' :: (captured k filename).hour ++ ':' ::
        (captured k filename).minute ++ ':' :: (captured k filename).second ++ ['Z']) := by
  obtain ⟨-, he⟩ := extract_of_firstRule tz filename k hk (by omega)
  rw [he, if_pos hv]
  rfl

/-- C8 at `Screenshot_2016-04-16-09-12-10.png` (rule 1) and `IMG_20190130_172450.jpg`
(rule 2). -/
theorem C8_datetime_rules_witness :
    extractDateFromFilename Zone.UTC "Screenshot_2016-04-16-09-12-10.png".toList =
      .ok "2016-04-16T09:12:10Z".toList ∧
    extractDateFromFilename Zone.UTC "IMG_20190130_172450.jpg".toList =
      .ok "2019-01-30T17:24:50Z".toList :=
  ⟨C8_datetime_rules Zone.UTC "Screenshot_2016-04-16-09-12-10.png".toList 1 (by decide)
      (by decide) (by decide),
    C8_datetime_rules Zone.UTC "IMG_20190130_172450.jpg".toList 2 (by decide) (by decide)
      (by decide)⟩

/-- C9. When the first matching rule captures no complete time of day and the captured fields
are valid, the call returns the captured date digits as they stand with the missing components
set to 00: `Y-M-DT00:00:00Z` for rules 5, 8 and 12, `Y-M-DTh:m:00Z` for rule 6. -/
theorem C9_partial_time_rules (tz : Zone) (filename : List Char) (k : Nat)
    (hk : firstRule filename = some k) (hv : (captured k filename).valid = true) :
    (k = 5 ∨ k = 8 ∨ k = 12 →
      extractDateFromFilename tz filename =
        .ok ((captured k filename).year ++ '-' :: (captured k filename).month ++ '-' ::
          (captured k filename).day ++ "T00:00:00Z".toList)) ∧
    (k = 6 →
      extractDateFromFilename tz filename =
        .ok ((captured k filename).year ++ '-' :: (captured k filename).month ++ '-' ::
          (captured k filename).day ++ 'T' :: (captured k filename).hour ++ ':' ::
          (captured k filename).minute ++ ":00Z".toList)) := by
  constructor
  · intro hkind
    obtain ⟨-, he⟩ := extract_of_firstRule tz filename k hk (by omega)
    rw [he, if_pos hv]
    rcases hkind with rfl | rfl | rfl <;> simp [Fields.render, captured, fieldsOf]
  · intro hkind
    obtain ⟨-, he⟩ := extract_of_firstRule tz filename k hk (by omega)
    rw [he, if_pos hv]
    subst hkind
    simp [Fields.render, captured, fieldsOf]

/-- C9 at `IMG-20160123-WA0000.jpg` (rule 5), `2014-09-18.jpg` (rule 8) and
`2015-11-01_1234.mp4` (rule 6). -/
theorem C9_partial_time_rules_witness :
    extractDateFromFilename Zone.UTC "IMG-20160123-WA0000.jpg".toList =
      .ok "2016-01-23T00:00:00Z".toList ∧
    extractDateFromFilename Zone.UTC "2014-09-18.jpg".toList =
      .ok "2014-09-18T00:00:00Z".toList ∧
    extractDateFromFilename Zone.UTC "2015-11-01_1234.mp4".toList =
      .ok "2015-11-01T12:34:00Z".toList :=
  ⟨(C9_partial_time_rules Zone.UTC "IMG-20160123-WA0000.jpg".toList 5 (by decide)
      (by decide)).1 (by decide),
    (C9_partial_time_rules Zone.UTC "2014-09-18.jpg".toList 8 (by decide) (by decide)).1
      (by decide),
    (C9_partial_time_rules Zone.UTC "2015-11-01_1234.mp4".toList 6 (by decide) (by decide)).2
      (by decide)⟩

/-- C10, at `2014-09-18 2015-01-01.jpg`. Rule 8 is the first matching rule; its detection
pattern (line 184) matches the occurrence `2015-01-01`, the one followed by an extension, but
the extraction pattern (line 185) takes the leftmost `2014-09-18`, which is the date
returned. -/
theorem C10_rule8_uses_other_occurrence (tz : Zone) :
    firstRule "2014-09-18 2015-01-01.jpg".toList = some 8 ∧
    FindStringSubmatch re8 "2014-09-18 2015-01-01.jpg".toList =
      some ["2015-01-01.jpg".toList, "2015".toList, "01".toList, "01".toList] ∧
    extractDateFromFilename tz "2014-09-18 2015-01-01.jpg".toList =
      .ok "2014-09-18T00:00:00Z".toList := by
  refine ⟨by decide, by decide, ?_⟩
  obtain ⟨-, he⟩ := extract_of_firstRule tz "2014-09-18 2015-01-01.jpg".toList 8 (by decide)
    (by decide)
  rw [he]
  decide

/-! ## C2, C5, C6, C7: the canonical form and the epoch rule -/

theorem daysIn_le (m : Nat) (y : Int) : daysIn m y ≤ 31 := by
  simp only [daysIn]
  split
  · split <;> omega
  · split <;> omega

theorem decimal_digitChar_two (a b : Nat) (ha : a < 10) (hb : b < 10) :
    decimal [digitChar a, digitChar b] = a * 10 + b := by
  simp [decimal, digitVal_digitChar a ha, digitVal_digitChar b hb]

/-- Well-formed fields that are valid render to the canonical form. -/
theorem isCanonical_render (c : Fields) (hc : c.WellFormed) (hv : c.valid = true) :
    isCanonical c.render = true := by
  obtain ⟨hy, hm, hd, hh, hn, hs⟩ := hc
  obtain ⟨y1, y2, y3, y4, ey, hy1, hy2, hy3, hy4⟩ := digits_four _ hy
  obtain ⟨m1, m2, em, hm1, hm2⟩ := digits_two _ hm
  obtain ⟨d1, d2, ed, hd1, hd2⟩ := digits_two _ hd
  obtain ⟨h1, h2, eh, hh1, hh2⟩ := digits_two _ hh
  obtain ⟨n1, n2, en, hn1, hn2⟩ := digits_two _ hn
  obtain ⟨s1, s2, es, hs1, hs2⟩ := digits_two _ hs
  simp only [Fields.valid, decide_eq_true_eq] at hv
  rw [ey, em, ed, eh, en, es] at hv
  obtain ⟨v1, v2, v3, v4, v5, v6, v7⟩ := hv
  have v4' := Nat.le_trans v4 (daysIn_le _ _)
  simp only [Fields.render, ey, em, ed, eh, en, es, List.cons_append, List.nil_append,
    isCanonical, hy1, hy2, hy3, hy4, hm1, hm2, hd1, hd2, hh1, hh2, hn1, hn2, hs1, hs2]
  simp
  exact ⟨v1, v2, v3, v4', v5, v6, v7⟩

/-- A time whose year has four digits is formatted in the canonical form. -/
theorem isCanonical_format (tz : Zone) (t : Time)
    (hy : 0 ≤ (civilFromDays (t.sec / 86400)).year ∧ (civilFromDays (t.sec / 86400)).year ≤ 9999) :
    isCanonical (t.UTC.Format tz layoutISO) = true := by
  rw [format_layoutISO]
  obtain ⟨b1, b2, b3, b4⟩ := civilFromDays_bounds (t.sec / 86400)
  obtain ⟨y, hyy⟩ := Int.eq_ofNat_of_zero_le hy.1
  obtain ⟨h, hh⟩ := Int.eq_ofNat_of_zero_le (show 0 ≤ t.sec % 86400 / 3600 by omega)
  obtain ⟨n, hn⟩ := Int.eq_ofNat_of_zero_le (show 0 ≤ t.sec % 86400 % 3600 / 60 by omega)
  obtain ⟨s, hs⟩ := Int.eq_ofNat_of_zero_le (show 0 ≤ t.sec % 86400 % 60 by omega)
  have hy2 : y < 10000 := by omega
  have hh2 : h < 24 := by omega
  have hn2 : n < 60 := by omega
  have hs2 : s < 60 := by omega
  generalize (civilFromDays (t.sec / 86400)).month = m at b1 b2
  generalize (civilFromDays (t.sec / 86400)).day = d at b3 b4
  rw [hyy, hh, hn, hs, appendInt_four y hy2, appendInt_two m (by omega),
    appendInt_two d (by omega), appendInt_two h (by omega), appendInt_two n (by omega),
    appendInt_two s (by omega)]
  simp only [List.cons_append, List.nil_append, isCanonical,
    isDigit_digitChar _ (show y / 100 / 10 < 10 by omega),
    isDigit_digitChar _ (show y / 100 % 10 < 10 by omega),
    isDigit_digitChar _ (show y % 100 / 10 < 10 by omega),
    isDigit_digitChar _ (show y % 100 % 10 < 10 by omega),
    isDigit_digitChar _ (show m / 10 < 10 by omega),
    isDigit_digitChar _ (show m % 10 < 10 by omega),
    isDigit_digitChar _ (show d / 10 < 10 by omega),
    isDigit_digitChar _ (show d % 10 < 10 by omega),
    isDigit_digitChar _ (show h / 10 < 10 by omega),
    isDigit_digitChar _ (show h % 10 < 10 by omega),
    isDigit_digitChar _ (show n / 10 < 10 by omega),
    isDigit_digitChar _ (show n % 10 < 10 by omega),
    isDigit_digitChar _ (show s / 10 < 10 by omega),
    isDigit_digitChar _ (show s % 10 < 10 by omega),
    decimal_digitChar_two _ _ (show m / 10 < 10 by omega) (show m % 10 < 10 by omega),
    decimal_digitChar_two _ _ (show d / 10 < 10 by omega) (show d % 10 < 10 by omega),
    decimal_digitChar_two _ _ (show h / 10 < 10 by omega) (show h % 10 < 10 by omega),
    decimal_digitChar_two _ _ (show n / 10 < 10 by omega) (show n % 10 < 10 by omega),
    decimal_digitChar_two _ _ (show s / 10 < 10 by omega) (show s % 10 < 10 by omega)]
  simp
  omega

/-- The instants `time.Unix` reaches from an `int64` count of nanoseconds lie in years of four
digits. -/
theorem unix_year_bounds (x : Int) :
    0 ≤ (civilFromDays ((Unix 0 (wrapInt64 x)).sec / 86400)).year ∧
      (civilFromDays ((Unix 0 (wrapInt64 x)).sec / 86400)).year ≤ 9999 := by
  have h := civilFromDays_year_bounds ((Unix 0 (wrapInt64 x)).sec / 86400)
  have hera : 4 ≤ ((Unix 0 (wrapInt64 x)).sec / 86400 + 719468) / 146097 ∧
      ((Unix 0 (wrapInt64 x)).sec / 86400 + 719468) / 146097 ≤ 5 := by
    simp only [Unix, wrapInt64]
    omega
  omega

/-- What the epoch rule returns on success is a formatted `time.Unix` instant. -/
theorem case9_ok (tz : Zone) (filename out : List Char)
    (h : finish tz filename (case9 tz filename) = .ok out) :
    ∃ x, out = (Unix 0 (wrapInt64 x)).UTC.Format tz layoutISO := by
  simp only [case9] at h
  split at h
  · split at h
    · simp [finish] at h
    · split at h
      · simp [finish] at h
      · rename_i tsInt _
        split at h
        · simp only [finish, Outcome.ok.injEq] at h
          exact ⟨tsInt * 1000000, h.symm⟩
        · simp [finish] at h
  · simp [finish] at h

/-- C2. Whenever `extractDateFromFilename` succeeds, the returned string has the canonical form
`YYYY-MM-DDTHH:MM:SSZ`: 20 characters, digits at the numeric positions, `-` at 4 and 7, `T` at
10, `:` at 13 and 16, `Z` last, month 01-12, day 01-31, hour 00-23, minute and second 00-59;
there is no fractional-second part, whatever rule matched. -/
theorem C2_canonical_output (tz : Zone) (filename out : List Char)
    (h : extractDateFromFilename tz filename = .ok out) : isCanonical out = true := by
  cases hfr : firstRule filename with
  | none =>
    rw [extract_of_firstRule_none tz filename hfr] at h
    cases h
  | some k =>
    by_cases h9 : k = 9
    · subst h9
      obtain ⟨-, he⟩ := extract_of_firstRule_nine tz filename hfr
      rw [he] at h
      obtain ⟨x, rfl⟩ := case9_ok tz filename out h
      exact isCanonical_format tz _ (unix_year_bounds x)
    · obtain ⟨hw, he⟩ := extract_of_firstRule tz filename k hfr h9
      rw [he] at h
      by_cases hv : (captured k filename).valid = true
      · rw [if_pos hv] at h
        cases h
        exact isCanonical_render _ hw hv
      · rw [if_neg hv] at h
        cases h

/-- C2 at `a-20150829144707466` (rule 13, which captures milliseconds) and at
`1483613738152.jpg` (rule 9, an epoch in milliseconds). -/
theorem C2_canonical_output_witness :
    isCanonical "2015-08-29T14:47:07Z".toList = true ∧
    isCanonical "2017-01-05T10:55:38Z".toList = true :=
  ⟨C2_canonical_output Zone.UTC "a-20150829144707466".toList "2015-08-29T14:47:07Z".toList
      (by decide),
    C2_canonical_output Zone.UTC "1483613738152.jpg".toList "2017-01-05T10:55:38Z".toList
      (by decide)⟩

/-- C5, in a process whose local zone is five hours west of UTC: `1704067200000`, which decodes
to 2024-01-01T00:00:00Z, is accepted and returned as a date of 2024, and the boundary value
`1262304000000`, which decodes to 2010-01-01T00:00:00Z, is rejected. The year guard of line 195
reads the year in the local zone. -/
theorem C5_epoch_guard_reads_local_year :
    extractDateFromFilename Zone.utcMinus5 "1704067200000.jpg".toList =
      .ok "2024-01-01T00:00:00Z".toList ∧
    extractDateFromFilename Zone.utcMinus5 "1262304000000.jpg".toList =
      .error "invalid unix timestamp in filename: 1262304000000.jpg".toList := by
  constructor <;> decide

/-- C6 fails as stated: the call on `1483613738152.jpg` does not return
`2017-01-05T07:15:38Z`. -/
theorem C6_counterexample :
    extractDateFromFilename Zone.UTC "1483613738152.jpg".toList ≠
      .ok "2017-01-05T07:15:38Z".toList := by
  decide

/-- C7, at `1704067200000.jpg`: the same filename fails in a process whose local zone is UTC and
succeeds in one whose local zone is five hours west of UTC. -/
theorem C7_outcome_depends_on_local_zone :
    extractDateFromFilename Zone.UTC "1704067200000.jpg".toList =
      .error "invalid unix timestamp in filename: 1704067200000.jpg".toList ∧
    extractDateFromFilename Zone.utcMinus5 "1704067200000.jpg".toList =
      .ok "2024-01-01T00:00:00Z".toList ∧
    extractDateFromFilename Zone.UTC "1704067200000.jpg".toList ≠
      extractDateFromFilename Zone.utcMinus5 "1704067200000.jpg".toList := by
  refine ⟨by decide, by decide, by decide⟩

/-! ### The epoch example -/

/-- C6, amended. In every local zone, the call on `1483613738152.jpg` succeeds and returns
`2017-01-05T10:55:38Z`, the conversion of 1483613738152 milliseconds since the Unix epoch to
UTC at second precision. -/
theorem C6_epoch_example (tz : Zone) :
    extractDateFromFilename tz "1483613738152.jpg".toList =
      .ok "2017-01-05T10:55:38Z".toList := by
  obtain ⟨-, he⟩ := extract_of_firstRule_nine tz "1483613738152.jpg".toList (by decide)
  rw [he]
  have hms : submatches re9 "1483613738152.jpg".toList =
      ["1483613738152.jpg".toList, "1483613738152".toList] := by decide
  have hp : ParseInt "1483613738152".toList = some 1483613738152 := by decide
  have ht : Unix 0 (wrapInt64 (1483613738152 * 1000000)) =
      ⟨1483613738, 152000000, .localZone⟩ := by decide
  have hyear : (Time.mk 1483613738 152000000 .localZone).Year tz = 2016 ∨
      (Time.mk 1483613738 152000000 .localZone).Year tz = 2017 := by
    simp only [Time.Year, Time.date, Time.wall]
    obtain ⟨h1, h2⟩ := tz.bounded 1483613738
    have hz : 17164 ≤ (1483613738 + tz.offset 1483613738) / 86400 ∧
        (1483613738 + tz.offset 1483613738) / 86400 ≤ 17178 := by omega
    generalize (1483613738 + tz.offset 1483613738) / 86400 = z at hz
    obtain ⟨hz1, hz2⟩ := hz
    interval_cases z <;> decide
  have hguard : (Time.mk 1483613738 152000000 .localZone).Year tz ≥ 2010 ∧
      (Time.mk 1483613738 152000000 .localZone).Year tz ≤ 2023 := by
    rcases hyear with h | h <;> rw [h] <;> decide
  simp only [case9, hms, List.length_cons, List.length_nil, List.getElem?_cons_succ,
    List.getElem?_cons_zero, hp, ht, hguard, finish]
  simp only [Nat.reduceAdd, gt_iff_lt, Nat.one_lt_ofNat, if_true, and_self, Outcome.ok.injEq]
  rw [format_layoutISO]
  decide

/-! ## C11: filenames with fewer than eight digits -/

theorem countDigits_append (x y : List Char) :
    countDigits (x ++ y) = countDigits x + countDigits y := by
  simp [countDigits]

theorem countDigits_cons_ge (c : Char) (y : List Char) :
    countDigits y ≤ countDigits (c :: y) := by
  simp only [countDigits, List.countP_cons]
  omega

theorem Digits.countDigits (k : Nat) (a : List Char) (h : Digits k a) : countDigits a = k := by
  obtain ⟨hl, hall⟩ := h
  rw [← hl]
  simp only [ImmichTimestampFix.countDigits]
  exact List.countP_eq_length.mpr hall

/-- A match of `re1` holds 14 digits in its capture groups. -/
theorem re1_countDigits (s : List Char) (h : MatchString re1 s = true) :
    14 ≤ countDigits s := by
  simp only [MatchString, Option.isSome_iff_exists] at h
  obtain ⟨ms, hms⟩ := h
  obtain ⟨pre, rest, a, b, c, d, e, f, sep, rfl, -, ha, hb, hc, hd, he, hf⟩ := re1_shape _ _ hms
  have ka := Digits.countDigits _ _ ha
  have kb := Digits.countDigits _ _ hb
  have kc := Digits.countDigits _ _ hc
  have kd := Digits.countDigits _ _ hd
  have ke := Digits.countDigits _ _ he
  have kf := Digits.countDigits _ _ hf
  simp only [countDigits_append]
  simp only [countDigits, List.countP_cons, List.countP_append, List.countP_nil] at *
  omega

/-- A match of `re2` holds 14 digits in its capture groups. -/
theorem re2_countDigits (s : List Char) (h : MatchString re2 s = true) :
    14 ≤ countDigits s := by
  simp only [MatchString, Option.isSome_iff_exists] at h
  obtain ⟨ms, hms⟩ := h
  obtain ⟨pre, rest, a, b, c, d, e, f, sep, rfl, -, ha, hb, hc, hd, he, hf⟩ := re2_shape _ _ hms
  have ka := Digits.countDigits _ _ ha
  have kb := Digits.countDigits _ _ hb
  have kc := Digits.countDigits _ _ hc
  have kd := Digits.countDigits _ _ hd
  have ke := Digits.countDigits _ _ he
  have kf := Digits.countDigits _ _ hf
  simp only [countDigits_append]
  simp only [countDigits, List.countP_cons, List.countP_append, List.countP_nil] at *
  omega

/-- A match of `re3` holds 14 digits in its capture groups. -/
theorem re3_countDigits (s : List Char) (h : MatchString re3 s = true) :
    14 ≤ countDigits s := by
  simp only [MatchString, Option.isSome_iff_exists] at h
  obtain ⟨ms, hms⟩ := h
  obtain ⟨pre, rest, a, b, c, d, e, f, sep, rfl, -, ha, hb, hc, hd, he, hf⟩ := re3_shape _ _ hms
  have ka := Digits.countDigits _ _ ha
  have kb := Digits.countDigits _ _ hb
  have kc := Digits.countDigits _ _ hc
  have kd := Digits.countDigits _ _ hd
  have ke := Digits.countDigits _ _ he
  have kf := Digits.countDigits _ _ hf
  simp only [countDigits_append]
  simp only [countDigits, List.countP_cons, List.countP_append, List.countP_nil] at *
  omega

/-- A match of `re4` holds 14 digits in its capture groups. -/
theorem re4_countDigits (s : List Char) (h : MatchString re4 s = true) :
    14 ≤ countDigits s := by
  simp only [MatchString, Option.isSome_iff_exists] at h
  obtain ⟨ms, hms⟩ := h
  obtain ⟨pre, rest, a, b, c, d, e, f, sep, rfl, -, ha, hb, hc, hd, he, hf⟩ := re4_shape _ _ hms
  have ka := Digits.countDigits _ _ ha
  have kb := Digits.countDigits _ _ hb
  have kc := Digits.countDigits _ _ hc
  have kd := Digits.countDigits _ _ hd
  have ke := Digits.countDigits _ _ he
  have kf := Digits.countDigits _ _ hf
  simp only [countDigits_append]
  simp only [countDigits, List.countP_cons, List.countP_append, List.countP_nil] at *
  omega

/-- A match of `re5` holds 8 digits in its capture groups. -/
theorem re5_countDigits (s : List Char) (h : MatchString re5 s = true) :
    8 ≤ countDigits s := by
  simp only [MatchString, Option.isSome_iff_exists] at h
  obtain ⟨ms, hms⟩ := h
  obtain ⟨pre, rest, a, b, c, t, rfl, -, ha, hb, hc⟩ := re5_shape _ _ hms
  have ka := Digits.countDigits _ _ ha
  have kb := Digits.countDigits _ _ hb
  have kc := Digits.countDigits _ _ hc
  simp only [countDigits_append]
  simp only [countDigits, List.countP_cons, List.countP_append, List.countP_nil] at *
  omega

/-- A match of `re6` holds 12 digits in its capture groups. -/
theorem re6_countDigits (s : List Char) (h : MatchString re6 s = true) :
    12 ≤ countDigits s := by
  simp only [MatchString, Option.isSome_iff_exists] at h
  obtain ⟨ms, hms⟩ := h
  obtain ⟨pre, rest, a, b, c, d, e, rfl, -, ha, hb, hc, hd, he⟩ := re6_shape _ _ hms
  have ka := Digits.countDigits _ _ ha
  have kb := Digits.countDigits _ _ hb
  have kc := Digits.countDigits _ _ hc
  have kd := Digits.countDigits _ _ hd
  have ke := Digits.countDigits _ _ he
  simp only [countDigits_append]
  simp only [countDigits, List.countP_cons, List.countP_append, List.countP_nil] at *
  omega

/-- A match of `re7` holds 14 digits in its capture groups. -/
theorem re7_countDigits (s : List Char) (h : MatchString re7 s = true) :
    14 ≤ countDigits s := by
  simp only [MatchString, Option.isSome_iff_exists] at h
  obtain ⟨ms, hms⟩ := h
  obtain ⟨pre, rest, a, b, c, d, e, f, t, rfl, -, ha, hb, hc, hd, he, hf⟩ := re7_shape _ _ hms
  have ka := Digits.countDigits _ _ ha
  have kb := Digits.countDigits _ _ hb
  have kc := Digits.countDigits _ _ hc
  have kd := Digits.countDigits _ _ hd
  have ke := Digits.countDigits _ _ he
  have kf := Digits.countDigits _ _ hf
  simp only [countDigits_append]
  simp only [countDigits, List.countP_cons, List.countP_append, List.countP_nil] at *
  omega

/-- A match of `re8` holds 8 digits in its capture groups. -/
theorem re8_countDigits (s : List Char) (h : MatchString re8 s = true) :
    8 ≤ countDigits s := by
  simp only [MatchString, Option.isSome_iff_exists] at h
  obtain ⟨ms, hms⟩ := h
  obtain ⟨pre, rest, a, b, c, t, rfl, -, ha, hb, hc⟩ := re8_shape _ _ hms
  have ka := Digits.countDigits _ _ ha
  have kb := Digits.countDigits _ _ hb
  have kc := Digits.countDigits _ _ hc
  simp only [countDigits_append]
  simp only [countDigits, List.countP_cons, List.countP_append, List.countP_nil] at *
  omega

/-- A match of `re8x` holds 8 digits in its capture groups. -/
theorem re8x_countDigits (s : List Char) (h : MatchString re8x s = true) :
    8 ≤ countDigits s := by
  simp only [MatchString, Option.isSome_iff_exists] at h
  obtain ⟨ms, hms⟩ := h
  obtain ⟨pre, rest, a, b, c, rfl, -, ha, hb, hc⟩ := re8x_shape _ _ hms
  have ka := Digits.countDigits _ _ ha
  have kb := Digits.countDigits _ _ hb
  have kc := Digits.countDigits _ _ hc
  simp only [countDigits_append]
  simp only [countDigits, List.countP_cons, List.countP_append, List.countP_nil] at *
  omega

/-- A match of `re10` holds 14 digits in its capture groups. -/
theorem re10_countDigits (s : List Char) (h : MatchString re10 s = true) :
    14 ≤ countDigits s := by
  simp only [MatchString, Option.isSome_iff_exists] at h
  obtain ⟨ms, hms⟩ := h
  obtain ⟨pre, rest, a, b, rfl, -, ha, hb⟩ := re10_shape _ _ hms
  have ka := Digits.countDigits _ _ ha
  have kb := Digits.countDigits _ _ hb
  simp only [countDigits_append]
  simp only [countDigits, List.countP_cons, List.countP_append, List.countP_nil] at *
  omega

/-- A match of `re11` holds 14 digits in its capture groups. -/
theorem re11_countDigits (s : List Char) (h : MatchString re11 s = true) :
    14 ≤ countDigits s := by
  simp only [MatchString, Option.isSome_iff_exists] at h
  obtain ⟨ms, hms⟩ := h
  obtain ⟨pre, rest, a, b, t, rfl, -, ha, hb⟩ := re11_shape _ _ hms
  have ka := Digits.countDigits _ _ ha
  have kb := Digits.countDigits _ _ hb
  simp only [countDigits_append]
  simp only [countDigits, List.countP_cons, List.countP_append, List.countP_nil] at *
  omega

/-- A match of `re12` holds 8 digits in its capture groups. -/
theorem re12_countDigits (s : List Char) (h : MatchString re12 s = true) :
    8 ≤ countDigits s := by
  simp only [MatchString, Option.isSome_iff_exists] at h
  obtain ⟨ms, hms⟩ := h
  obtain ⟨pre, rest, a, b, c, t, rfl, -, ha, hb, hc⟩ := re12_shape _ _ hms
  have ka := Digits.countDigits _ _ ha
  have kb := Digits.countDigits _ _ hb
  have kc := Digits.countDigits _ _ hc
  simp only [countDigits_append]
  simp only [countDigits, List.countP_cons, List.countP_append, List.countP_nil] at *
  omega

/-- A match of `re13` holds 17 digits in its capture groups. -/
theorem re13_countDigits (s : List Char) (h : MatchString re13 s = true) :
    17 ≤ countDigits s := by
  simp only [MatchString, Option.isSome_iff_exists] at h
  obtain ⟨ms, hms⟩ := h
  obtain ⟨pre, rest, a, b, c, d, e, f, g, rfl, -, ha, hb, hc, hd, he, hf, hg⟩ := re13_shape _ _ hms
  have ka := Digits.countDigits _ _ ha
  have kb := Digits.countDigits _ _ hb
  have kc := Digits.countDigits _ _ hc
  have kd := Digits.countDigits _ _ hd
  have ke := Digits.countDigits _ _ he
  have kf := Digits.countDigits _ _ hf
  have kg := Digits.countDigits _ _ hg
  simp only [countDigits_append]
  simp only [countDigits, List.countP_cons, List.countP_append, List.countP_nil] at *
  omega

/-- A match of `re9` holds 13 digits in its capture group. -/
theorem re9_countDigits (s : List Char) (h : MatchString re9 s = true) :
    13 ≤ countDigits s := by
  simp only [MatchString, Option.isSome_iff_exists] at h
  obtain ⟨ms, hms⟩ := h
  obtain ⟨pre, rest, lead, a, t, rfl, -, ha, -⟩ := re9_shape _ _ hms
  have ka := Digits.countDigits _ _ ha
  simp only [countDigits_append]
  omega

/-- With fewer than eight digits no detection predicate matches. -/
theorem no_rule_of_few_digits (filename : List Char) (h : countDigits filename < 8) :
    ∀ r ∈ ruleTable, r.detect filename = false := by
  have n1 : MatchString re1 filename = false := by
    by_contra hc
    have := re1_countDigits filename (by simpa using hc)
    omega
  have n2 : MatchString re2 filename = false := by
    by_contra hc
    have := re2_countDigits filename (by simpa using hc)
    omega
  have n3 : MatchString re3 filename = false := by
    by_contra hc
    have := re3_countDigits filename (by simpa using hc)
    omega
  have n4 : MatchString re4 filename = false := by
    by_contra hc
    have := re4_countDigits filename (by simpa using hc)
    omega
  have n5 : MatchString re5 filename = false := by
    by_contra hc
    have := re5_countDigits filename (by simpa using hc)
    omega
  have n6 : MatchString re6 filename = false := by
    by_contra hc
    have := re6_countDigits filename (by simpa using hc)
    omega
  have n7 : MatchString re7 filename = false := by
    by_contra hc
    have := re7_countDigits filename (by simpa using hc)
    omega
  have n8 : MatchString re8 filename = false := by
    by_contra hc
    have := re8_countDigits filename (by simpa using hc)
    omega
  have n9 : MatchString re9 filename = false := by
    by_contra hc
    have := re9_countDigits filename (by simpa using hc)
    omega
  have n10 : MatchString re10 filename = false := by
    by_contra hc
    have := re10_countDigits filename (by simpa using hc)
    omega
  have n11 : MatchString re11 filename = false := by
    by_contra hc
    have := re11_countDigits filename (by simpa using hc)
    omega
  have n12 : MatchString re12 filename = false := by
    by_contra hc
    have := re12_countDigits filename (by simpa using hc)
    omega
  have n13 : MatchString re13 filename = false := by
    by_contra hc
    have := re13_countDigits filename (by simpa using hc)
    omega
  intro r hr
  simp only [ruleTable, List.mem_cons, List.mem_singleton, List.not_mem_nil, or_false] at hr
  rcases hr with rfl | rfl | rfl | rfl | rfl | rfl | rfl | rfl | rfl | rfl | rfl | rfl | rfl <;>
    assumption

/-- C11. For every filename with fewer than eight ASCII decimal digits, no rule's detection
predicate matches, and the call fails with `no valid date found in filename: <filename>`. -/
theorem C11_few_digits_no_pattern (tz : Zone) (filename : List Char)
    (h : countDigits filename < 8) :
    (∀ r ∈ ruleTable, r.detect filename = false) ∧
    extractDateFromFilename tz filename =
      .error ("no valid date found in filename: ".toList ++ filename) := by
  have hall := no_rule_of_few_digits filename h
  refine ⟨hall, ?_⟩
  rw [extract_eq_cascade, cascade]
  have hfind : ruleTable.find? (fun r => r.detect filename) = none := by
    rw [List.find?_eq_none]
    intro r hr
    simp [hall r hr]
  rw [hfind]

/-- C11 at `random_file.png`, which has no digit. -/
theorem C11_few_digits_no_pattern_witness :
    extractDateFromFilename Zone.UTC "random_file.png".toList =
      .error "no valid date found in filename: random_file.png".toList :=
  (C11_few_digits_no_pattern Zone.UTC "random_file.png".toList (by decide)).2

/-! ## C12: the example of rule 13 is taken by rule 12 -/

/-- C12, at `CameraZOOM-20150829144707466.jpg`, which the comment of line 222 gives as the
example of rule 13 (`YYYYMMDDHHMMSSsss` after the dash). The case of rule 12 (line 216) matches
this filename and comes first, so in every local zone the call returns midnight,
`2015-08-29T00:00:00Z`, and not `2015-08-29T14:47:07Z`; the case of rule 13 matches it too and
alone gives `2015-08-29T14:47:07Z`, but is not reached. -/
theorem C12_rule13_example_shadowed_by_rule12 (tz : Zone) :
    firstRule "CameraZOOM-20150829144707466.jpg".toList = some 12 ∧
    extractDateFromFilename tz "CameraZOOM-20150829144707466.jpg".toList =
      .ok "2015-08-29T00:00:00Z".toList ∧
    extractDateFromFilename tz "CameraZOOM-20150829144707466.jpg".toList ≠
      .ok "2015-08-29T14:47:07Z".toList ∧
    MatchString re13 "CameraZOOM-20150829144707466.jpg".toList = true ∧
    Rule.alone ⟨MatchString re13, fun _ => case13⟩ tz
      "CameraZOOM-20150829144707466.jpg".toList = .ok "2015-08-29T14:47:07Z".toList := by
  have he : extractDateFromFilename tz "CameraZOOM-20150829144707466.jpg".toList =
      .ok "2015-08-29T00:00:00Z".toList := by
    rw [(extract_of_firstRule tz "CameraZOOM-20150829144707466.jpg".toList 12 (by decide)
      (by decide)).2]
    decide
  refine ⟨by decide, he, ?_, by decide, ?_⟩
  · rw [he]
    decide
  · obtain ⟨ns, hc, hw⟩ := case13_eq "CameraZOOM-20150829144707466.jpg".toList (by decide)
    simp only [Rule.alone]
    rw [hc, finish_parseResult tz _ _ ns hw]
    decide

/-! ## C13: the extra digits of rule 7 -/

/-- The matches of the pattern of rule 7, with the two digits that end the match. -/
theorem re7_shape_tail (s : List Char) (ms : List (List Char))
    (h : FindStringSubmatch re7 s = some ms) :
    ∃ pre rest a b c d e f x1 x2,
      s = pre ++ ("IMG_".toList ++ a ++ '-' :: b ++ '-' :: c ++ '-' :: d ++ e ++ f ++
        x1 :: x2 :: rest) ∧
      ms = ["IMG_".toList ++ a ++ '-' :: b ++ '-' :: c ++ '-' :: d ++ e ++ f ++ [x1, x2],
        a, b, c, d, e, f] ∧
      Digits 4 a ∧ Digits 2 b ∧ Digits 2 c ∧ Digits 2 d ∧ Digits 2 e ∧ Digits 2 f ∧
      isDigit x1 = true ∧ isDigit x2 = true := by
  obtain ⟨pre, w, rest, caps1, hs, hm, hms⟩ := find_sound _ _ _ h
  have hn : numSubexp re7 = 6 := rfl
  rw [hn, re7] at hm
  obtain ⟨w1, hw1, hm⟩ := matches_cat_str _ _ _ _ _ _ _ hm
  obtain ⟨a, w2, hw2, ha, hm⟩ := matches_cat_group_digits _ _ _ _ _ _ _ _ hm
  obtain ⟨w3, hw3, hm⟩ := matches_cat_lit _ _ _ _ _ _ _ hm
  obtain ⟨b, w4, hw4, hb, hm⟩ := matches_cat_group_digits _ _ _ _ _ _ _ _ hm
  obtain ⟨w5, hw5, hm⟩ := matches_cat_lit _ _ _ _ _ _ _ hm
  obtain ⟨c, w6, hw6, hc, hm⟩ := matches_cat_group_digits _ _ _ _ _ _ _ _ hm
  obtain ⟨w7, hw7, hm⟩ := matches_cat_lit _ _ _ _ _ _ _ hm
  obtain ⟨d, w8, hw8, hd, hm⟩ := matches_cat_group_digits _ _ _ _ _ _ _ _ hm
  obtain ⟨e, w9, hw9, he, hm⟩ := matches_cat_group_digits _ _ _ _ _ _ _ _ hm
  obtain ⟨f, w10, hw10, hf, hm⟩ := matches_cat_group_digits _ _ _ _ _ _ _ _ hm
  have hcaps := matches_caps_of _ _ _ _ _ _ hm rfl
  rw [cat_cons, matches_seq] at hm
  obtain ⟨t, w11, capsMid, hw11, ht, hnil⟩ := hm
  obtain ⟨ht1, ht2, -⟩ := matches_rep_cls _ _ _ _ _ _ _ ht
  obtain ⟨hw12, -⟩ := matches_cat_nil _ _ _ _ _ hnil
  obtain ⟨x1, x2, rfl, hx1, hx2⟩ := digits_two t ⟨ht1, ht2⟩
  refine ⟨pre, rest, a, b, c, d, e, f, x1, x2, ?_, ?_, ha, hb, hc, hd, he, hf, hx1, hx2⟩
  · rw [hs, hw1, hw2, hw3, hw4, hw5, hw6, hw7, hw8, hw9, hw10, hw11, hw12]
    simp
  · rw [hms, hcaps, hw1, hw2, hw3, hw4, hw5, hw6, hw7, hw8, hw9, hw10, hw11, hw12]
    simp [List.replicate]

/-- The pattern of rule 7 matches every text that holds `IMG_YYYY-MM-DD-HHMMSS` followed by two
digits. -/
theorem re7_complete (pre rest a b c d e f : List Char) (x1 x2 : Char)
    (ha : Digits 4 a) (hb : Digits 2 b) (hc : Digits 2 c) (hd : Digits 2 d) (he : Digits 2 e)
    (hf : Digits 2 f) (hx1 : isDigit x1 = true) (hx2 : isDigit x2 = true) :
    MatchString re7 (pre ++ ("IMG_".toList ++ a ++ '-' :: b ++ '-' :: c ++ '-' :: d ++ e ++ f ++
      x1 :: x2 :: rest)) = true := by
  obtain ⟨y1, y2, y3, y4, rfl, hy1, hy2, hy3, hy4⟩ := digits_four _ ha
  obtain ⟨m1, m2, rfl, hm1, hm2⟩ := digits_two _ hb
  obtain ⟨d1, d2, rfl, hd1, hd2⟩ := digits_two _ hc
  obtain ⟨h1, h2, rfl, hh1, hh2⟩ := digits_two _ hd
  obtain ⟨n1, n2, rfl, hn1, hn2⟩ := digits_two _ he
  obtain ⟨s1, s2, rfl, hs1, hs2⟩ := digits_two _ hf
  simp only [MatchString, FindStringSubmatch]
  apply findFrom_isSome_append
  simp [matchRe, re7, cat, digits, rep, lit, str, hy1, hy2, hy3, hy4, hm1, hm2, hd1, hd2,
    hh1, hh2, hn1, hn2, hs1, hs2, hx1, hx2]

/-- C13 fails as stated: in `IMG_2016-07-10-1847267.png` the text `IMG_2016-07-10-184726` is
followed by one extra digit, the fields are valid and none of the rules 1 to 6 matches; rule 7
does not match either, rule 8 does, and the call returns midnight, `2016-07-10T00:00:00Z`. -/
theorem C13_counterexample :
    "IMG_2016-07-10-1847267.png".toList =
      "IMG_2016-07-10-184726".toList ++ '7' :: ".png".toList ∧
    (∀ r ∈ ruleTable.take 6, r.detect "IMG_2016-07-10-1847267.png".toList = false) ∧
    MatchString re7 "IMG_2016-07-10-1847267.png".toList = false ∧
    firstRule "IMG_2016-07-10-1847267.png".toList = some 8 ∧
    extractDateFromFilename Zone.UTC "IMG_2016-07-10-1847267.png".toList =
      .ok "2016-07-10T00:00:00Z".toList ∧
    extractDateFromFilename Zone.UTC "IMG_2016-07-10-1847267.png".toList ≠
      .ok "2016-07-10T18:47:26Z".toList := by
  refine ⟨by decide, by decide, by decide, by decide, by decide, by decide⟩

/-- C13, amended. For every filename that contains `IMG_YYYY-MM-DD-HHMMSS` immediately followed
by two or more extra digits and that matches none of the rules 1 to 6, rule 7 is the first
matching rule; when the fields `c` it captures are valid, the call returns them as
`YYYY-MM-DDTHH:MM:SSZ`, and `c` is read from an occurrence of `IMG_YYYY-MM-DD-HHMMSS` followed
by two digits in the filename, whatever comes after these two digits. -/
theorem C13_rule7_two_extra_digits (tz : Zone) (filename pre rest Y M D h m s : List Char)
    (x1 x2 : Char) (hY : Digits 4 Y) (hM : Digits 2 M) (hD : Digits 2 D) (hh : Digits 2 h)
    (hm : Digits 2 m) (hs : Digits 2 s) (hx1 : isDigit x1 = true) (hx2 : isDigit x2 = true)
    (hf : filename = pre ++ ("IMG_".toList ++ Y ++ '-' :: M ++ '-' :: D ++ '-' :: h ++ m ++ s ++
      x1 :: x2 :: rest))
    (hno : ∀ r ∈ ruleTable.take 6, r.detect filename = false)
    (hv : (captured 7 filename).valid = true) :
    firstRule filename = some 7 ∧
    extractDateFromFilename tz filename = .ok (captured 7 filename).render ∧
    ∃ pre1 rest1 z1 z2, isDigit z1 = true ∧ isDigit z2 = true ∧
      filename = pre1 ++ ("IMG_".toList ++ (captured 7 filename).year ++
        '-' :: (captured 7 filename).month ++ '-' :: (captured 7 filename).day ++
        '-' :: (captured 7 filename).hour ++ (captured 7 filename).minute ++
        (captured 7 filename).second ++ z1 :: z2 :: rest1) := by
  have h7 : MatchString re7 filename = true := by
    rw [hf]
    exact re7_complete pre rest Y M D h m s x1 x2 hY hM hD hh hm hs hx1 hx2
  have hmem : ∀ r ∈ [(⟨MatchString re1, fun _ => case1⟩ : Rule), ⟨MatchString re2, fun _ => case2⟩,
      ⟨MatchString re3, fun _ => case3⟩, ⟨MatchString re4, fun _ => case4⟩,
      ⟨MatchString re5, fun _ => case5⟩, ⟨MatchString re6, fun _ => case6⟩],
      r.detect filename = false := hno
  simp only [List.forall_mem_cons, List.not_mem_nil, false_imp_iff, implies_true,
    and_true] at hmem
  obtain ⟨h1, h2, h3, h4, h5, h6⟩ := hmem
  have hk : firstRule filename = some 7 := by
    simp [firstRule, firstIdx, ruleTable, h1, h2, h3, h4, h5, h6, h7]
  refine ⟨hk, ?_, ?_⟩
  · rw [(extract_of_firstRule tz filename 7 hk (by decide)).2, if_pos hv]
  · have h7x := h7
    simp only [MatchString, Option.isSome_iff_exists] at h7x
    obtain ⟨ms, hms⟩ := h7x
    obtain ⟨pre1, rest1, a, b, c, d, e, f, z1, z2, hfs, hmsv, -, -, -, -, -, -, hz1, hz2⟩ :=
      re7_shape_tail _ _ hms
    refine ⟨pre1, rest1, z1, z2, hz1, hz2, ?_⟩
    have hcap : captured 7 filename = ⟨a, b, c, d, e, f⟩ := by
      simp [captured, extraction, submatches, hms, hmsv, fieldsOf]
    rw [hcap]
    exact hfs

/-- C13 at `IMG_2016-07-10-18472672.png`, the example of line 178, which gives
`2016-07-10T18:47:26Z`. -/
theorem C13_rule7_two_extra_digits_witness :
    firstRule "IMG_2016-07-10-18472672.png".toList = some 7 ∧
    extractDateFromFilename Zone.UTC "IMG_2016-07-10-18472672.png".toList =
      .ok "2016-07-10T18:47:26Z".toList :=
  have w := C13_rule7_two_extra_digits Zone.UTC "IMG_2016-07-10-18472672.png".toList []
    ".png".toList "2016".toList "07".toList "10".toList "18".toList "47".toList "26".toList
    '7' '2' ⟨rfl, by decide⟩ ⟨rfl, by decide⟩ ⟨rfl, by decide⟩ ⟨rfl, by decide⟩
    ⟨rfl, by decide⟩ ⟨rfl, by decide⟩ (by decide) (by decide) (by decide) (by decide) (by decide)
  ⟨w.1, w.2.1⟩

/-! ## C14: the 13 digits of the epoch rule -/

theorem starMatches_cls (n : Nat) (p : Char → Bool) (w rest : List Char)
    (caps caps1 : List (List Char)) (h : StarMatches (Matches n (.cls p)) w rest caps caps1) :
    ∀ c ∈ w, p c = true := by
  induction h with
  | done rest caps =>
    intro c hc
    cases hc
  | more w1 w2 rest caps caps1 caps2 h1 _ ih =>
    obtain ⟨x, hx, hp, -⟩ := (matches_cls _ _ _ _ _ _).mp h1
    intro c hc
    rw [hx] at hc
    rcases List.mem_append.mp hc with h | h
    · rw [List.mem_singleton.mp h]
      exact hp
    · exact ih c h

/-- What follows the 13 digits in a match of the pattern of rule 9: runes that are neither
digits, nor spaces, nor dots, then a dot and the extension, up to the end of the text. -/
theorem re9_tail (n : Nat) (w rest : List Char) (caps caps1 : List (List Char))
    (h : Matches n (cat [opt (.star (.cls (fun c => !(isDigit c || isSpace c || c == '.')))),
      dotExt, .eot]) w rest caps caps1) :
    ∃ u e, w = u ++ '.' :: e ∧ (∀ c ∈ u, isDigit c = false) ∧ rest = [] := by
  rw [cat_cons, matches_seq] at h
  obtain ⟨u, w1, capsMid, hw, hu, h⟩ := h
  rw [cat_cons, matches_seq] at h
  obtain ⟨w2, w3, capsMid2, hw1, hdot, h⟩ := h
  rw [cat_cons, matches_seq] at h
  obtain ⟨w4, w5, capsMid3, hw3, heot, hnil⟩ := h
  obtain ⟨hw5, -⟩ := matches_cat_nil _ _ _ _ _ hnil
  obtain ⟨hw4, hrest, -⟩ := heot
  rw [dotExt, matches_seq] at hdot
  obtain ⟨d, e, capsMid4, hw2, hd, -⟩ := hdot
  obtain ⟨hd1, -⟩ := matches_lit _ _ _ _ _ _ hd
  refine ⟨u, e ++ w3, ?_, ?_, ?_⟩
  · rw [hw, hw1, hw2, hd1]
    simp
  · rcases hu with hs | he
    · intro c hc
      have hp := starMatches_cls _ _ _ _ _ _ hs c hc
      simp only [Bool.not_eq_true', Bool.or_eq_false_iff] at hp
      exact hp.1.1
    · obtain ⟨hu0, -⟩ := he
      rw [hu0]
      intro c hc
      cases hc
  · rw [hw5] at hrest
    simpa using hrest

/-- The matches of the pattern of rule 9, with what surrounds the 13 digits. -/
theorem re9_shape_tail (s : List Char) (ms : List (List Char))
    (h : FindStringSubmatch re9 s = some ms) :
    ∃ pre a post, s = pre ++ a ++ post ∧ ms[1]? = some a ∧ Digits 13 a ∧
      (pre = [] ∨ ∃ p x, pre = p ++ [x] ∧ isDigit x = false) ∧
      (∃ c r, post = c :: r ∧ isDigit c = false) := by
  obtain ⟨pre, w, rest, caps1, hs, hm, hms⟩ := find_sound _ _ _ h
  have hn : numSubexp re9 = 1 := rfl
  rw [hn, re9, cat_cons, matches_seq] at hm
  obtain ⟨lead, w1, capsMid, hw, hlead, hm⟩ := hm
  have hcm := matches_caps_of _ _ _ _ _ _ hlead rfl
  rw [hcm] at hm
  obtain ⟨a, w2, hw2, ha, hm⟩ := matches_cat_group_digits _ _ _ _ _ _ _ _ hm
  have hcaps := matches_caps_of _ _ _ _ _ _ hm rfl
  obtain ⟨u, e, hw2e, hu, hrest⟩ := re9_tail _ _ _ _ _ hm
  refine ⟨pre ++ lead, a, w2 ++ rest, ?_, ?_, ha, ?_, ?_⟩
  · rw [hs, hw, hw2]
    simp
  · rw [hms, hcaps]
    simp [List.replicate]
  · rcases hlead with hb | hc
    · obtain ⟨hl, hlen, -⟩ := hb
      left
      rw [hs, hw, hl] at hlen
      simp at hlen
      rw [hl, hlen]
      rfl
    · obtain ⟨c, hl, hc, -⟩ := hc
      right
      have hn : (!isDigit c) = true := hc
      exact ⟨pre, c, by rw [hl], by simpa using hn⟩
  · rw [hw2e]
    cases u with
    | nil => exact ⟨'.', e ++ rest, by simp, by decide⟩
    | cons c u => exact ⟨c, u ++ '.' :: e ++ rest, by simp, hu c (List.mem_cons_self _ _)⟩

/-- A run of digits that a non-digit follows is closed as one run. -/
theorem runsAux_run (a : List Char) (ha : ∀ c ∈ a, isDigit c = true) (c : Char)
    (hc : isDigit c = false) (r : List Char) :
    ∀ cur, cur ++ a ≠ [] → runsAux (a ++ c :: r) cur = (cur ++ a) :: runsAux r [] := by
  induction a with
  | nil =>
    intro cur hne
    have hcur : cur ≠ [] := by simpa using hne
    simp [runsAux, hc, hcur]
  | cons d a ih =>
    intro cur _
    have hd : isDigit d = true := ha d (List.mem_cons_self _ _)
    have h := ih (fun x hx => ha x (List.mem_cons_of_mem _ hx)) (cur ++ [d]) (by simp)
    simp only [List.cons_append, runsAux, hd, if_true, List.append_eq]
    rw [h]
    simp

/-- After a non-digit, the runs are those of the rest of the text. -/
theorem runsAux_prefix (x : Char) (hx : isDigit x = false) (s : List Char) :
    ∀ p cur, ∃ l, runsAux (p ++ x :: s) cur = l ++ runsAux s [] := by
  intro p
  induction p with
  | nil =>
    intro cur
    by_cases hcur : cur = []
    · exact ⟨[], by simp [runsAux, hx, hcur]⟩
    · exact ⟨[cur], by simp [runsAux, hx, hcur]⟩
  | cons d p ih =>
    intro cur
    by_cases hd : isDigit d = true
    · obtain ⟨l, hl⟩ := ih (cur ++ [d])
      exact ⟨l, by simp only [List.cons_append, runsAux, hd, if_true, List.append_eq, hl]⟩
    · obtain ⟨l, hl⟩ := ih []
      by_cases hcur : cur = []
      · exact ⟨l, by simp [runsAux, hd, hcur, hl]⟩
      · exact ⟨cur :: l, by simp [runsAux, hd, hcur, hl]⟩

/-- A nonempty run of digits between the start of the text or a non-digit and a non-digit is
one of the maximal digit runs of the text. -/
theorem mem_digitRuns (pre a post : List Char) (ha : ∀ c ∈ a, isDigit c = true) (hne : a ≠ [])
    (hpre : pre = [] ∨ ∃ p x, pre = p ++ [x] ∧ isDigit x = false)
    (hpost : ∃ c r, post = c :: r ∧ isDigit c = false) :
    a ∈ digitRuns (pre ++ a ++ post) := by
  obtain ⟨c, r, rfl, hc⟩ := hpost
  rcases hpre with rfl | ⟨p, x, rfl, hx⟩
  · simp only [digitRuns, List.nil_append]
    rw [runsAux_run a ha c hc r [] (by simpa using hne)]
    simp
  · obtain ⟨l, hl⟩ := runsAux_prefix x hx (a ++ c :: r) p []
    have he : p ++ [x] ++ a ++ c :: r = p ++ x :: (a ++ c :: r) := by simp
    rw [digitRuns, he, hl, runsAux_run a ha c hc r [] (by simpa using hne)]
    simp

/-- C14. For every filename, where the detection pattern of rule 9 matches, the 13 digits it
captures stand between the start of the name or a non-digit and a non-digit, and are one of the
maximal digit runs of the name; and where no maximal digit run has length 13, the pattern of
rule 9 does not match, so that rule 9 is not the rule applied. -/
theorem C14_epoch_digits_maximal_run (filename : List Char) :
    (MatchString re9 filename = true →
      ∃ pre a post, filename = pre ++ a ++ post ∧ (submatches re9 filename)[1]? = some a ∧
        Digits 13 a ∧ (pre = [] ∨ ∃ p x, pre = p ++ [x] ∧ isDigit x = false) ∧
        (∃ c r, post = c :: r ∧ isDigit c = false) ∧ a ∈ digitRuns filename) ∧
    ((∀ r ∈ digitRuns filename, r.length ≠ 13) →
      MatchString re9 filename = false ∧ firstRule filename ≠ some 9) := by
  have key : MatchString re9 filename = true →
      ∃ pre a post, filename = pre ++ a ++ post ∧ (submatches re9 filename)[1]? = some a ∧
        Digits 13 a ∧ (pre = [] ∨ ∃ p x, pre = p ++ [x] ∧ isDigit x = false) ∧
        (∃ c r, post = c :: r ∧ isDigit c = false) ∧ a ∈ digitRuns filename := by
    intro h
    simp only [MatchString, Option.isSome_iff_exists] at h
    obtain ⟨ms, hms⟩ := h
    obtain ⟨pre, a, post, hf, h1, ha, hpre, hpost⟩ := re9_shape_tail _ _ hms
    refine ⟨pre, a, post, hf, ?_, ha, hpre, hpost, ?_⟩
    · simp only [submatches, hms, Option.getD_some]
      exact h1
    · have hne : a ≠ [] := by
        intro h0
        have := ha.1
        rw [h0] at this
        cases this
      rw [hf]
      exact mem_digitRuns pre a post ha.2 hne hpre hpost
  refine ⟨key, ?_⟩
  intro hall
  have hno : MatchString re9 filename = false := by
    cases hm : MatchString re9 filename with
    | false => rfl
    | true =>
      obtain ⟨pre, a, post, -, -, ha, -, -, hmem⟩ := key hm
      exact absurd ha.1 (hall a hmem)
  refine ⟨hno, ?_⟩
  intro hk
  have h9 := (extract_of_firstRule_nine Zone.UTC filename hk).1
  rw [hno] at h9
  cases h9

/-- C14 at `1483613738152.jpg`, whose only digit run is the 13 digits rule 9 captures, and at
`BURST20190113203829.jpg` and `CameraZOOM-20150829144707466.jpg`, whose digit runs have 14 and
17 digits. -/
theorem C14_epoch_digits_maximal_run_witness :
    (∃ pre a post, "1483613738152.jpg".toList = pre ++ a ++ post ∧
      (submatches re9 "1483613738152.jpg".toList)[1]? = some a ∧
      Digits 13 a ∧ (pre = [] ∨ ∃ p x, pre = p ++ [x] ∧ isDigit x = false) ∧
      (∃ c r, post = c :: r ∧ isDigit c = false) ∧ a ∈ digitRuns "1483613738152.jpg".toList) ∧
    digitRuns "BURST20190113203829.jpg".toList = ["20190113203829".toList] ∧
    (MatchString re9 "BURST20190113203829.jpg".toList = false ∧
      firstRule "BURST20190113203829.jpg".toList ≠ some 9) ∧
    digitRuns "CameraZOOM-20150829144707466.jpg".toList = ["20150829144707466".toList] ∧
    (MatchString re9 "CameraZOOM-20150829144707466.jpg".toList = false ∧
      firstRule "CameraZOOM-20150829144707466.jpg".toList ≠ some 9) :=
  ⟨(C14_epoch_digits_maximal_run "1483613738152.jpg".toList).1 (by decide),
    by decide,
    (C14_epoch_digits_maximal_run "BURST20190113203829.jpg".toList).2 (by decide),
    by decide,
    (C14_epoch_digits_maximal_run "CameraZOOM-20150829144707466.jpg".toList).2 (by decide)⟩

/-! ## C15: overflow of the nanosecond count -/

/-- Days from 1800-01-01 on, by the year. -/
theorem daysFromCivil_1800 (y : Int) (m d : Nat) (hm : 1 ≤ m ∧ m ≤ 12) (hd : 1 ≤ d ∧ d ≤ 31) :
    1800 ≤ y → -62091 ≤ daysFromCivil y m d := by
  simp only [daysFromCivil]
  obtain ⟨hm1, hm2⟩ := hm
  interval_cases m <;> simp <;> omega

/-- A day before 1800-01-01 lies in a year before 1800. -/
theorem year_lt_1800 (z : Int) (hz : z < -62091) : (civilFromDays z).year < 1800 := by
  obtain ⟨h1, h2, h3, h4⟩ := daysFromCivil_civilFromDays z
  obtain ⟨-, -, -, h5⟩ := civilFromDays_bounds z
  have a1 := daysFromCivil_1800 (civilFromDays z).year _ _ ⟨h2, h3⟩ ⟨h4, h5⟩
  rw [h1] at a1
  by_contra hc
  have := a1 (by omega)
  omega

/-- C15. In the epoch rule 9, with `v` the value of the 13 captured digits: when
`v ≥ 9223372036855` the product `v * 1000000` exceeds the largest `int64`, the `int64` product
is `v * 1000000 - 2^64`, a negative count of nanoseconds whose instant lies before year 1800 in
UTC and in the local zone, and the call fails with `invalid unix timestamp in filename:
<filename>`; when `v < 9223372036855` the `int64` product is `v * 1000000`. -/
theorem C15_epoch_overflow (tz : Zone) (filename : List Char)
    (hk : firstRule filename = some 9) :
    ∃ a, (submatches re9 filename)[1]? = some a ∧ Digits 13 a ∧
      (9223372036855 ≤ decimal a →
        9223372036854775807 < ((decimal a : Nat) : Int) * 1000000 ∧
        wrapInt64 ((decimal a : Nat) * 1000000) =
          ((decimal a : Nat) : Int) * 1000000 - 18446744073709551616 ∧
        wrapInt64 ((decimal a : Nat) * 1000000) < 0 ∧
        (Unix 0 (wrapInt64 ((decimal a : Nat) * 1000000))).UTC.Year tz < 1800 ∧
        (Unix 0 (wrapInt64 ((decimal a : Nat) * 1000000))).Year tz < 1800 ∧
        extractDateFromFilename tz filename =
          .error ("invalid unix timestamp in filename: ".toList ++ filename)) ∧
      (decimal a < 9223372036855 →
        ((decimal a : Nat) : Int) * 1000000 ≤ 9223372036854775807 ∧
        wrapInt64 ((decimal a : Nat) * 1000000) = ((decimal a : Nat) : Int) * 1000000) := by
  obtain ⟨a, h1, ha, he⟩ := extract_epoch tz filename hk
  obtain ⟨-, hlt⟩ := ParseInt_thirteen a ha
  refine ⟨a, h1, ha, ?_, ?_⟩
  · intro hv
    generalize decimal a = v at hlt hv he
    have hw := wrapInt64_of_ge ((v : Int) * 1000000) (by omega)
    have hutc : (Unix 0 (wrapInt64 ((v : Int) * 1000000))).UTC.Year tz < 1800 := by
      rw [hw]
      simp only [Time.Year, Time.date, Time.wall, Unix, Time.UTC]
      apply year_lt_1800
      omega
    have hloc : (Unix 0 (wrapInt64 ((v : Int) * 1000000))).Year tz < 1800 := by
      rw [hw]
      simp only [Time.Year, Time.date, Time.wall, Unix]
      apply year_lt_1800
      have hb := tz.bounded (0 + ((v : Int) * 1000000 - 18446744073709551616) / 1000000000)
      omega
    refine ⟨by omega, hw, by rw [hw]; omega, hutc, hloc, ?_⟩
    rw [he, if_neg]
    intro hg
    omega
  · intro hv
    generalize decimal a = v at hlt hv he
    exact ⟨by omega, wrapInt64_of_lt _ (by omega)⟩

/-- C15 at `9223372036855.jpg`, the least overflowing value, and at `9223372036854.jpg`, the
value before it, which decodes to year 2262 and fails the year guard without overflow. -/
theorem C15_epoch_overflow_witness :
    firstRule "9223372036855.jpg".toList = some 9 ∧
    (∃ a, (submatches re9 "9223372036855.jpg".toList)[1]? = some a ∧ Digits 13 a ∧
      (9223372036855 ≤ decimal a →
        9223372036854775807 < ((decimal a : Nat) : Int) * 1000000 ∧
        wrapInt64 ((decimal a : Nat) * 1000000) =
          ((decimal a : Nat) : Int) * 1000000 - 18446744073709551616 ∧
        wrapInt64 ((decimal a : Nat) * 1000000) < 0 ∧
        (Unix 0 (wrapInt64 ((decimal a : Nat) * 1000000))).UTC.Year Zone.UTC < 1800 ∧
        (Unix 0 (wrapInt64 ((decimal a : Nat) * 1000000))).Year Zone.UTC < 1800 ∧
        extractDateFromFilename Zone.UTC "9223372036855.jpg".toList =
          .error ("invalid unix timestamp in filename: ".toList ++
            "9223372036855.jpg".toList)) ∧
      (decimal a < 9223372036855 →
        ((decimal a : Nat) : Int) * 1000000 ≤ 9223372036854775807 ∧
        wrapInt64 ((decimal a : Nat) * 1000000) = ((decimal a : Nat) : Int) * 1000000)) ∧
    decimal "9223372036855".toList = 9223372036855 ∧
    wrapInt64 (9223372036855 * 1000000) = -9223372036854551616 ∧
    (Unix 0 (wrapInt64 (9223372036855 * 1000000))).UTC.Year Zone.UTC = 1677 ∧
    extractDateFromFilename Zone.UTC "9223372036855.jpg".toList =
      .error "invalid unix timestamp in filename: 9223372036855.jpg".toList ∧
    wrapInt64 (9223372036854 * 1000000) = 9223372036854000000 ∧
    (Unix 0 (wrapInt64 (9223372036854 * 1000000))).UTC.Year Zone.UTC = 2262 :=
  ⟨by decide, C15_epoch_overflow Zone.UTC "9223372036855.jpg".toList (by decide),
    by decide, by decide, by decide, by decide, by decide, by decide⟩

/-! ## C16: the capture lists -/

theorem starMatches_length
    (R : List Char → List Char → List (List Char) → List (List Char) → Prop)
    (hR : ∀ w rest caps caps1, R w rest caps caps1 → caps1.length = caps.length)
    (w rest : List Char) (caps caps1 : List (List Char)) (h : StarMatches R w rest caps caps1) :
    caps1.length = caps.length := by
  induction h with
  | done => rfl
  | more w1 w2 rest caps capsA capsB h1 _ ih => rw [ih, hR _ _ _ _ h1]

/-- A match keeps the number of capture slots. -/
theorem matches_length (n : Nat) (re : Regex) :
    ∀ w rest caps caps1, Matches n re w rest caps caps1 → caps1.length = caps.length := by
  induction re with
  | cls p =>
    intro w rest caps caps1 h
    obtain ⟨_, _, _, hc⟩ := h
    rw [hc]
  | eps =>
    intro w rest caps caps1 h
    rw [h.2]
  | seq a b iha ihb =>
    intro w rest caps caps1 h
    obtain ⟨w1, w2, capsMid, _, h1, h2⟩ := h
    rw [ihb _ _ _ _ h2, iha _ _ _ _ h1]
  | alt a b iha ihb =>
    intro w rest caps caps1 h
    rcases h with h | h
    · exact iha _ _ _ _ h
    · exact ihb _ _ _ _ h
  | star a iha =>
    intro w rest caps caps1 h
    exact starMatches_length _ iha _ _ _ _ h
  | group i a iha =>
    intro w rest caps caps1 h
    obtain ⟨capsIn, h1, h2⟩ := h
    rw [h2, List.length_set, iha _ _ _ _ h1]
  | bot =>
    intro w rest caps caps1 h
    rw [h.2.2]
  | eot =>
    intro w rest caps caps1 h
    rw [h.2.2]

/-- Where a pattern matches, `FindStringSubmatch` returns one entry for the whole match and one
for each capture group. -/
theorem submatches_length (re : Regex) (filename : List Char)
    (h : MatchString re filename = true) :
    (submatches re filename).length = numSubexp re + 1 := by
  simp only [MatchString, Option.isSome_iff_exists] at h
  obtain ⟨ms, hms⟩ := h
  obtain ⟨pre, w, rest, caps1, -, hm, hv⟩ := find_sound _ _ _ hms
  simp only [submatches, hms, Option.getD_some]
  rw [hv, List.length_set, matches_length _ _ _ _ _ _ hm, List.length_replicate]

/-- Where the detection pattern of rule `k` matches, so does the pattern it extracts with. -/
theorem extraction_of_detection (k : Nat) (filename : List Char)
    (h : MatchString (detection k) filename = true) :
    MatchString (extraction k) filename = true := by
  by_cases h8 : k = 8
  · subst h8
    exact re8x_of_re8 filename h
  · have hd : detection k = extraction k := by
      unfold detection
      split
      · exact absurd rfl h8
      · rfl
    rw [← hd]
    exact h

/-- The epoch rule 9 does not index out of range. -/
theorem case9_ne_panicked (tz : Zone) (filename : List Char)
    (h : MatchString re9 filename = true) : case9 tz filename ≠ .panicked := by
  simp only [MatchString, Option.isSome_iff_exists] at h
  obtain ⟨ms, hms⟩ := h
  obtain ⟨pre, rest, lead, a, t, -, rfl, ha, -⟩ := re9_shape _ _ hms
  obtain ⟨hp, -⟩ := ParseInt_thirteen a ha
  have hlen : [lead ++ a ++ t, a].length > 1 := by simp
  simp only [case9, submatches, hms, Option.getD_some, if_pos hlen,
    List.getElem?_cons_succ, List.getElem?_cons_zero, hp, ge_iff_le]
  split
  · intro hc
    cases hc
  · intro hc
    cases hc

/-- Fields of the widths of a date and time that render to a given text are the pieces of that
text. -/
theorem render_zero (c : Fields) (hc : c.WellFormed)
    (h : c.render = "0001-01-01T00:00:00Z".toList) :
    c = ⟨"0001".toList, "01".toList, "01".toList, "00".toList, "00".toList, "00".toList⟩ := by
  obtain ⟨Y, M, D, hh, mm, ss⟩ := c
  obtain ⟨hy, hm, hd, hh1, hn, hs⟩ := hc
  obtain ⟨y1, y2, y3, y4, ey, -⟩ := digits_four _ hy
  obtain ⟨m1, m2, em, -⟩ := digits_two _ hm
  obtain ⟨d1, d2, ed, -⟩ := digits_two _ hd
  obtain ⟨h1, h2, eh, -⟩ := digits_two _ hh1
  obtain ⟨n1, n2, en, -⟩ := digits_two _ hn
  obtain ⟨s1, s2, es, -⟩ := digits_two _ hs
  simp only at ey em ed eh en es
  subst ey em ed eh en es
  simp [Fields.render] at h
  obtain ⟨a1, a2, a3, a4, a5, a6, a7, a8, a9, a10, a11, a12, a13, a14⟩ := h
  subst a1 a2 a3 a4 a5 a6 a7 a8 a9 a10 a11 a12 a13 a14
  rfl

/-- C16. For every filename and every rule `k` whose detection pattern matches, the capture list
the extraction of rule `k` reads has one entry more than the extraction pattern has capture
groups, rule 8 included, and the case of the rule does not index out of range; the call never
panics; the `len(matches)` guards of rules 9 to 13 hold; and a call that returns
`0001-01-01T00:00:00Z` under one of the rules 10 to 13 has read these fields in the filename. -/
theorem C16_captures_complete (tz : Zone) (filename : List Char) :
    (∀ k, 1 ≤ k → k ≤ 13 → MatchString (detection k) filename = true →
      (submatches (extraction k) filename).length = numSubexp (extraction k) + 1 ∧
      submatches (extraction k) filename ≠ []) ∧
    (∀ r ∈ ruleTable, r.detect filename = true → r.run tz filename ≠ .panicked) ∧
    extractDateFromFilename tz filename ≠ .indexOutOfRange ∧
    (MatchString re9 filename = true → (submatches re9 filename).length > 1) ∧
    (MatchString re10 filename = true → (submatches re10 filename).length = 3) ∧
    (MatchString re11 filename = true → (submatches re11 filename).length = 3) ∧
    (MatchString re12 filename = true → (submatches re12 filename).length = 4) ∧
    (MatchString re13 filename = true → (submatches re13 filename).length = 8) ∧
    (∀ k, 10 ≤ k → firstRule filename = some k →
      extractDateFromFilename tz filename = .ok "0001-01-01T00:00:00Z".toList →
      captured k filename =
        ⟨"0001".toList, "01".toList, "01".toList, "00".toList, "00".toList, "00".toList⟩) := by
  refine ⟨?_, ?_, ?_, ?_, ?_, ?_, ?_, ?_, ?_⟩
  · intro k _ _ h
    have hl := submatches_length _ _ (extraction_of_detection k filename h)
    refine ⟨hl, ?_⟩
    intro h0
    rw [h0] at hl
    cases hl
  · simp only [ruleTable, List.forall_mem_cons, List.not_mem_nil, false_imp_iff, implies_true,
      and_true]
    refine ⟨?_, ?_, ?_, ?_, ?_, ?_, ?_, ?_, ?_, ?_, ?_, ?_, ?_⟩
    · intro h
      obtain ⟨ns, hc, -⟩ := case1_eq filename h
      simp only [hc, assign]
      exact Branch.noConfusion
    · intro h
      obtain ⟨ns, hc, -⟩ := case2_eq filename h
      simp only [hc, assign]
      exact Branch.noConfusion
    · intro h
      obtain ⟨ns, hc, -⟩ := case3_eq filename h
      simp only [hc, assign]
      exact Branch.noConfusion
    · intro h
      obtain ⟨ns, hc, -⟩ := case4_eq filename h
      simp only [hc, assign]
      exact Branch.noConfusion
    · intro h
      obtain ⟨ns, hc, -⟩ := case5_eq filename h
      simp only [hc, assign]
      exact Branch.noConfusion
    · intro h
      obtain ⟨ns, hc, -⟩ := case6_eq filename h
      simp only [hc, assign]
      exact Branch.noConfusion
    · intro h
      obtain ⟨ns, hc, -⟩ := case7_eq filename h
      simp only [hc, assign]
      exact Branch.noConfusion
    · intro h
      obtain ⟨ns, hc, -⟩ := case8_eq filename h
      simp only [hc, assign]
      exact Branch.noConfusion
    · intro h
      exact case9_ne_panicked tz filename h
    · intro h
      obtain ⟨ns, hc, -⟩ := case10_eq filename h
      simp only [hc, assign]
      exact Branch.noConfusion
    · intro h
      obtain ⟨ns, hc, -⟩ := case11_eq filename h
      simp only [hc, assign]
      exact Branch.noConfusion
    · intro h
      obtain ⟨ns, hc, -⟩ := case12_eq filename h
      simp only [hc, assign]
      exact Branch.noConfusion
    · intro h
      obtain ⟨ns, hc, -⟩ := case13_eq filename h
      simp only [hc, assign]
      exact Branch.noConfusion
  · cases hk : firstRule filename with
    | none =>
      rw [extract_of_firstRule_none tz filename hk]
      exact Outcome.noConfusion
    | some k =>
      by_cases h9 : k = 9
      · subst h9
        obtain ⟨a, -, -, he⟩ := extract_epoch tz filename hk
        rw [he]
        split
        · exact Outcome.noConfusion
        · exact Outcome.noConfusion
      · rw [(extract_of_firstRule tz filename k hk h9).2]
        split
        · exact Outcome.noConfusion
        · exact Outcome.noConfusion
  · intro h
    rw [submatches_length _ _ h]
    decide
  · intro h
    rw [submatches_length _ _ h]
    rfl
  · intro h
    rw [submatches_length _ _ h]
    rfl
  · intro h
    rw [submatches_length _ _ h]
    rfl
  · intro h
    rw [submatches_length _ _ h]
    rfl
  · intro k hk10 hk he
    obtain ⟨hwf, hx⟩ := extract_of_firstRule tz filename k hk (by omega)
    rw [hx] at he
    split at he
    · exact render_zero _ hwf (Outcome.ok.inj he)
    · cases he

/-- C16 at `2014-09-18.jpg`, where rule 8 detects with one pattern and reads the four entries
of the other, and at `BURST00010101000000.jpg`, whose zero-time result is what the name holds. -/
theorem C16_captures_complete_witness :
    (submatches (extraction 8) "2014-09-18.jpg".toList).length = 4 ∧
    extractDateFromFilename Zone.UTC "BURST00010101000000.jpg".toList =
      .ok "0001-01-01T00:00:00Z".toList ∧
    captured 10 "BURST00010101000000.jpg".toList =
      ⟨"0001".toList, "01".toList, "01".toList, "00".toList, "00".toList, "00".toList⟩ :=
  ⟨((C16_captures_complete Zone.UTC "2014-09-18.jpg".toList).1 8 (by decide) (by decide)
      (by decide)).1,
    by decide,
    (C16_captures_complete Zone.UTC "BURST00010101000000.jpg".toList).2.2.2.2.2.2.2.2 10
      (by decide) (by decide) (by decide)⟩

/-! ## C17: rule 4 is shadowed by rule 2 -/

/-- The classes `[-_]` and `[_-]` hold the same runes, so the patterns of rules 2 and 4 are the
same regular expression. -/
theorem re4_eq_re2 : re4 = re2 := by
  have h : (fun c : Char => c == '-' || c == '_') = (fun c : Char => c == '_' || c == '-') := by
    funext c
    exact Bool.or_comm _ _
  simp only [re4, re2, h]

/-- C17. For every filename the detection predicate of rule 4 matches if and only if that of
rule 2 matches; rule 4 is never the first matching rule, and the function without the case of
rule 4 returns the same outcome on every input. The example `photo-20211225-153045.jpg` of
rule 4 is handled by rule 2 and gives `2021-12-25T15:30:45Z`. -/
theorem C17_rule4_is_shadowed (tz : Zone) (filename : List Char) :
    (MatchString re4 filename = true ↔ MatchString re2 filename = true) ∧
    firstRule filename ≠ some 4 ∧
    extractWithoutRule4 tz filename = extractDateFromFilename tz filename ∧
    firstRule "photo-20211225-153045.jpg".toList = some 2 ∧
    extractDateFromFilename tz "photo-20211225-153045.jpg".toList =
      .ok "2021-12-25T15:30:45Z".toList := by
  refine ⟨by rw [re4_eq_re2], ?_, ?_, by decide, ?_⟩
  · intro h
    simp only [firstRule, firstIdx, ruleTable, re4_eq_re2] at h
    by_cases h1 : MatchString re1 filename = true
    · simp [h1] at h
    · by_cases h2 : MatchString re2 filename = true
      · simp [h1, h2] at h
      · by_cases h3 : MatchString re3 filename = true
        · simp [h1, h2, h3] at h
        · simp only [h1, h2, h3, Bool.false_eq_true, if_false] at h
          repeat' split at h
          all_goals simp at h
  · simp only [extractWithoutRule4, switchCasesWithoutRule4, extractDateFromFilename,
      switchCases, re4_eq_re2]
    by_cases h2 : MatchString re2 filename = true
    · simp only [h2, if_true]
    · simp only [h2, Bool.false_eq_true, if_false]
  · have he := (extract_of_firstRule tz "photo-20211225-153045.jpg".toList 2 (by decide)
      (by decide)).2
    rw [he]
    decide

/-! ## C1: the switch and the rule table of the specification -/

/-- The epoch row of the specification and the epoch rule of the code agree in a process whose
local zone is UTC. -/
theorem extract_epoch_spec (filename : List Char) (hk : firstRule filename = some 9) :
    extractDateFromFilename Zone.UTC filename =
      SpecRule.apply ⟨re9, .epochMillis⟩ filename := by
  obtain ⟨a, h1, ha, he⟩ := extract_epoch_utc filename hk
  obtain ⟨-, hlt⟩ := ParseInt_thirteen a ha
  have hg : (submatches re9 filename).getD 1 [] = a := by
    rw [List.getD_eq_getElem?_getD, h1]
    rfl
  rw [he]
  simp only [SpecRule.apply, hg]
  generalize decimal a = v at hlt
  have hf := format_layoutISO Zone.UTC (Time.mk ((v : Int) / 1000) ((v : Int) % 1000 * 1000000) .utc)
  simp only [Time.UTC] at hf
  by_cases hr : 1262304000000 ≤ v ∧ v ≤ 1704067199999
  · have hy : 2010 ≤ (civilFromDays ((v : Int) / 1000 / 86400)).year ∧
        (civilFromDays ((v : Int) / 1000 / 86400)).year ≤ 2023 :=
      (year_guard_iff _).mpr (by omega)
    rw [if_pos hr, if_pos hy, hf]
    rfl
  · have hy : ¬ (2010 ≤ (civilFromDays ((v : Int) / 1000 / 86400)).year ∧
        (civilFromDays ((v : Int) / 1000 / 86400)).year ≤ 2023) := by
      intro h
      have := (year_guard_iff _).mp h
      omega
    rw [if_neg hr, if_neg hy]

/-- Where the code and the specification agree. For every filename and local zone, the call
returns what the first matching rule of the table of the specification produces on its own, and
the NoPatternMatched failure when none matches, provided that, when rule 8 is the first matching
rule, the fields line 185 reads are those of the text line 184 detected, and that, when rule 9
is, the local zone is UTC. -/
theorem extract_eq_specExtract (tz : Zone) (filename : List Char)
    (hfields : firstRule filename = some 8 →
      captured 8 filename = SpecCapture.dateOnly.fields (submatches re8 filename))
    (hzone : firstRule filename = some 9 → tz = Zone.UTC) :
    extractDateFromFilename tz filename = specExtract filename := by
  simp only [specExtract, specTable, List.find?]
  by_cases h1 : MatchString re1 filename = true
  · have hk : firstRule filename = some 1 := by
      simp [firstRule, firstIdx, ruleTable, h1]
    simp only [h1]
    rw [(extract_of_firstRule tz filename 1 hk (by decide)).2]
    rfl
  simp only [Bool.not_eq_true] at h1
  simp only [h1]
  by_cases h2 : MatchString re2 filename = true
  · have hk : firstRule filename = some 2 := by
      simp [firstRule, firstIdx, ruleTable, h1, h2]
    simp only [h2]
    rw [(extract_of_firstRule tz filename 2 hk (by decide)).2]
    rfl
  simp only [Bool.not_eq_true] at h2
  simp only [h2]
  by_cases h3 : MatchString re3 filename = true
  · have hk : firstRule filename = some 3 := by
      simp [firstRule, firstIdx, ruleTable, h1, h2, h3]
    simp only [h3]
    rw [(extract_of_firstRule tz filename 3 hk (by decide)).2]
    rfl
  simp only [Bool.not_eq_true] at h3
  simp only [h3]
  by_cases h4 : MatchString re4 filename = true
  · have hk : firstRule filename = some 4 := by
      simp [firstRule, firstIdx, ruleTable, h1, h2, h3, h4]
    simp only [h4]
    rw [(extract_of_firstRule tz filename 4 hk (by decide)).2]
    rfl
  simp only [Bool.not_eq_true] at h4
  simp only [h4]
  by_cases h5 : MatchString re5 filename = true
  · have hk : firstRule filename = some 5 := by
      simp [firstRule, firstIdx, ruleTable, h1, h2, h3, h4, h5]
    simp only [h5]
    rw [(extract_of_firstRule tz filename 5 hk (by decide)).2]
    rfl
  simp only [Bool.not_eq_true] at h5
  simp only [h5]
  by_cases h6 : MatchString re6 filename = true
  · have hk : firstRule filename = some 6 := by
      simp [firstRule, firstIdx, ruleTable, h1, h2, h3, h4, h5, h6]
    simp only [h6]
    rw [(extract_of_firstRule tz filename 6 hk (by decide)).2]
    rfl
  simp only [Bool.not_eq_true] at h6
  simp only [h6]
  by_cases h7 : MatchString re7 filename = true
  · have hk : firstRule filename = some 7 := by
      simp [firstRule, firstIdx, ruleTable, h1, h2, h3, h4, h5, h6, h7]
    simp only [h7]
    rw [(extract_of_firstRule tz filename 7 hk (by decide)).2]
    rfl
  simp only [Bool.not_eq_true] at h7
  simp only [h7]
  by_cases h8 : MatchString re8 filename = true
  · have hk : firstRule filename = some 8 := by
      simp [firstRule, firstIdx, ruleTable, h1, h2, h3, h4, h5, h6, h7, h8]
    simp only [h8]
    rw [(extract_of_firstRule tz filename 8 hk (by decide)).2, hfields hk]
    rfl
  simp only [Bool.not_eq_true] at h8
  simp only [h8]
  by_cases h9 : MatchString re9 filename = true
  · have hk : firstRule filename = some 9 := by
      simp [firstRule, firstIdx, ruleTable, h1, h2, h3, h4, h5, h6, h7, h8, h9]
    simp only [h9]
    have hz := hzone hk
    subst hz
    exact extract_epoch_spec filename hk
  simp only [Bool.not_eq_true] at h9
  simp only [h9]
  by_cases h10 : MatchString re10 filename = true
  · have hk : firstRule filename = some 10 := by
      simp [firstRule, firstIdx, ruleTable, h1, h2, h3, h4, h5, h6, h7, h8, h9, h10]
    simp only [h10]
    rw [(extract_of_firstRule tz filename 10 hk (by decide)).2]
    rfl
  simp only [Bool.not_eq_true] at h10
  simp only [h10]
  by_cases h11 : MatchString re11 filename = true
  · have hk : firstRule filename = some 11 := by
      simp [firstRule, firstIdx, ruleTable, h1, h2, h3, h4, h5, h6, h7, h8, h9, h10, h11]
    simp only [h11]
    rw [(extract_of_firstRule tz filename 11 hk (by decide)).2]
    rfl
  simp only [Bool.not_eq_true] at h11
  simp only [h11]
  by_cases h12 : MatchString re12 filename = true
  · have hk : firstRule filename = some 12 := by
      simp [firstRule, firstIdx, ruleTable, h1, h2, h3, h4, h5, h6, h7, h8, h9, h10, h11, h12]
    simp only [h12]
    rw [(extract_of_firstRule tz filename 12 hk (by decide)).2]
    rfl
  simp only [Bool.not_eq_true] at h12
  simp only [h12]
  by_cases h13 : MatchString re13 filename = true
  · have hk : firstRule filename = some 13 := by
      simp [firstRule, firstIdx, ruleTable, h1, h2, h3, h4, h5, h6, h7, h8, h9, h10, h11, h12, h13]
    simp only [h13]
    rw [(extract_of_firstRule tz filename 13 hk (by decide)).2]
    rfl
  simp only [Bool.not_eq_true] at h13
  simp only [h13]
  have hk : firstRule filename = none := by
    simp [firstRule, firstIdx, ruleTable, h1, h2, h3, h4, h5, h6, h7, h8, h9, h10, h11, h12, h13]
  exact extract_of_firstRule_none tz filename hk

/-- The agreement of the code with the specification at `Screenshot_2016-04-16-09-12-10.png`,
which rules 1 and 8 both match: the result is that of rule 1 alone. -/
theorem extract_eq_specExtract_example :
    extractDateFromFilename Zone.UTC "Screenshot_2016-04-16-09-12-10.png".toList =
      SpecRule.apply ⟨re1, .dateTime⟩ "Screenshot_2016-04-16-09-12-10.png".toList ∧
    MatchString re8 "Screenshot_2016-04-16-09-12-10.png".toList = true :=
  ⟨extract_eq_specExtract Zone.UTC "Screenshot_2016-04-16-09-12-10.png".toList
    (fun h => absurd h (by decide)) (fun _ => rfl), by decide⟩

/-- C1, at `2014-09-18 2015-01-01.jpg` and at `1704067200000.jpg` in a process whose local zone
is five hours west of UTC. Rule 8 is the lowest-numbered rule that matches the first filename;
alone it produces the date of the text of its shape, `2015-01-01T00:00:00Z`, and the call
returns `2014-09-18T00:00:00Z`. Rule 9 is the lowest-numbered rule that matches the second
filename; alone it fails, the year of the instant being 2024, and the call returns
`2024-01-01T00:00:00Z`. -/
theorem C1_switch_departs_from_spec_table :
    (firstRule "2014-09-18 2015-01-01.jpg".toList = some 8 ∧
      specExtract "2014-09-18 2015-01-01.jpg".toList =
        SpecRule.apply ⟨re8, .dateOnly⟩ "2014-09-18 2015-01-01.jpg".toList ∧
      specExtract "2014-09-18 2015-01-01.jpg".toList = .ok "2015-01-01T00:00:00Z".toList ∧
      extractDateFromFilename Zone.UTC "2014-09-18 2015-01-01.jpg".toList =
        .ok "2014-09-18T00:00:00Z".toList ∧
      extractDateFromFilename Zone.UTC "2014-09-18 2015-01-01.jpg".toList ≠
        specExtract "2014-09-18 2015-01-01.jpg".toList) ∧
    (firstRule "1704067200000.jpg".toList = some 9 ∧
      specExtract "1704067200000.jpg".toList =
        SpecRule.apply ⟨re9, .epochMillis⟩ "1704067200000.jpg".toList ∧
      specExtract "1704067200000.jpg".toList =
        .error "invalid unix timestamp in filename: 1704067200000.jpg".toList ∧
      extractDateFromFilename Zone.utcMinus5 "1704067200000.jpg".toList =
        .ok "2024-01-01T00:00:00Z".toList ∧
      extractDateFromFilename Zone.utcMinus5 "1704067200000.jpg".toList ≠
        specExtract "1704067200000.jpg".toList) := by
  refine ⟨⟨by decide, by decide, by decide, by decide, by decide⟩,
    ⟨by decide, by decide, by decide, by decide, by decide⟩⟩

end ImmichTimestampFix
